import Mathlib

/-!
# Hector: carbon-cycle kernel (`simpleNbox-runtime.cpp`) and forcing component
(`forcing_component.cpp`)

A shallow embedding of the solver-facing part of `SimpleNbox` and of `ForcingComponent`, and
proofs about them.

Conventions of the embedding.

* C++ `double` values and the numeric part of `unitval` are elements of an ordered
  field `K` (exact arithmetic; instantiate `K := ℚ` to evaluate). Unit tags are fixed
  by the source text of every expression modelled here and are not carried around.
  The literals `0.25`, `0.02`, `0.035` and `0.6` are the rationals they denote.
* Division by zero yields `0` in `K`, while the source would produce an infinity or a NaN;
  every statement that depends on a quotient assumes its divisor to be non-zero.
* A `std::map<std::string, T>` is an association list with one entry per key.
* An operation that can throw returns `Except Failure _`; an operation that throws after
  having changed the object returns the state it leaves behind together with the failure.
* `H_LOG` statements and `log_pools` produce log output only and are left out.
* Collaborators (ocean model, message hub) and constants declared in headers appear as
  parameters.
* Sums and differences of unit-carrying values are taken on the numbers. The values that
  collaborators and inputs hand over are taken to carry the unit the code expects, so the
  unit checks of the arithmetic operators pass and are left out, with one exception: a
  default-constructed value carries no such unit, and where one enters a difference (the
  rebasing loop of `run`, for a key without base-year entry) the operation fails. A
  default-constructed value that is returned is the number 0.
-/

set_option linter.unusedSectionVars false

namespace Hector

/-- The ways in which the modelled operations fail. -/
inductive Failure where
  /-- The assertion `H_ASSERT( yf >= 0 && yf <= 1, "yearfraction out of bounds" )` failed. -/
  | yearfraction_out_of_bounds
  /-- Member `std::map::at` was called with a key that has no entry. -/
  | out_of_range
  /-- A time series has no value to serve at the requested date. -/
  | tseries_no_data
  /-- A negative value was offered to a `fluxpool`. -/
  | negative_fluxpool
  /-- The ocean collaborator threw. -/
  | ocean_model
  /-- The throw `H_THROW( "Mass not conserved! (See log.)" )`. -/
  | mass_not_conserved
  /-- An `H_ASSERT( cond, msg )` whose condition is false; carries the message. -/
  | assertion (msg : String)
  /-- An `H_THROW( msg )`; carries the message. -/
  | thrown (msg : String)
  /-- Modelled from the spec: the unit check of the arithmetic of `unitval`, which is declared
  outside these files ("Addition/subtraction require identical tags"; a unit mismatch is
  fatal). -/
  | units_mismatch
  deriving DecidableEq, Repr

deriving instance DecidableEq for Except

/-! ## Containers -/

/-- A `std::map<std::string, T>`: association list, one entry per key. -/
abbrev stringmap (K : Type) := List (String × K)

section containers
variable {K : Type}

/-- The entry stored under `key`, if any (`std::map::find`). -/
def map_find : stringmap K → String → Option K
  | [], _ => none
  | (k, v) :: m, key => if k = key then some v else map_find m key

/-- Member `m.at( key )`: the stored value; throws when the key is missing. -/
def map_at (m : stringmap K) (key : String) : Except Failure K :=
  match map_find m key with
  | some v => Except.ok v
  | none => Except.error Failure.out_of_range

/-- Assignment `m[ key ] = v`: overwrite the entry, or create it. -/
def map_set : stringmap K → String → K → stringmap K
  | [], key, v => [(key, v)]
  | (k, x) :: m, key, v => if k = key then (k, v) :: m else (k, x) :: map_set m key v

/-- The keys of a map, in storage order. -/
def map_keys (m : stringmap K) : List String := m.map Prod.fst

/-- Modelled from the spec: `sum_map` (defined in `simpleNbox.cpp`, outside the two source
files) aggregates a per-biome pool map "by summation" over all of its entries. -/
def sum_map [Add K] [Zero K] (pool : stringmap K) : K :=
  pool.foldl (fun sum entry => sum + entry.2) 0

/-- Modelled from the spec: the time-series container (class `tseries`, declared outside the
two source files), a date → value map with point lookup and optional interpolation. `mapdata`
holds the stored entries; `interp` is what a lookup between stored dates yields (`none`: the
lookup fails), taken as a parameter. -/
structure tseries (K : Type) where
  mapdata : List (K × K)
  interp : K → Option K

/-- The value stored at exactly date `t`, if any. -/
def tseries_find [DecidableEq K] : List (K × K) → K → Option K
  | [], _ => none
  | (d, v) :: m, t => if d = t then some v else tseries_find m t

/-- Member `ts.size()`. -/
def tseries.size (ts : tseries K) : Nat := ts.mapdata.length

/-- Member `ts.exists( t )`: is there a stored entry at date `t`? -/
def tseries.exists_at [DecidableEq K] (ts : tseries K) (t : K) : Bool :=
  (tseries_find ts.mapdata t).isSome

/-- Member `ts.get( t )`: the stored entry at `t`, else the interpolated value, else a throw. -/
def tseries.get [DecidableEq K] (ts : tseries K) (t : K) : Except Failure K :=
  match tseries_find ts.mapdata t with
  | some v => Except.ok v
  | none =>
    match ts.interp t with
    | some v => Except.ok v
    | none => Except.error Failure.tseries_no_data

/-- Overwrite or create the entry at date `t` in the stored data. -/
def mapdata_set [DecidableEq K] : List (K × K) → K → K → List (K × K)
  | [], t, v => [(t, v)]
  | (d, x) :: m, t, v => if d = t then (d, v) :: m else (d, x) :: mapdata_set m t v

/-- Member `ts.set( t, v )`. -/
def tseries.set [DecidableEq K] (ts : tseries K) (t : K) (v : K) : tseries K :=
  { ts with mapdata := mapdata_set ts.mapdata t v }

/-- Modelled from the spec: a `fluxpool` (class declared outside the two source files) is a
unit-tagged value "additionally guaranteed non-negative": storing a negative number fails. -/
def fluxpool_set [LT K] [Zero K] [DecidableRel (fun a b : K => a < b)] (v : K) :
    Except Failure K :=
  if v < 0 then Except.error Failure.negative_fluxpool else Except.ok v

end containers

/-! ## Solver state vector -/

/-- Number of carbon pools seen by the solver (`ncpool()`). -/
def ncpool : Nat := 6

/-- Index of the atmosphere pool, `c[ 0 ]` ("atm" in the log line of `stashCValues`). -/
def SNBOX_ATMOS : Fin 6 := 0
/-- Index of the aggregated vegetation pool, `c[ 1 ]`. -/
def SNBOX_VEG : Fin 6 := 1
/-- Index of the aggregated detritus pool, `c[ 2 ]`. -/
def SNBOX_DET : Fin 6 := 2
/-- Index of the aggregated soil pool, `c[ 3 ]`. -/
def SNBOX_SOIL : Fin 6 := 3
/-- Index of the ocean pool, `c[ 4 ]`. -/
def SNBOX_OCEAN : Fin 6 := 4
/-- Index of the earth pool, `c[ 5 ]`. -/
def SNBOX_EARTH : Fin 6 := 5

/-! ## Collaborators and constants -/

/-- Constants declared in headers outside the two source files. -/
structure h_constants (K : Type) where
  PGC_TO_PPMVCO2 : K
  MB_EPSILON : K

/-- The ocean carbon model, through the part of its interface the kernel uses. -/
structure CarbonCycleModel (K : Type) where
  /-- Call `omodel->calcderivs( t, c, dcdt )`: the status code returned and the value left in
  `dcdt[ SNBOX_OCEAN ]` -/
  calcderivs : K → (Fin 6 → K) → Int × K
  /-- Call `omodel->stashCValues( t, c )`: `true` when it returns, `false` when it throws -/
  stashCValues : K → (Fin 6 → K) → Bool

/-- Message kinds of the hub. -/
inductive message_kind where
  | M_GETDATA
  | M_SETDATA
  | M_DUMP_TO_DEEP_OCEAN
  deriving DecidableEq, Repr

/-- A message handed to `core->sendMessage`: kind, capability name, carried value. -/
structure hub_message (K : Type) where
  kind : message_kind
  datum : String
  value : K
  deriving DecidableEq, Repr

/-- Name of the ocean carbon capability (`D_OCEAN_C`). -/
def D_OCEAN_C : String := "D_OCEAN_C"

/-- The message hub (`core`), through what `stashCValues` asks of it. -/
structure Core where
  inSpinup : Bool

/-! ## Kernel state -/

/-- The fields of `SimpleNbox` read or written by the functions of `simpleNbox-runtime.cpp`. -/
structure SimpleNbox (K : Type) where
  biome_list : List String
  veg_c : stringmap K
  detritus_c : stringmap K
  soil_c : stringmap K
  npp_flux0 : stringmap K
  co2fert : stringmap K
  tempfertd : stringmap K
  tempferts : stringmap K
  f_nppv : stringmap K
  f_nppd : stringmap K
  f_litterd : stringmap K
  f_lucv : K
  f_lucd : K
  C0 : K
  Ca : K
  atmos_c : K
  earth_c : K
  masstot : K
  residual : K
  atmosland_flux : K
  atmosland_flux_ts : tseries K
  ODEstartdate : K
  in_spinup : Bool
  ffiEmissions : tseries K
  lucEmissions : tseries K
  CO2_constrain : tseries K
  beta : stringmap K := []
  q10_rh : stringmap K := []
  warmingfactor : stringmap K := []
  Tgav_record : tseries K := ⟨[], fun _ => none⟩
  Ftalbedo : tseries K := ⟨[], fun _ => none⟩
  /-- Member `tempferts_tv`, through the map `tempferts_tv[ t ]` it yields at each date (the
  empty map at a date without record); its class is declared outside the two source files
  and nothing in them writes to it. -/
  tempferts_tv : K → stringmap K := fun _ => []

section kernel
variable {K : Type} [LinearOrderedField K]

/-! ## Fluxes (`npp`, `rh`, and their sums) -/

/-- Member `npp( biome )` as called with its default time argument
(`time == Core::undefinedIndex()`): `npp_flux0.at( biome ) * co2fert.at( biome )`. -/
def npp (s : SimpleNbox K) (biome : String) : Except Failure K := do
  let npp ← map_at s.npp_flux0 biome
  let fert ← map_at s.co2fert biome
  pure (npp * fert)

/-- Loop of `sum_npp()`. -/
def sum_npp_loop (s : SimpleNbox K) : List String → K → Except Failure K
  | [], total => pure total
  | biome :: rest, total => do
    let n ← npp s biome
    sum_npp_loop s rest (total + n)

/-- Member `sum_npp()`: NPP summed across all biomes. -/
def sum_npp (s : SimpleNbox K) : Except Failure K := sum_npp_loop s s.biome_list 0

/-- Member `rh_fda( biome )`: detritus component of heterotrophic respiration. -/
def rh_fda (s : SimpleNbox K) (biome : String) : Except Failure K := do
  let d ← map_at s.detritus_c biome
  let dflux := d * (25 / 100)
  let tf ← map_at s.tempfertd biome
  pure (dflux * tf)

/-- Member `rh_fsa( biome )`: soil component of heterotrophic respiration. -/
def rh_fsa (s : SimpleNbox K) (biome : String) : Except Failure K := do
  let so ← map_at s.soil_c biome
  let soilflux := so * (2 / 100)
  let tf ← map_at s.tempferts biome
  pure (soilflux * tf)

/-- Member `rh( biome )`: `rh_fda( biome ) + rh_fsa( biome )`. -/
def rh (s : SimpleNbox K) (biome : String) : Except Failure K := do
  let a ← rh_fda s biome
  let b ← rh_fsa s biome
  pure (a + b)

/-- Loop of `sum_rh()`. -/
def sum_rh_loop (s : SimpleNbox K) : List String → K → Except Failure K
  | [], total => pure total
  | biome :: rest, total => do
    let r ← rh s biome
    sum_rh_loop s rest (total + r)

/-- Member `sum_rh()`: RH summed across all biomes. -/
def sum_rh (s : SimpleNbox K) : Except Failure K := sum_rh_loop s s.biome_list 0

/-! ## `calcderivs` -/

/-- Accumulators of the first biome loop of `calcderivs`. -/
structure npp_rh_acc (K : Type) where
  npp_current : K
  npp_fav : K
  npp_fad : K
  npp_fas : K
  rh_fda_current : K
  rh_fsa_current : K

/-- First biome loop of `calcderivs` (NPP and its partition, RH components). -/
def calcderivs_npp_rh (s : SimpleNbox K) : List String → npp_rh_acc K → Except Failure (npp_rh_acc K)
  | [], acc => pure acc
  | biome :: rest, acc => do
    let npp_biome ← npp s biome
    let fv ← map_at s.f_nppv biome
    let fd ← map_at s.f_nppd biome
    let rd ← rh_fda s biome
    let rs ← rh_fsa s biome
    calcderivs_npp_rh s rest
      { npp_current := acc.npp_current + npp_biome
        npp_fav := acc.npp_fav + npp_biome * fv
        npp_fad := acc.npp_fad + npp_biome * fd
        npp_fas := acc.npp_fas + npp_biome * (1 - fv - fd)
        rh_fda_current := acc.rh_fda_current + rd
        rh_fsa_current := acc.rh_fsa_current + rs }

/-- Accumulators of the litter loop of `calcderivs`. -/
structure litter_acc (K : Type) where
  litter_flux : K
  litter_fvd : K
  litter_fvs : K

/-- Second biome loop of `calcderivs` (litter from vegetation, split by `f_litterd`). -/
def calcderivs_litter (s : SimpleNbox K) : List String → litter_acc K → Except Failure (litter_acc K)
  | [], acc => pure acc
  | biome :: rest, acc => do
    let vc ← map_at s.veg_c biome
    let v := vc * (35 / 1000)
    let fl ← map_at s.f_litterd biome
    calcderivs_litter s rest
      { litter_flux := acc.litter_flux + v
        litter_fvd := acc.litter_fvd + v * fl
        litter_fvs := acc.litter_fvs + v * (1 - fl) }

/-- Third biome loop of `calcderivs` (detritus to soil). -/
def calcderivs_detsoil (s : SimpleNbox K) : List String → K → Except Failure K
  | [], detsoil_flux => pure detsoil_flux
  | biome :: rest, detsoil_flux => do
    let d ← map_at s.detritus_c biome
    calcderivs_detsoil s rest (detsoil_flux + d * (6 / 10))

/-- Fossil-fuel and capture fluxes of `calcderivs`: the pair
`(ffi_flux_current, ccs_flux_current)`, both `fluxpool`s initialised to 0. -/
def calcderivs_ffi (s : SimpleNbox K) (t : K) : Except Failure (K × K) :=
  if !s.in_spinup then do
    let totflux ← s.ffiEmissions.get t
    if totflux ≥ 0 then do
      let ffi ← fluxpool_set totflux
      pure (ffi, 0)
    else do
      let ccs ← fluxpool_set totflux
      pure (0, ccs)
  else pure (0, 0)

/-- Land-use change emissions of `calcderivs` (`luc_current`). -/
def calcderivs_luc (s : SimpleNbox K) (t : K) : Except Failure K :=
  if !s.in_spinup then s.lucEmissions.get t else pure 0

/-- Member `calcderivs( t, c, dcdt )`: the returned status code and the six derivatives
written to `dcdt`, or the failure thrown. -/
def calcderivs (omodel : CarbonCycleModel K) (s : SimpleNbox K) (t : K) (c : Fin 6 → K) :
    Except Failure (Int × (Fin 6 → K)) := do
  let omodel_err := (omodel.calcderivs t c).1
  let atmosocean_flux := (omodel.calcderivs t c).2
  let a ← calcderivs_npp_rh s s.biome_list ⟨0, 0, 0, 0, 0, 0⟩
  let rh_current := a.rh_fda_current + a.rh_fsa_current
  let l ← calcderivs_litter s s.biome_list ⟨0, 0, 0⟩
  let detsoil_flux ← calcderivs_detsoil s s.biome_list 0
  let ff ← calcderivs_ffi s t
  let ffi_flux_current := ff.1
  let ccs_flux_current := ff.2
  let luc_current ← calcderivs_luc s t
  let luc_fva := luc_current * s.f_lucv
  let luc_fda := luc_current * s.f_lucd
  let luc_fsa := luc_current * (1 - s.f_lucv - s.f_lucd)
  let ch4ox_current : K := 0
  pure (omodel_err,
    ![ ffi_flux_current - ccs_flux_current + luc_current + ch4ox_current
         - atmosocean_flux - a.npp_current + rh_current,
       a.npp_fav - l.litter_flux - luc_fva,
       a.npp_fad + l.litter_fvd - detsoil_flux - a.rh_fda_current - luc_fda,
       a.npp_fas + l.litter_fvs + detsoil_flux - a.rh_fsa_current - luc_fsa,
       atmosocean_flux,
       - ffi_flux_current + ccs_flux_current ])

/-! ## `getCValues` and `stashCValues` -/

/-- Member `getCValues( t, c )`: the vector handed to the solver (the ocean slot is filled by
the ocean collaborator, here `ocean_c`) and the state with `ODEstartdate = t`. -/
def getCValues (s : SimpleNbox K) (t : K) (ocean_c : K) : (Fin 6 → K) × SimpleNbox K :=
  (![s.atmos_c, sum_map s.veg_c, sum_map s.detritus_c, sum_map s.soil_c, ocean_c, s.earth_c],
   { s with ODEstartdate := t })

/-- Outcome of a state-changing kernel call: the failure thrown (if any), the state the call
leaves behind, and the messages it sent to the hub, oldest first. -/
structure outcome (K : Type) where
  failure : Option Failure
  state : SimpleNbox K
  sent : List (hub_message K)

/-- Body of the apportioning loop of `stashCValues` for one biome. -/
def stash_biome (npp_rh_total veg_delta det_delta soil_delta : K) (s : SimpleNbox K)
    (biome : String) : Option Failure × SimpleNbox K :=
  match npp s biome with
  | Except.error e => (some e, s)
  | Except.ok n =>
  match rh s biome with
  | Except.error e => (some e, s)
  | Except.ok r =>
  let wt := (n + r) / npp_rh_total
  match map_at s.veg_c biome with
  | Except.error e => (some e, s)
  | Except.ok v =>
  let s1 := { s with veg_c := map_set s.veg_c biome (v + veg_delta * wt) }
  match map_at s1.detritus_c biome with
  | Except.error e => (some e, s1)
  | Except.ok d =>
  let s2 := { s1 with detritus_c := map_set s1.detritus_c biome (d + det_delta * wt) }
  match map_at s2.soil_c biome with
  | Except.error e => (some e, s2)
  | Except.ok so =>
  (none, { s2 with soil_c := map_set s2.soil_c biome (so + soil_delta * wt) })

/-- The apportioning loop of `stashCValues` over the biome list. -/
def stash_apportion (npp_rh_total veg_delta det_delta soil_delta : K) :
    List String → SimpleNbox K → Option Failure × SimpleNbox K
  | [], s => (none, s)
  | biome :: rest, s =>
    match stash_biome npp_rh_total veg_delta det_delta soil_delta s biome with
    | (some e, s1) => (some e, s1)
    | (none, s1) => stash_apportion npp_rh_total veg_delta det_delta soil_delta rest s1

/-- First part of `stashCValues`, after the year-fraction assertion and up to the store of
`earth_c`: solver pools are written back into the kernel. `atmos_c` is a `fluxpool`
("calculated by subtracting two fluxpools"). -/
def stash_pools (omodel : CarbonCycleModel K) (s : SimpleNbox K) (t : K) (c : Fin 6 → K) :
    Option Failure × SimpleNbox K :=
  match fluxpool_set (c SNBOX_ATMOS) with
  | Except.error e => (some e, s)
  | Except.ok a =>
  let s1 := { s with atmos_c := a }
  match sum_npp s1 with
  | Except.error e => (some e, s1)
  | Except.ok npp_total =>
  match sum_rh s1 with
  | Except.error e => (some e, s1)
  | Except.ok rh_total =>
  match s1.lucEmissions.get t with
  | Except.error e => (some e, s1)
  | Except.ok luc =>
  let s2 := { s1 with
    atmosland_flux := npp_total - rh_total - luc
    atmosland_flux_ts := s1.atmosland_flux_ts.set t (npp_total - rh_total - luc) }
  let npp_rh_total := npp_total + rh_total
  let newveg := c SNBOX_VEG
  let newdet := c SNBOX_DET
  let newsoil := c SNBOX_SOIL
  let veg_delta := newveg - sum_map s2.veg_c
  let det_delta := newdet - sum_map s2.detritus_c
  let soil_delta := newsoil - sum_map s2.soil_c
  match stash_apportion npp_rh_total veg_delta det_delta soil_delta s2.biome_list s2 with
  | (some e, s3) => (some e, s3)
  | (none, s3) =>
  if omodel.stashCValues t c then (none, { s3 with earth_c := c SNBOX_EARTH })
  else (some Failure.ocean_model, s3)

/-- The loop `for( i = 0; i < ncpool(); i++ ) sum += c[ i ]` of `stashCValues`. -/
def stash_sum (c : Fin 6 → K) : K :=
  0 + c 0 + c 1 + c 2 + c 3 + c 4 + c 5

/-- The carbon pool that the atmosphere is made to match in `stashCValues`
(`atmos_cpool_to_match`, a `fluxpool`). -/
def atmos_cpool_to_match (k : h_constants K) (core : Core) (s : SimpleNbox K) (t : K) :
    Except Failure K :=
  if core.inSpinup then fluxpool_set (s.C0 / k.PGC_TO_PPMVCO2)
  else do
    let v ← s.CO2_constrain.get t
    fluxpool_set (v / k.PGC_TO_PPMVCO2)

/-- Last part of `stashCValues` before `ODEstartdate` is advanced: the atmospheric CO2
constraint. -/
def stash_constrain (k : h_constants K) (core : Core) (s : SimpleNbox K) (t : K) : outcome K :=
  if core.inSpinup || (decide (s.CO2_constrain.size ≠ 0) && s.CO2_constrain.exists_at t) then
    match atmos_cpool_to_match k core s t with
    | Except.error e => ⟨some e, s, []⟩
    | Except.ok to_match =>
    let s1 := { s with residual := s.atmos_c - to_match }
    let msg : hub_message K := ⟨message_kind.M_DUMP_TO_DEEP_OCEAN, D_OCEAN_C, s1.residual⟩
    let s2 := { s1 with atmos_c := s1.atmos_c - s1.residual }
    ⟨none, { s2 with Ca := s2.atmos_c * k.PGC_TO_PPMVCO2 }, [msg]⟩
  else
    ⟨none, { s with residual := 0 }, []⟩

/-- Member `stashCValues( t, c )`. -/
def stashCValues (k : h_constants K) (core : Core) (omodel : CarbonCycleModel K)
    (s : SimpleNbox K) (t : K) (c : Fin 6 → K) : outcome K :=
  let yf := t - s.ODEstartdate
  if yf ≥ 0 ∧ yf ≤ 1 then
    match stash_pools omodel s t c with
    | (some e, s1) => ⟨some e, s1, []⟩
    | (none, s1) =>
    let sum := stash_sum c
    let diff := |sum - s1.masstot|
    if s1.masstot > 0 ∧ diff > k.MB_EPSILON then
      ⟨some Failure.mass_not_conserved, s1, []⟩
    else
      let s2 := { s1 with masstot := sum }
      match stash_constrain k core s2 t with
      | ⟨some e, s3, sent⟩ => ⟨some e, s3, sent⟩
      | ⟨none, s3, sent⟩ => ⟨none, { s3 with ODEstartdate := t }, sent⟩
  else
    ⟨some Failure.yearfraction_out_of_bounds, s, []⟩

/-- Proof-side predicate: every per-biome map read by `calcderivs` and `stashCValues` has an
entry for `biome` (what `prepareToRun` and the input code establish for the biome list). -/
def biome_complete (s : SimpleNbox K) (biome : String) : Bool :=
  (map_find s.veg_c biome).isSome && (map_find s.detritus_c biome).isSome
    && (map_find s.soil_c biome).isSome && (map_find s.npp_flux0 biome).isSome
    && (map_find s.co2fert biome).isSome && (map_find s.tempfertd biome).isSome
    && (map_find s.tempferts biome).isSome && (map_find s.f_nppv biome).isSome
    && (map_find s.f_nppd biome).isSome && (map_find s.f_litterd biome).isSome

/-- Proof-side reading of a map entry: the value `m.at( key )` when the entry exists, 0
otherwise. -/
def map_val (m : stringmap K) (key : String) : K :=
  (map_find m key).getD 0

/-! ## `sanitychecks` and `prepareToRun` -/

/-- Name of the single-biome sentinel (`SNBOX_DEFAULT_BIOME`), "global". -/
def SNBOX_DEFAULT_BIOME : String := "global"

/-- Modelled from the spec: `has_biome` (declared outside the two source files) tells whether
the biome list holds the given biome name. -/
def has_biome (s : SimpleNbox K) (biome : String) : Bool :=
  s.biome_list.contains biome

/-- Member `m.count( key )` of a map, as a truth value. -/
def map_count (m : stringmap K) (key : String) : Bool :=
  (map_find m key).isSome

/-- The macro `H_ASSERT( cond, msg )`: throws with the message when the condition is false. -/
def h_assert (cond : Bool) (msg : String) : Except Failure Unit :=
  if cond then Except.ok () else Except.error (Failure.assertion msg)

/-- Body of the biome loop of `sanitychecks`. -/
def sanitychecks_biome (s : SimpleNbox K) (biome : String) : Except Failure Unit := do
  let veg ← map_at s.veg_c biome
  h_assert (decide (veg ≥ 0)) "veg_c pool < 0"
  let det ← map_at s.detritus_c biome
  h_assert (decide (det ≥ 0)) "detritus_c pool < 0"
  let soil ← map_at s.soil_c biome
  h_assert (decide (soil ≥ 0)) "soil_c pool < 0"
  let npp0 ← map_at s.npp_flux0 biome
  h_assert (decide (npp0 ≥ 0)) "npp_flux0 < 0"
  let fv ← map_at s.f_nppv biome
  h_assert (decide (fv ≥ 0)) "f_nppv <0"
  let fd ← map_at s.f_nppd biome
  h_assert (decide (fd ≥ 0)) "f_nppd <0"
  h_assert (decide (fv + fd ≤ 1)) "f_nppv + f_nppd >1"
  let fl ← map_at s.f_litterd biome
  h_assert (decide (fl ≥ 0) && decide (fl ≤ 1)) "f_litterd <0 or >1"

/-- The biome loop of `sanitychecks`. -/
def sanitychecks_loop (s : SimpleNbox K) : List String → Except Failure Unit
  | [] => Except.ok ()
  | biome :: rest => do
    sanitychecks_biome s biome
    sanitychecks_loop s rest

/-- The checks made by `sanitychecks`, in source order; they only read the state. -/
def sanitychecks_checks (s : SimpleNbox K) : Except Failure Unit := do
  h_assert (decide (s.atmos_c > 0)) "atmos_c pool <=0"
  sanitychecks_loop s s.biome_list
  h_assert (decide (s.f_lucv ≥ 0)) "f_lucv <0"
  h_assert (decide (s.f_lucd ≥ 0)) "f_lucd <0"
  h_assert (decide (s.f_lucv + s.f_lucd ≤ 1)) "f_lucv + f_lucd >1"
  h_assert (decide (s.C0 > 0)) "C0 <= 0"
  h_assert (decide (s.Ca > 0)) "Ca <= 0"

/-- Member `sanitychecks()`: the failure thrown (if any) and the state it leaves behind. -/
def sanitychecks (s : SimpleNbox K) : outcome K :=
  match sanitychecks_checks s with
  | Except.error e => ⟨some e, s, []⟩
  | Except.ok _ => ⟨none, s, []⟩

/-- The four cardinality assertions of `prepareToRun`. -/
def prepare_sizes (s : SimpleNbox K) : Except Failure Unit := do
  h_assert (decide (s.biome_list.length = s.veg_c.length))
    "veg_c and biome_list data not same size"
  h_assert (decide (s.biome_list.length = s.detritus_c.length))
    "detritus_c and biome_list not same size"
  h_assert (decide (s.biome_list.length = s.soil_c.length))
    "soil_c and biome_list not same size"
  h_assert (decide (s.biome_list.length = s.npp_flux0.length))
    "npp_flux0 and biome_list not same size"

/-- The completeness assertions of `prepareToRun` for one biome. -/
def prepare_biome_checks (s : SimpleNbox K) (biome : String) : Except Failure Unit := do
  h_assert (map_count s.detritus_c biome) "no biome data for detritus_c"
  h_assert (map_count s.soil_c biome) "no biome data for soil_c"
  h_assert (map_count s.npp_flux0 biome) "no biome data for npp_flux0"
  h_assert (map_count s.beta biome) "no biome value for beta"

/-- The first biome loop of `prepareToRun`: completeness assertions, and the default
`warmingfactor` 1.0 for a biome without one. -/
def prepare_biomes : List String → SimpleNbox K → Option Failure × SimpleNbox K
  | [], s => (none, s)
  | biome :: rest, s =>
    match prepare_biome_checks s biome with
    | Except.error e => (some e, s)
    | Except.ok _ =>
      if !map_count s.warmingfactor biome then
        prepare_biomes rest { s with warmingfactor := map_set s.warmingfactor biome 1 }
      else prepare_biomes rest s

/-- The one-time checks of `prepareToRun` on `beta` and `q10_rh`. -/
def prepare_params (s : SimpleNbox K) : List String → Except Failure Unit
  | [] => Except.ok ()
  | biome :: rest => do
    let b ← map_at s.beta biome
    h_assert (decide (b ≥ 0)) "beta < 0"
    let q ← map_at s.q10_rh biome
    h_assert (decide (q > 0)) "q10_rh <= 0.0"
    prepare_params s rest

/-- The default terrestrial albedo of `prepareToRun`: without albedo data, -0.2 at the start
and at the end date. -/
def prepare_albedo (startDate endDate : K) (s : SimpleNbox K) : SimpleNbox K :=
  if s.Ftalbedo.size = 0 then
    { s with Ftalbedo := (s.Ftalbedo.set startDate (-(2 / 10))).set endDate (-(2 / 10)) }
  else s

/-- Member `prepareToRun()`. The header constant `PPMVCO2_TO_PGC` and the dates
`core->getStartDate()`, `core->getEndDate()` are parameters; the lookup of the ocean model
pointer is left out. -/
def prepareToRun (PPMVCO2_TO_PGC startDate endDate : K) (s : SimpleNbox K) : outcome K :=
  if has_biome s SNBOX_DEFAULT_BIOME && decide (s.biome_list.length > 1) then
    ⟨some (Failure.thrown "Cannot have both global and biome-specific data!"), s, []⟩
  else
    match prepare_sizes s with
    | Except.error e => ⟨some e, s, []⟩
    | Except.ok _ =>
    match prepare_biomes s.biome_list s with
    | (some e, s1) => ⟨some e, s1, []⟩
    | (none, s1) =>
    let s2 := prepare_albedo startDate endDate s1
    let c0init := s2.C0
    let s3 := { s2 with Ca := c0init }
    match fluxpool_set (c0init * PPMVCO2_TO_PGC) with
    | Except.error e => ⟨some e, s3, []⟩
    | Except.ok a =>
    let s4 := { s3 with atmos_c := a }
    match prepare_params s4 s4.biome_list with
    | Except.error e => ⟨some e, s4, []⟩
    | Except.ok _ => sanitychecks s4

/-! ## `slowparameval` -/

/-- The functions of the C math library used by the two source files, as parameters. -/
structure libm (K : Type) where
  log : K → K
  sqrt : K → K
  pow : K → K → K

/-- What `slowparameval` asks of the hub: the global mean temperature served for
`D_GLOBAL_TEMP`, the start date and the sentinel `Core::undefinedIndex()`. -/
structure hub_values (K : Type) where
  Tgav : K
  startDate : K
  undefinedIndex : K

/-- Member `calc_co2fert( biome )` as called with its default time argument (`Ca_t = Ca`):
`1 + beta.at( biome ) * log( Ca_t / C0 )`. -/
def calc_co2fert (L : libm K) (s : SimpleNbox K) (biome : String) : Except Failure K := do
  let b ← map_at s.beta biome
  pure (1 + b * L.log (s.Ca / s.C0))

/-- The CO2 fertilization loop of `slowparameval`. -/
def slowparam_co2fert (L : libm K) : List String → SimpleNbox K → Option Failure × SimpleNbox K
  | [], s => (none, s)
  | biome :: rest, s =>
    if s.in_spinup then
      slowparam_co2fert L rest { s with co2fert := map_set s.co2fert biome 1 }
    else
      match calc_co2fert L s biome with
      | Except.error e => (some e, s)
      | Except.ok f => slowparam_co2fert L rest { s with co2fert := map_set s.co2fert biome f }

/-- The macro `Q10_TEMPLAG` (0). -/
def Q10_TEMPLAG : Int := 0

/-- The macro `Q10_TEMPN` (200). -/
def Q10_TEMPN : Int := 200

/-- Conversion of a `double` to `int`: truncation toward zero. -/
def double_to_int [FloorRing K] (x : K) : Int :=
  if 0 ≤ x then Int.floor x else Int.ceil x

/-- The biome-specific warming `wf` of `slowparameval`: the biome's `warmingfactor`, else
the one of the "global" biome, else 1.0. -/
def warming_wf (s : SimpleNbox K) (biome : String) : K :=
  match map_find s.warmingfactor biome with
  | some w => w
  | none =>
    match map_find s.warmingfactor SNBOX_DEFAULT_BIOME with
    | some w => w
    | none => 1

/-- The window loop of `slowparameval`: `n` passes of `Tgav_rm += Tgav_record.get( i ) * wf`
starting at the integer `i`. -/
def Tgav_window (record : tseries K) (wf : K) : Nat → Int → K → Except Failure K
  | 0, _, Tgav_rm => Except.ok Tgav_rm
  | n + 1, i, Tgav_rm => do
    let T ← record.get (i : K)
    Tgav_window record wf n (i + 1) (Tgav_rm + T * wf)

/-- The window mean `Tgav_rm` of `slowparameval`: 0 unless `t > startDate + Q10_TEMPLAG`;
otherwise the sum over the integers `i` from `int( t - Q10_TEMPLAG - Q10_TEMPN )` while
`i < t - Q10_TEMPLAG`, divided by `Q10_TEMPN`. -/
def Tgav_rm [FloorRing K] (hub : hub_values K) (s : SimpleNbox K) (wf t : K) :
    Except Failure K :=
  if t > hub.startDate + (Q10_TEMPLAG : K) then do
    let first := double_to_int (t - (Q10_TEMPLAG : K) - (Q10_TEMPN : K))
    let passes := (Int.ceil (t - (Q10_TEMPLAG : K)) - first).toNat
    let sum ← Tgav_window s.Tgav_record wf passes first 0
    pure (sum / (Q10_TEMPN : K))
  else Except.ok 0

/-- Previous time step values of `tempferts` (`tfs_last`): `tempferts_tv[ t ]` when `t` is
defined and after the start date, else the empty map. -/
def tfs_last (hub : hub_values K) (s : SimpleNbox K) (t : K) : stringmap K :=
  if t ≠ hub.undefinedIndex ∧ t > hub.startDate then s.tempferts_tv t else []

/-- The value `tfs_last[ biome ]`: 0.0 when the map has no entry. -/
def tempferts_last (last : stringmap K) (biome : String) : K :=
  match map_find last biome with
  | some v => v
  | none => 0

/-- Body of the temperature loop of `slowparameval` for one biome. -/
def slowparam_temp_biome [FloorRing K] (L : libm K) (hub : hub_values K) (last : stringmap K)
    (t : K) (s : SimpleNbox K) (biome : String) : Option Failure × SimpleNbox K :=
  if s.in_spinup then
    (none, { s with
      tempfertd := map_set s.tempfertd biome 1
      tempferts := map_set s.tempferts biome 1 })
  else
    let wf := warming_wf s biome
    let Tgav_biome := hub.Tgav * wf
    match map_at s.q10_rh biome with
    | Except.error e => (some e, s)
    | Except.ok q10 =>
    let s1 := { s with tempfertd := map_set s.tempfertd biome (L.pow q10 (Tgav_biome / 10)) }
    match Tgav_rm hub s1 wf t with
    | Except.error e => (some e, s1)
    | Except.ok rm =>
    let computed := L.pow q10 (rm / 10)
    let tempferts_last := tempferts_last last biome
    if computed < tempferts_last then
      (none, { s1 with tempferts := map_set s1.tempferts biome tempferts_last })
    else
      (none, { s1 with tempferts := map_set s1.tempferts biome computed })

/-- The temperature loop of `slowparameval`. -/
def slowparam_temp [FloorRing K] (L : libm K) (hub : hub_values K) (last : stringmap K)
    (t : K) : List String → SimpleNbox K → Option Failure × SimpleNbox K
  | [], s => (none, s)
  | biome :: rest, s =>
    match slowparam_temp_biome L hub last t s biome with
    | (some e, s1) => (some e, s1)
    | (none, s1) => slowparam_temp L hub last t rest s1

/-- Member `slowparameval( t, c )`. The ocean model's own `slowparameval` does not touch the
kernel and is left out; the closing `H_LOG` statement is left out with the other log
statements. -/
def slowparameval [FloorRing K] (L : libm K) (k : h_constants K) (hub : hub_values K)
    (s : SimpleNbox K) (t : K) (c : Fin 6 → K) : outcome K :=
  let s1 := { s with Ca := c SNBOX_ATMOS * k.PGC_TO_PPMVCO2 }
  match slowparam_co2fert L s1.biome_list s1 with
  | (some e, s2) => ⟨some e, s2, []⟩
  | (none, s2) =>
  let last := tfs_last hub s2 t
  match slowparam_temp L hub last t s2.biome_list s2 with
  | (some e, s3) => ⟨some e, s3, []⟩
  | (none, s3) => ⟨none, s3, []⟩

end kernel

/-! ## The forcing component: per-agent forcings of `run` -/

section forcing
variable {K : Type} [LinearOrderedField K]

/-- Modelled from the spec: the header `forcing_component.hpp` with the literal
coefficients `a1, b1, c1, d1, a2, b2, c2, a3, b3, d3` is not among the sources; the
coefficients are parameters of the model. -/
structure forcing_constants (K : Type) where
  a1 : K
  b1 : K
  c1 : K
  d1 : K
  a2 : K
  b2 : K
  c2 : K
  a3 : K
  b3 : K
  d3 : K

/-- Modelled from the spec: the header that gives the capability names their text is not
among the sources; each name is modelled by the text of its macro, so that different macros
are different names. This one is `D_ATMOSPHERIC_CH4`. -/
def D_ATMOSPHERIC_CH4 : String := "D_ATMOSPHERIC_CH4"

/-- Capability name `D_ATMOSPHERIC_N2O`. -/
def D_ATMOSPHERIC_N2O : String := "D_ATMOSPHERIC_N2O"

/-- Capability name `D_ATMOSPHERIC_CO2`. -/
def D_ATMOSPHERIC_CO2 : String := "D_ATMOSPHERIC_CO2"

/-- Capability name `D_PREINDUSTRIAL_CO2`. -/
def D_PREINDUSTRIAL_CO2 : String := "D_PREINDUSTRIAL_CO2"

/-- Capability name `D_PREINDUSTRIAL_CH4`. -/
def D_PREINDUSTRIAL_CH4 : String := "D_PREINDUSTRIAL_CH4"

/-- Capability name `D_PREINDUSTRIAL_N2O`. -/
def D_PREINDUSTRIAL_N2O : String := "D_PREINDUSTRIAL_N2O"

/-- Capability name `D_ATMOSPHERIC_O3`. -/
def D_ATMOSPHERIC_O3 : String := "D_ATMOSPHERIC_O3"

/-- Capability name `D_EMISSIONS_BC`. -/
def D_EMISSIONS_BC : String := "D_EMISSIONS_BC"

/-- Capability name `D_EMISSIONS_OC`. -/
def D_EMISSIONS_OC : String := "D_EMISSIONS_OC"

/-- Capability name `D_NATURAL_SO2`. -/
def D_NATURAL_SO2 : String := "D_NATURAL_SO2"

/-- Capability name `D_EMISSIONS_SO2`. -/
def D_EMISSIONS_SO2 : String := "D_EMISSIONS_SO2"

/-- Capability name `D_2000_SO2`. -/
def D_2000_SO2 : String := "D_2000_SO2"

/-- Capability name `D_VOLCANIC_SO2`. -/
def D_VOLCANIC_SO2 : String := "D_VOLCANIC_SO2"

/-- Forcing name `D_RF_CO2`. -/
def D_RF_CO2 : String := "D_RF_CO2"

/-- Forcing name `D_RF_N2O`. -/
def D_RF_N2O : String := "D_RF_N2O"

/-- Forcing name `D_RF_CH4`. -/
def D_RF_CH4 : String := "D_RF_CH4"

/-- Forcing name `D_RF_H2O_STRAT`. -/
def D_RF_H2O_STRAT : String := "D_RF_H2O_STRAT"

/-- Forcing name `D_RF_O3_TROP`. -/
def D_RF_O3_TROP : String := "D_RF_O3_TROP"

/-- Forcing name `D_RF_BC`. -/
def D_RF_BC : String := "D_RF_BC"

/-- Forcing name `D_RF_OC`. -/
def D_RF_OC : String := "D_RF_OC"

/-- Forcing name `D_RF_SO2`. -/
def D_RF_SO2 : String := "D_RF_SO2"

/-- Forcing name `D_RF_T_ALBEDO`. -/
def D_RF_T_ALBEDO : String := "D_RF_T_ALBEDO"

/-- Forcing name `D_RF_VOL`. -/
def D_RF_VOL : String := "D_RF_VOL"

/-- The array `halos` of `run` (the same 26 names as the table `halo_forcing_names`), each
name modelled by the text of its macro. -/
def halos : List String :=
  ["D_RF_CF4", "D_RF_C2F6", "D_RF_HFC23", "D_RF_HFC32", "D_RF_HFC4310", "D_RF_HFC125",
   "D_RF_HFC134a", "D_RF_HFC143a", "D_RF_HFC227ea", "D_RF_HFC245fa", "D_RF_SF6",
   "D_RF_CFC11", "D_RF_CFC12", "D_RF_CFC113", "D_RF_CFC114", "D_RF_CFC115", "D_RF_CCl4",
   "D_RF_CH3CCl3", "D_RF_HCFC22", "D_RF_HCFC141b", "D_RF_HCFC142b", "D_RF_halon1211",
   "D_RF_halon1301", "D_RF_halon2402", "D_RF_CH3Cl", "D_RF_CH3Br"]

/-- The message hub (`core`), through what the forcing component asks of it:
`checkCapability( name )`, and `sendMessage( M_GETDATA, name, date )` read in the unit asked
for, which may throw; the date `none` is a message without date. -/
structure forcing_hub (K : Type) where
  checkCapability : String → Bool
  getData : String → Option K → Except Failure K

/-- The members of `ForcingComponent` that `forcing_component.cpp` reads or writes when it is
configured and when `run` computes the forcings; unit-carrying values are modelled by their
numbers. -/
structure ForcingComponent (K : Type) where
  baseyear : K
  currentYear : K
  aCO2 : K
  delta_ch4 : K
  delta_n2o : K
  delta_co2 : K
  rho_bc : K
  rho_oc : K
  rho_so2 : K
  Ftot_constrain : tseries K
  baseyear_forcings : stringmap K
  forcings_ts : List (K × stringmap K) := []
  forcing_name_map : stringmap String := []

/-- Value given to `alpha_prime` in `run` when `Ca > C_alpha_max`:
`d1 - (pow(b1, 2) / (2 * a1))`. -/
def alpha_prime_upper (L : libm K) (k : forcing_constants K) : K :=
  k.d1 - (L.pow k.b1 2 / (2 * k.a1))

/-- Value given to `alpha_prime` in `run` when `C0 < Ca && Ca < C_alpha_max`:
`d1 + a1 * pow((Ca-C0), 2) + b1 * (Ca-C0)`. -/
def alpha_prime_middle (L : libm K) (k : forcing_constants K) (C0 Ca : K) : K :=
  k.d1 + k.a1 * L.pow (Ca - C0) 2 + k.b1 * (Ca - C0)

/-- The threshold `C_alpha_max = C0 - (b1/(2*a1))` of `run`. -/
def C_alpha_max (k : forcing_constants K) (C0 : K) : K :=
  C0 - (k.b1 / (2 * k.a1))

/-- The cascade of `run` that chooses `alpha_prime`; its last branch throws. -/
def co2_alpha_prime (L : libm K) (k : forcing_constants K) (C0 Ca : K) : Except Failure K :=
  if Ca > C_alpha_max k C0 then
    Except.ok (alpha_prime_upper L k)
  else if C0 < Ca ∧ Ca < C_alpha_max k C0 then
    Except.ok (alpha_prime_middle L k C0 Ca)
  else if Ca < C0 then
    Except.ok k.d1
  else
    Except.error (Failure.thrown "Caller is requesting unknown condition for CO2  SARF ")

/-- The block "Major GHGs" of `run`: CO2, N2O, CH4 and stratospheric H2O, pushed into the
map `forcings`. -/
def run_ghg (L : libm K) (k : forcing_constants K) (hub : forcing_hub K)
    (f : ForcingComponent K) (runToDate : K) (forcings : stringmap K) :
    Except Failure (stringmap K) :=
  if hub.checkCapability D_ATMOSPHERIC_CH4 && hub.checkCapability D_ATMOSPHERIC_N2O
      && hub.checkCapability D_ATMOSPHERIC_CO2 then do
    let C0 ← hub.getData D_PREINDUSTRIAL_CO2 none
    let M0 ← hub.getData D_PREINDUSTRIAL_CH4 none
    let N0 ← hub.getData D_PREINDUSTRIAL_N2O none
    let Ca ← hub.getData D_ATMOSPHERIC_CO2 (some runToDate)
    let Ma ← hub.getData D_ATMOSPHERIC_CH4 (some runToDate)
    let Na ← hub.getData D_ATMOSPHERIC_N2O (some runToDate)
    let n2o_alpha := k.c1 * L.sqrt Na
    let alpha_prime ← co2_alpha_prime L k C0 Ca
    let sarf_co2 := (alpha_prime + n2o_alpha) * L.log (Ca / C0)
    let fco2 := (sarf_co2 * f.delta_co2) + sarf_co2
    let forcings := map_set forcings D_RF_CO2 fco2
    let sarf_n2o := (k.a2 * L.sqrt Ca + k.b2 * L.sqrt Na + k.c2 * L.sqrt Ma)
      * (L.sqrt Na - L.sqrt N0)
    let fn2o := (f.delta_n2o * sarf_n2o) + sarf_n2o
    let forcings := map_set forcings D_RF_N2O fn2o
    let sarf_ch4 := (k.a3 * L.sqrt Ma + k.b3 * L.sqrt Na + k.d3) * (L.sqrt Ma - L.sqrt M0)
    let fch4 := (f.delta_ch4 * sarf_ch4) + sarf_ch4
    let forcings := map_set forcings D_RF_CH4 fch4
    let fh2o_strat := 5 / 100 * (36 / 1000 * (L.sqrt Ma - L.sqrt M0))
    pure (map_set forcings D_RF_H2O_STRAT fh2o_strat)
  else
    pure forcings

/-- The block "Troposheric Ozone" of `run`. -/
def run_o3 (hub : forcing_hub K) (runToDate : K) (forcings : stringmap K) :
    Except Failure (stringmap K) :=
  if hub.checkCapability D_ATMOSPHERIC_O3 then do
    let ozone ← hub.getData D_ATMOSPHERIC_O3 (some runToDate)
    let fo3_trop := 42 / 1000 * ozone
    pure (map_set forcings D_RF_O3_TROP fo3_trop)
  else
    pure forcings

/-- The loop over `halos` of `run`: a halocarbon whose capability is registered has its
forcing fetched from the hub. -/
def run_halos (hub : forcing_hub K) (runToDate : K) :
    List String → stringmap K → Except Failure (stringmap K)
  | [], forcings => pure forcings
  | name :: rest, forcings =>
    if hub.checkCapability name then do
      let v ← hub.getData name (some runToDate)
      run_halos hub runToDate rest (map_set forcings name v)
    else
      run_halos hub runToDate rest forcings

/-- The block "Aerosols" of `run`. The local `faci` is computed and never used; it is left
out. -/
def run_aerosols (hub : forcing_hub K) (f : ForcingComponent K) (runToDate : K)
    (forcings : stringmap K) : Except Failure (stringmap K) :=
  if hub.checkCapability D_EMISSIONS_BC && hub.checkCapability D_EMISSIONS_OC
      && hub.checkCapability D_NATURAL_SO2 && hub.checkCapability D_EMISSIONS_SO2 then do
    let E_BC ← hub.getData D_EMISSIONS_BC (some runToDate)
    let fbc := f.rho_bc * E_BC
    let forcings := map_set forcings D_RF_BC fbc
    let E_OC ← hub.getData D_EMISSIONS_OC (some runToDate)
    let foc := f.rho_oc * E_OC
    let forcings := map_set forcings D_RF_OC foc
    let S0 ← hub.getData D_2000_SO2 none
    let _ ← hub.getData D_NATURAL_SO2 none
    h_assert (decide (S0 > 0)) "S0 is 0"
    let E_SO2 ← hub.getData D_EMISSIONS_SO2 (some runToDate)
    let fso2 := f.rho_so2 * E_SO2
    pure (map_set forcings D_RF_SO2 fso2)
  else
    pure forcings

/-- The block "Terrestrial albedo" of `run`. -/
def run_albedo (hub : forcing_hub K) (runToDate : K) (forcings : stringmap K) :
    Except Failure (stringmap K) :=
  if hub.checkCapability D_RF_T_ALBEDO then do
    let v ← hub.getData D_RF_T_ALBEDO (some runToDate)
    pure (map_set forcings D_RF_T_ALBEDO v)
  else
    pure forcings

/-- The block "Volcanic forcings" of `run`. -/
def run_volcanic (hub : forcing_hub K) (runToDate : K) (forcings : stringmap K) :
    Except Failure (stringmap K) :=
  if hub.checkCapability D_VOLCANIC_SO2 then do
    let v ← hub.getData D_VOLCANIC_SO2 (some runToDate)
    pure (map_set forcings D_RF_VOL v)
  else
    pure forcings

/-- The absolute per-agent forcings that `run( runToDate )` computes, for a date at or after
the base year, into its fresh map `forcings`: all blocks before "Total". -/
def run_forcings (L : libm K) (k : forcing_constants K) (hub : forcing_hub K)
    (f : ForcingComponent K) (runToDate : K) : Except Failure (stringmap K) := do
  let forcings ← run_ghg L k hub f runToDate []
  let forcings ← run_o3 hub runToDate forcings
  let forcings ← run_halos hub runToDate halos forcings
  let forcings ← run_aerosols hub f runToDate forcings
  let forcings ← run_albedo hub runToDate forcings
  run_volcanic hub runToDate forcings

/-! ## The forcing component: total, rebasing, `getData`, `setData`, `prepareToRun`, `init` -/

/-- Forcing name `D_RF_TOTAL`. -/
def D_RF_TOTAL : String := "D_RF_TOTAL"

/-- Name `D_RF_BASEYEAR`. -/
def D_RF_BASEYEAR : String := "D_RF_BASEYEAR"

/-- Name `D_FTOT_CONSTRAIN`. -/
def D_FTOT_CONSTRAIN : String := "D_FTOT_CONSTRAIN"

/-- Parameter name `D_ACO2`. -/
def D_ACO2 : String := "D_ACO2"

/-- Parameter name `D_DELTA_CH4`. -/
def D_DELTA_CH4 : String := "D_DELTA_CH4"

/-- Parameter name `D_DELTA_N2O`. -/
def D_DELTA_N2O : String := "D_DELTA_N2O"

/-- Parameter name `D_DELTA_CO2`. -/
def D_DELTA_CO2 : String := "D_DELTA_CO2"

/-- Parameter name `D_RHO_BC`. -/
def D_RHO_BC : String := "D_RHO_BC"

/-- Parameter name `D_RHO_OC`. -/
def D_RHO_OC : String := "D_RHO_OC"

/-- Parameter name `D_RHO_SO2`. -/
def D_RHO_SO2 : String := "D_RHO_SO2"

/-- Component name `FORCING_COMPONENT_NAME`. -/
def FORCING_COMPONENT_NAME : String := "FORCING_COMPONENT_NAME"

/-- The table `halo_forcing_names`: the 26 raw halocarbon forcing names. -/
def halo_forcing_names : List String :=
  ["D_RF_CF4", "D_RF_C2F6", "D_RF_HFC23", "D_RF_HFC32", "D_RF_HFC4310", "D_RF_HFC125",
   "D_RF_HFC134a", "D_RF_HFC143a", "D_RF_HFC227ea", "D_RF_HFC245fa", "D_RF_SF6",
   "D_RF_CFC11", "D_RF_CFC12", "D_RF_CFC113", "D_RF_CFC114", "D_RF_CFC115", "D_RF_CCl4",
   "D_RF_CH3CCl3", "D_RF_HCFC22", "D_RF_HCFC141b", "D_RF_HCFC142b", "D_RF_halon1211",
   "D_RF_halon1301", "D_RF_halon2402", "D_RF_CH3Cl", "D_RF_CH3Br"]

/-- The table `adjusted_halo_forcings`: the 26 base-year-adjusted halocarbon names, in the
order of `halo_forcing_names`. -/
def adjusted_halo_forcings : List String :=
  ["D_RFADJ_CF4", "D_RFADJ_C2F6", "D_RFADJ_HFC23", "D_RFADJ_HFC32", "D_RFADJ_HFC4310",
   "D_RFADJ_HFC125", "D_RFADJ_HFC134a", "D_RFADJ_HFC143a", "D_RFADJ_HFC227ea",
   "D_RFADJ_HFC245fa", "D_RFADJ_SF6", "D_RFADJ_CFC11", "D_RFADJ_CFC12", "D_RFADJ_CFC113",
   "D_RFADJ_CFC114", "D_RFADJ_CFC115", "D_RFADJ_CCl4", "D_RFADJ_CH3CCl3", "D_RFADJ_HCFC22",
   "D_RFADJ_HCFC141b", "D_RFADJ_HCFC142b", "D_RFADJ_halon1211", "D_RFADJ_halon1301",
   "D_RFADJ_halon2402", "D_RFADJ_CH3Cl", "D_RFADJ_CH3Br"]

/-- Modelled from the spec: the nested time-series container (class `tvector`, declared
outside the two source files) "keys a date to an entire map from string to unit-tagged
value"; here the list of its stored entries. -/
abbrev tvector (K : Type) := List (K × stringmap K)

/-- The map stored at exactly date `t`, if any. -/
def tvector_find : tvector K → K → Option (stringmap K)
  | [], _ => none
  | (d, m) :: rest, t => if d = t then some m else tvector_find rest t

/-- Modelled from the spec: member `get( t )` of the nested container, a point lookup; it
throws when nothing is stored at `t`. -/
def tvector_get (v : tvector K) (t : K) : Except Failure (stringmap K) :=
  match tvector_find v t with
  | some m => Except.ok m
  | none => Except.error Failure.tseries_no_data

/-- Modelled from the spec: member `set( t, m )` of the nested container: overwrite the
entry at date `t`, or create it. -/
def tvector_set : tvector K → K → stringmap K → tvector K
  | [], t, m => [(t, m)]
  | (d, x) :: rest, t, m => if d = t then (d, m) :: rest else (d, x) :: tvector_set rest t m

/-- Modelled from the spec: the "last-date query" of a time series, the greatest stored
date; `none` for a series without entries. -/
def mapdata_lastdate : List (K × K) → Option K
  | [] => none
  | (d, _) :: rest =>
    match mapdata_lastdate rest with
    | none => some d
    | some e => some (max d e)

/-- The condition `Ftot_constrain.size() && runToDate <= Ftot_constrain.lastdate()` of
`run`. -/
def Ftot_constrained (f : ForcingComponent K) (runToDate : K) : Bool :=
  decide (f.Ftot_constrain.size ≠ 0) &&
    (match mapdata_lastdate f.Ftot_constrain.mapdata with
     | some last => decide (runToDate ≤ last)
     | none => false)

/-- The loop of `run` that adds every entry of `forcings` to `Ftot`, starting from 0. -/
def Ftot_sum (forcings : stringmap K) : K :=
  forcings.foldl (fun Ftot entry => Ftot + entry.2) 0

/-- The block "Total" of `run`: `forcings[ D_RF_TOTAL ]` becomes the user-supplied value
when there is one for this date, else the sum of the entries. -/
def run_total (f : ForcingComponent K) (runToDate : K) (forcings : stringmap K) :
    Except Failure (stringmap K) :=
  let Ftot := Ftot_sum forcings
  if Ftot_constrained f runToDate then do
    let v ← f.Ftot_constrain.get runToDate
    pure (map_set forcings D_RF_TOTAL v)
  else
    pure (map_set forcings D_RF_TOTAL Ftot)

/-- The absolute forcings of `run( runToDate )`, total included: the map `forcings` as it
is when `run` reaches "Change to relative forcing". -/
def run_absolute (L : libm K) (k : forcing_constants K) (hub : forcing_hub K)
    (f : ForcingComponent K) (runToDate : K) : Except Failure (stringmap K) := do
  let forcings ← run_forcings L k hub f runToDate
  run_total f runToDate forcings

/-- The loop of `run` that makes the forcings relative to the base year:
`forcings[ key ] = value - baseyear_forcings[ key ]` for every entry `(key, value)` of
`forcings`. The first argument is what is left of the iteration; the result is `forcings`
after the loop. For a key without entry, `baseyear_forcings[ key ]` is a default-constructed
value, which has no forcing unit: the subtraction fails its unit check and the loop throws
at the first such key. The entry that `operator[]` creates on the way never carries a
forcing unit, so every later subtraction under this key fails as well; in the model such a
key stays without entry, and `baseyear_forcings` holds the entries copied at the base
year. -/
def run_rebase : List (String × K) → stringmap K → stringmap K → Except Failure (stringmap K)
  | [], forcings, _ => Except.ok forcings
  | (key, value) :: rest, forcings, baseyear_forcings =>
    match map_find baseyear_forcings key with
    | some b => run_rebase rest (map_set forcings key (value - b)) baseyear_forcings
    | none => Except.error Failure.units_mismatch

/-- Outcome of a state-changing call of the forcing component: the failure thrown (if any)
and the state the call leaves behind. -/
structure forcing_outcome (K : Type) where
  failure : Option Failure
  state : ForcingComponent K

/-- Member `ForcingComponent::run( runToDate )`. -/
def ForcingComponent.run (L : libm K) (k : forcing_constants K) (hub : forcing_hub K)
    (f : ForcingComponent K) (runToDate : K) : forcing_outcome K :=
  let f1 := { f with currentYear := runToDate }
  if runToDate < f1.baseyear then
    ⟨none, f1⟩
  else
    match run_absolute L k hub f1 runToDate with
    | Except.error e => ⟨some e, f1⟩
    | Except.ok forcings =>
    let baseyear_forcings :=
      if runToDate = f1.baseyear then forcings else f1.baseyear_forcings
    match run_rebase forcings forcings baseyear_forcings with
    | Except.error e => ⟨some e, { f1 with baseyear_forcings := baseyear_forcings }⟩
    | Except.ok rebased =>
      ⟨none, { f1 with
        baseyear_forcings := baseyear_forcings
        forcings_ts := tvector_set f1.forcings_ts runToDate rebased }⟩

/-- Member `ForcingComponent::prepareToRun()`; `startDate` is `core->getStartDate()`. -/
def ForcingComponent.prepareToRun (startDate : K) (f : ForcingComponent K) :
    forcing_outcome K :=
  let f1 := if f.baseyear = 0 then { f with baseyear := startDate + 1 } else f
  if ¬ (f1.baseyear > startDate) then
    ⟨some (Failure.assertion "Base year must be >= model start date"), f1⟩
  else if ¬ (f1.delta_ch4 ≥ -1 ∧ f1.delta_ch4 ≤ 1) then
    ⟨some (Failure.assertion "bad delta ch4 value"), f1⟩
  else if ¬ (f1.delta_n2o ≥ -1 ∧ f1.delta_n2o ≤ 1) then
    ⟨some (Failure.assertion "bad delta n2o value"), f1⟩
  else
    ⟨none, { f1 with baseyear_forcings := [] }⟩

/-- The loop of `init` that fills `forcing_name_map`:
`forcing_name_map[ adjusted_halo_forcings[i] ] = halo_forcing_names[i]`. -/
def init_name_map : List (String × String) → stringmap String → stringmap String
  | [], m => m
  | (adjusted, raw) :: rest, m => init_name_map rest (map_set m adjusted raw)

/-- Member `ForcingComponent::init( coreptr )`, as far as the component itself is changed;
the registrations with the hub are left out, and `Ftot_constrain.allowInterp( true )` is
what the parameter `interp` of the series stands for. -/
def ForcingComponent.init (f : ForcingComponent K) : ForcingComponent K :=
  { f with
    baseyear := 0
    currentYear := 0
    forcing_name_map :=
      init_name_map (adjusted_halo_forcings.zip halo_forcing_names) f.forcing_name_map }

/-- The unit tags that `setData` expects. -/
inductive unit_types where
  | U_UNDEFINED
  | U_UNITLESS
  | U_W_M2
  | U_W_M2_TG
  | U_W_M2_GG
  deriving DecidableEq, Repr

/-- Modelled from the spec: a `message_data` (declared outside the two source files) carries
the date of the message and a value; `getUnitval( units )` yields the value in the expected
units or throws, and is taken as a parameter. -/
structure message_data (K : Type) where
  date : K
  getUnitval : unit_types → Except Failure K

/-- The `try` block of `setData`; `undefinedIndex` is `Core::undefinedIndex()`. -/
def setData_try (undefinedIndex : K) (f : ForcingComponent K) (varName : String)
    (data : message_data K) : Except Failure (ForcingComponent K) :=
  if varName = D_RF_BASEYEAR then do
    h_assert (decide (data.date = undefinedIndex)) "date not allowed"
    let v ← data.getUnitval unit_types.U_UNDEFINED
    pure { f with baseyear := v }
  else if varName = D_ACO2 then do
    h_assert (decide (data.date = undefinedIndex)) "date not allowed"
    let v ← data.getUnitval unit_types.U_W_M2
    pure { f with aCO2 := v }
  else if varName = D_DELTA_CH4 then do
    h_assert (decide (data.date = undefinedIndex)) "date not allowed"
    let v ← data.getUnitval unit_types.U_UNITLESS
    pure { f with delta_ch4 := v }
  else if varName = D_DELTA_N2O then do
    h_assert (decide (data.date = undefinedIndex)) "date not allowed"
    let v ← data.getUnitval unit_types.U_UNITLESS
    pure { f with delta_n2o := v }
  else if varName = D_DELTA_CO2 then do
    h_assert (decide (data.date = undefinedIndex)) "date not allowed"
    let v ← data.getUnitval unit_types.U_UNITLESS
    pure { f with delta_co2 := v }
  else if varName = D_RHO_BC then do
    h_assert (decide (data.date = undefinedIndex)) "date not allowed"
    let v ← data.getUnitval unit_types.U_W_M2_TG
    pure { f with rho_bc := v }
  else if varName = D_RHO_OC then do
    h_assert (decide (data.date = undefinedIndex)) "date not allowed"
    let v ← data.getUnitval unit_types.U_W_M2_TG
    pure { f with rho_oc := v }
  else if varName = D_RHO_SO2 then do
    h_assert (decide (data.date = undefinedIndex)) "date not allowed"
    let v ← data.getUnitval unit_types.U_W_M2_GG
    pure { f with rho_so2 := v }
  else if varName = D_FTOT_CONSTRAIN then do
    h_assert (decide (data.date ≠ undefinedIndex)) "date required"
    let v ← data.getUnitval unit_types.U_W_M2
    pure { f with Ftot_constrain := f.Ftot_constrain.set data.date v }
  else
    Except.error (Failure.thrown
      ("Unknown variable name while parsing " ++ FORCING_COMPONENT_NAME ++ ": " ++ varName))

/-- Member `ForcingComponent::setData( varName, data )`: whatever the `try` block throws is
rethrown as "Could not parse var: " followed by the name. -/
def ForcingComponent.setData (undefinedIndex : K) (f : ForcingComponent K) (varName : String)
    (data : message_data K) : Except Failure (ForcingComponent K) :=
  match setData_try undefinedIndex f varName data with
  | Except.error _ => Except.error (Failure.thrown ("Could not parse var: " ++ varName))
  | Except.ok f1 => Except.ok f1

/-- The name under which `getData` looks a variable up in the forcing map: its translation
in `forcing_name_map` when there is one, else the name itself. -/
def forcing_name (f : ForcingComponent K) (varName : String) : String :=
  match map_find f.forcing_name_map varName with
  | some name => name
  | none => varName

/-- Member `ForcingComponent::getData( varName, date )`; `undefinedIndex` is
`Core::undefinedIndex()`. A default-constructed `unitval` is the number 0. -/
def ForcingComponent.getData (undefinedIndex : K) (f : ForcingComponent K) (varName : String)
    (date : K) : Except Failure K :=
  let getdate := if date = undefinedIndex then f.currentYear else date
  if getdate < f.baseyear then
    if varName = D_ACO2 then Except.ok f.aCO2
    else if varName = D_DELTA_CH4 then Except.ok f.delta_ch4
    else if varName = D_DELTA_N2O then Except.ok f.delta_n2o
    else if varName = D_DELTA_CO2 then Except.ok f.delta_co2
    else if varName = D_RHO_BC then Except.ok f.rho_bc
    else if varName = D_RHO_OC then Except.ok f.rho_oc
    else if varName = D_RHO_SO2 then Except.ok f.rho_so2
    else Except.ok 0
  else
    match tvector_get f.forcings_ts getdate with
    | Except.error e => Except.error e
    | Except.ok forcings =>
    if varName = D_RF_BASEYEAR then Except.ok f.baseyear
    else if varName = D_RF_SO2 then Except.ok 0
    else
      match map_find forcings (forcing_name f varName) with
      | some v => Except.ok v
      | none =>
        if f.currentYear < f.baseyear then Except.ok 0
        else if varName = D_DELTA_CH4 then Except.ok f.delta_ch4
        else if varName = D_DELTA_N2O then Except.ok f.delta_n2o
        else if varName = D_DELTA_CO2 then Except.ok f.delta_co2
        else if varName = D_RHO_BC then Except.ok f.rho_bc
        else if varName = D_RHO_OC then Except.ok f.rho_oc
        else if varName = D_RHO_SO2 then Except.ok f.rho_so2
        else Except.error (Failure.thrown
          ("Caller is requesting unknown variable: " ++ varName))

/-- Modelled from the spec: member `truncate( t )` of the nested container, "drop all entries
with date > t". -/
def tvector_truncate (v : tvector K) (t : K) : tvector K :=
  v.filter (fun entry => decide (entry.1 ≤ t))

/-- Member `ForcingComponent::reset( time )`. -/
def ForcingComponent.reset (f : ForcingComponent K) (time : K) : ForcingComponent K :=
  { f with
    currentYear := time
    forcings_ts := tvector_truncate f.forcings_ts time }

/-- The names under which the blocks of `run` before "Total" store a forcing. -/
def agent_names : List String :=
  [D_RF_CO2, D_RF_N2O, D_RF_CH4, D_RF_H2O_STRAT, D_RF_O3_TROP] ++ halos
    ++ [D_RF_BC, D_RF_OC, D_RF_SO2, D_RF_T_ALBEDO, D_RF_VOL]

end forcing

/-! ## Concrete data over `ℚ` -/

/-- A time series without entries and without interpolation. -/
def empty_series : tseries ℚ := ⟨[], fun _ => none⟩

/-- A time series serving the value `v` at every date. -/
def constant_series (v : ℚ) : tseries ℚ := ⟨[], fun _ => some v⟩

/-- A time series with the single entry `v` at date `d`. -/
def single_entry (d v : ℚ) : tseries ℚ := ⟨[(d, v)], fun _ => none⟩

/-- A two-biome kernel state: both biomes have NPP 2 and RH 2 (apportioning weight 1/2
each), the vegetation pools are 1 and 9; FFI emissions are 3 and LUC emissions 1 in every
year; no CO2 constraint; `atmos_c = 276 * 2.13` PgC matches `Ca = C0 = 276` ppm. -/
def two_biomes : SimpleNbox ℚ :=
  { biome_list := ["boreal", "tropical"]
    veg_c := [("boreal", 1), ("tropical", 9)]
    detritus_c := [("boreal", 4), ("tropical", 4)]
    soil_c := [("boreal", 50), ("tropical", 50)]
    npp_flux0 := [("boreal", 2), ("tropical", 2)]
    co2fert := [("boreal", 1), ("tropical", 1)]
    tempfertd := [("boreal", 1), ("tropical", 1)]
    tempferts := [("boreal", 1), ("tropical", 1)]
    f_nppv := [("boreal", 35 / 100), ("tropical", 35 / 100)]
    f_nppd := [("boreal", 60 / 100), ("tropical", 60 / 100)]
    f_litterd := [("boreal", 98 / 100), ("tropical", 98 / 100)]
    f_lucv := 1 / 10
    f_lucd := 1 / 100
    C0 := 276
    Ca := 276
    atmos_c := 14697 / 25
    earth_c := 5000
    masstot := 0
    residual := 0
    atmosland_flux := 0
    atmosland_flux_ts := empty_series
    ODEstartdate := 1750
    in_spinup := false
    ffiEmissions := constant_series 3
    lucEmissions := constant_series 1
    CO2_constrain := empty_series }

/-- A single-biome ("global") kernel state with NPP 50 and RH 50. -/
def one_biome : SimpleNbox ℚ :=
  { two_biomes with
    biome_list := ["global"]
    veg_c := [("global", 550)]
    detritus_c := [("global", 60)]
    soil_c := [("global", 1750)]
    npp_flux0 := [("global", 50)]
    co2fert := [("global", 1)]
    tempfertd := [("global", 1)]
    tempferts := [("global", 1)]
    f_nppv := [("global", 35 / 100)]
    f_nppd := [("global", 60 / 100)]
    f_litterd := [("global", 98 / 100)] }

/-- An ocean model whose atmosphere-ocean flux is 7/2 and whose stash returns. -/
def calm_ocean : CarbonCycleModel ℚ := ⟨fun _ _ => (0, 7 / 2), fun _ _ => true⟩

/-- Header constants: `PGC_TO_PPMVCO2 = 1/2.13`, `MB_EPSILON = 1e-7`. -/
def hector_constants : h_constants ℚ := ⟨100 / 213, 1 / 10000000⟩

/-- A solver vector: atmosphere 100, vegetation 4, detritus 8, soil 100, ocean 1000,
earth 5000. -/
def solver_vector : Fin 6 → ℚ := ![100, 4, 8, 100, 1000, 5000]

/-- The two-biome state with a CO2 constraint of 400 ppm at 1751. -/
def constrained_400 : SimpleNbox ℚ :=
  { two_biomes with CO2_constrain := single_entry 1751 400 }

/-- A solver vector whose atmosphere pool is the equivalent of 420 ppm (420 · 2.13 PgC). -/
def solver_vector_420 : Fin 6 → ℚ := ![4473 / 5, 4, 8, 100, 1000, 5000]

/-- The two-biome state with a CO2 constraint at 1751 that equals the solver atmosphere of
`solver_vector` (100 PgC, i.e. 10000/213 ppm). -/
def constrained_exact : SimpleNbox ℚ :=
  { two_biomes with CO2_constrain := single_entry 1751 (10000 / 213) }

/-- The two-biome state with carbon capture: the FFI series serves -1 PgC/yr. -/
def capture_state : SimpleNbox ℚ :=
  { two_biomes with ffiEmissions := constant_series (-1) }

/-- A solver vector for the single-biome state: atmosphere 590, vegetation 540,
detritus 61, soil 1755, ocean 38000, earth 5000. -/
def solver_vector_global : Fin 6 → ℚ := ![590, 540, 61, 1755, 38000, 5000]

/-- The value 2.13 of the header constant `PPMVCO2_TO_PGC`, the reciprocal of
`PGC_TO_PPMVCO2`. -/
def ppmvco2_to_pgc : ℚ := 213 / 100

/-- The single-biome state with its `beta` and `q10_rh` parameters, as handed to
`prepareToRun`. -/
def configured : SimpleNbox ℚ :=
  { one_biome with beta := [("global", 36 / 100)], q10_rh := [("global", 2)] }

/-- The configured state with the biome list "global", "boreal". -/
def configured_mixed : SimpleNbox ℚ :=
  { configured with biome_list := ["global", "boreal"] }

/-- Stand-in for `pow` over ℚ, used to run the model on concrete inputs: exact at integer
exponents, 0 elsewhere. -/
def exact_pow (x y : ℚ) : ℚ := if y.den = 1 then x ^ y.num else 0

/-- Stand-in for `sqrt` over ℚ, used to run the model on concrete inputs: exact at the
squares of the naturals below 100, 0 elsewhere. -/
def exact_sqrt (x : ℚ) : ℚ :=
  match (List.range 100).find? (fun r => decide ((r : ℚ) * r = x)) with
  | some r => r
  | none => 0

/-- Stand-ins for the math library over ℚ, used to run the model on concrete inputs; `log`
is replaced by its first-order expansion `x - 1` at 1. -/
def table_libm : libm ℚ := ⟨fun x => x - 1, exact_sqrt, exact_pow⟩

/-- A hub serving a global temperature anomaly of 0, start date 1500 and -1 as the
undefined index. -/
def hub_1500 : hub_values ℚ := ⟨0, 1500, -1⟩

/-- The configured single-biome state with a temperature record that holds 2000 at 1551
and 0 at every other date. -/
def warm_record : SimpleNbox ℚ :=
  { configured with Tgav_record := ⟨[(1551, 2000)], fun _ => some 0⟩ }

/-- The state `warm_record` with soil factor 2, recorded in `tempferts_tv` at every date. -/
def recorded : SimpleNbox ℚ :=
  { warm_record with
    tempferts := [("global", 2)]
    tempferts_tv := fun _ => [("global", 2)] }

/-- The coefficients of IPCC AR6 Table 7.SM.1 for CO2, N2O and CH4, as an instance of the
coefficient parameters. -/
def ar6_constants : forcing_constants ℚ :=
  { a1 := -24785 / 100000000000
    b1 := 75906 / 100000000
    c1 := -21492 / 10000000
    d1 := 52488 / 10000
    a2 := -34197 / 100000000
    b2 := 25455 / 100000000
    c2 := -24357 / 100000000
    a3 := -89603 / 1000000000
    b3 := -12462 / 100000000
    d3 := 45194 / 1000000 }

/-- A hub with the three greenhouse gas capabilities only, serving preindustrial values
`C0 = 277`, `M0 = 729`, `N0 = 256` and the given current values at every date. -/
def ghg_hub (Ca Ma Na : ℚ) : forcing_hub ℚ :=
  { checkCapability := fun name =>
      name == D_ATMOSPHERIC_CH4 || name == D_ATMOSPHERIC_N2O || name == D_ATMOSPHERIC_CO2
    getData := fun name _ =>
      if name = D_PREINDUSTRIAL_CO2 then Except.ok 277
      else if name = D_PREINDUSTRIAL_CH4 then Except.ok 729
      else if name = D_PREINDUSTRIAL_N2O then Except.ok 256
      else if name = D_ATMOSPHERIC_CO2 then Except.ok Ca
      else if name = D_ATMOSPHERIC_CH4 then Except.ok Ma
      else if name = D_ATMOSPHERIC_N2O then Except.ok Na
      else Except.error (Failure.thrown "no such capability") }

/-- A forcing component with base year 1751 and the three forcing scalars set to 0, 1/10
and 2/10. -/
def forcing_1751 : ForcingComponent ℚ :=
  { baseyear := 1751
    currentYear := 1751
    aCO2 := 535 / 100
    delta_ch4 := 0
    delta_n2o := 1 / 10
    delta_co2 := 2 / 10
    rho_bc := 0
    rho_oc := 0
    rho_so2 := 0
    Ftot_constrain := empty_series
    baseyear_forcings := [] }

/-- A hub without any capability. -/
def bare_hub : forcing_hub ℚ :=
  { checkCapability := fun _ => false
    getData := fun _ _ => Except.error (Failure.thrown "no such capability") }

/-- A hub with the volcanic capability and the halocarbon `D_RF_CFC12` only, serving the
given values at every date. -/
def volcanic_hub (vol cfc12 : ℚ) : forcing_hub ℚ :=
  { checkCapability := fun name => name == D_VOLCANIC_SO2 || name == "D_RF_CFC12"
    getData := fun name _ =>
      if name = D_VOLCANIC_SO2 then Except.ok vol
      else if name = "D_RF_CFC12" then Except.ok cfc12
      else Except.error (Failure.thrown "no such capability") }

/-- A forcing component after `init`, with base year 1751 and a total forcing constraint of
1 at 1751 and 3.5 at 2050. -/
def constrained_forcing : ForcingComponent ℚ :=
  { ForcingComponent.init forcing_1751 with
    baseyear := 1751
    Ftot_constrain := ⟨[(1751, 1), (2050, 7 / 2)], fun _ => none⟩ }

/-- A forcing component after `init` with base year 1751 and no constraint. -/
def free_forcing : ForcingComponent ℚ :=
  { ForcingComponent.init forcing_1751 with baseyear := 1751 }

/-- A message without date (the undefined index is -1) carrying the value `v`. -/
def undated (v : ℚ) : message_data ℚ := ⟨-1, fun _ => Except.ok v⟩

/-- A hub with the four aerosol capabilities only: black and organic carbon emissions 1,
SO2 of the year 2000 equal to 50, natural SO2 10, and the given SO2 emissions. -/
def aerosol_hub (E_SO2 : ℚ) : forcing_hub ℚ :=
  { checkCapability := fun name =>
      name == D_EMISSIONS_BC || name == D_EMISSIONS_OC || name == D_NATURAL_SO2
        || name == D_EMISSIONS_SO2
    getData := fun name _ =>
      if name = D_EMISSIONS_BC then Except.ok 1
      else if name = D_EMISSIONS_OC then Except.ok 1
      else if name = D_2000_SO2 then Except.ok 50
      else if name = D_NATURAL_SO2 then Except.ok 10
      else if name = D_EMISSIONS_SO2 then Except.ok E_SO2
      else Except.error (Failure.thrown "no such capability") }

/-- The forcing component `free_forcing` with aerosol efficiencies 1/10, -1/10 and -1/100. -/
def aerosol_forcing : ForcingComponent ℚ :=
  { free_forcing with
    rho_bc := 1 / 10
    rho_oc := -1 / 10
    rho_so2 := -1 / 100 }

/-! ## Helper lemmas -/

/-- In the `Except Failure` monad a sequenced computation returns exactly when both parts do. -/
theorem bind_ok_iff {α β : Type} (x : Except Failure α) (f : α → Except Failure β) (b : β) :
    (x >>= f) = Except.ok b ↔ ∃ a, x = Except.ok a ∧ f a = Except.ok b := by
  cases x with
  | error e => simp [bind, Except.bind]
  | ok a => simp [bind, Except.bind]

section proofs
variable {K : Type} [LinearOrderedField K]

/-- The first loop of `calcderivs` keeps `npp_fav + npp_fad + npp_fas - npp_current`. -/
theorem calcderivs_npp_rh_partition (s : SimpleNbox K) (l : List String)
    (acc r : npp_rh_acc K) (h : calcderivs_npp_rh s l acc = Except.ok r) :
    r.npp_fav + r.npp_fad + r.npp_fas - r.npp_current
      = acc.npp_fav + acc.npp_fad + acc.npp_fas - acc.npp_current := by
  induction l generalizing acc with
  | nil =>
    simp only [calcderivs_npp_rh, pure, Except.pure, Except.ok.injEq] at h
    rw [h]
  | cons b rest ih =>
    simp only [calcderivs_npp_rh, bind_ok_iff] at h
    obtain ⟨n, -, fv, -, fd, -, rd, -, rs, -, h⟩ := h
    rw [ih _ h]
    ring

/-- The litter loop of `calcderivs` keeps `litter_fvd + litter_fvs - litter_flux`. -/
theorem calcderivs_litter_partition (s : SimpleNbox K) (l : List String)
    (acc r : litter_acc K) (h : calcderivs_litter s l acc = Except.ok r) :
    r.litter_fvd + r.litter_fvs - r.litter_flux
      = acc.litter_fvd + acc.litter_fvs - acc.litter_flux := by
  induction l generalizing acc with
  | nil =>
    simp only [calcderivs_litter, pure, Except.pure, Except.ok.injEq] at h
    rw [h]
  | cons b rest ih =>
    simp only [calcderivs_litter, bind_ok_iff] at h
    obtain ⟨vc, -, fl, -, h⟩ := h
    rw [ih _ h]
    ring

/-- C1: whenever `calcderivs` writes its six derivatives they sum to zero, for every kernel
state, time, ocean-slot derivative and emissions (exact arithmetic). -/
theorem calcderivs_sum_zero (omodel : CarbonCycleModel K) (s : SimpleNbox K) (t : K)
    (c : Fin 6 → K) (err : Int) (dcdt : Fin 6 → K)
    (h : calcderivs omodel s t c = Except.ok (err, dcdt)) :
    dcdt SNBOX_ATMOS + dcdt SNBOX_VEG + dcdt SNBOX_DET + dcdt SNBOX_SOIL
      + dcdt SNBOX_OCEAN + dcdt SNBOX_EARTH = 0 := by
  simp only [calcderivs, bind_ok_iff] at h
  obtain ⟨a, ha, l, hl, ds, -, ff, -, luc, -, h⟩ := h
  simp only [pure, Except.pure, Except.ok.injEq, Prod.mk.injEq] at h
  obtain ⟨-, rfl⟩ := h
  have h1 := calcderivs_npp_rh_partition s _ _ _ ha
  have h2 := calcderivs_litter_partition s _ _ _ hl
  have e5 : (5 : Fin 6) = Fin.succ 4 := rfl
  simp only [SNBOX_ATMOS, SNBOX_VEG, SNBOX_DET, SNBOX_SOIL, SNBOX_OCEAN, SNBOX_EARTH, e5,
    Matrix.cons_val_zero, Matrix.cons_val_one, Matrix.head_cons, Matrix.cons_val_two,
    Matrix.tail_cons, Matrix.cons_val_three, Matrix.cons_val_four, Matrix.cons_val_succ]
  simp only [add_zero, sub_zero] at h1 h2
  linear_combination h1 + h2

/-- Witness for C1: the two-biome state with FFI 3, LUC 1 and ocean flux 7/2. -/
theorem calcderivs_sum_zero_witness :
    calcderivs calm_ocean two_biomes 1750 solver_vector
        = Except.ok (0, ![1 / 2, 19 / 20, -4067 / 1000, 2117 / 1000, 7 / 2, -3]) ∧
      (![1 / 2, 19 / 20, -4067 / 1000, 2117 / 1000, 7 / 2, -3] : Fin 6 → ℚ) SNBOX_ATMOS
        + (![1 / 2, 19 / 20, -4067 / 1000, 2117 / 1000, 7 / 2, -3] : Fin 6 → ℚ) SNBOX_VEG
        + (![1 / 2, 19 / 20, -4067 / 1000, 2117 / 1000, 7 / 2, -3] : Fin 6 → ℚ) SNBOX_DET
        + (![1 / 2, 19 / 20, -4067 / 1000, 2117 / 1000, 7 / 2, -3] : Fin 6 → ℚ) SNBOX_SOIL
        + (![1 / 2, 19 / 20, -4067 / 1000, 2117 / 1000, 7 / 2, -3] : Fin 6 → ℚ) SNBOX_OCEAN
        + (![1 / 2, 19 / 20, -4067 / 1000, 2117 / 1000, 7 / 2, -3] : Fin 6 → ℚ) SNBOX_EARTH
        = 0 :=
  ⟨by decide!, calcderivs_sum_zero calm_ocean two_biomes 1750 solver_vector 0 _ (by decide!)⟩

/-- The apportioning step for one biome only touches the three per-biome pool maps. -/
theorem stash_biome_frame (T dv dd ds : K) (s : SimpleNbox K) (b : String) :
    ∃ v d so, (stash_biome T dv dd ds s b).2
      = { s with veg_c := v, detritus_c := d, soil_c := so } := by
  unfold stash_biome
  rcases npp s b with e | n
  · exact ⟨s.veg_c, s.detritus_c, s.soil_c, rfl⟩
  rcases rh s b with e | r
  · exact ⟨s.veg_c, s.detritus_c, s.soil_c, rfl⟩
  rcases map_at s.veg_c b with e | v
  · exact ⟨s.veg_c, s.detritus_c, s.soil_c, rfl⟩
  dsimp only
  rcases map_at s.detritus_c b with e | d
  · exact ⟨_, s.detritus_c, s.soil_c, rfl⟩
  dsimp only
  rcases map_at s.soil_c b with e | so
  · exact ⟨_, _, s.soil_c, rfl⟩
  · exact ⟨_, _, _, rfl⟩

/-- The apportioning loop only touches the three per-biome pool maps. -/
theorem stash_apportion_frame (T dv dd ds : K) (l : List String) (s s1 : SimpleNbox K)
    (f : Option Failure) (h : stash_apportion T dv dd ds l s = (f, s1)) :
    ∃ v d so, s1 = { s with veg_c := v, detritus_c := d, soil_c := so } := by
  induction l generalizing s with
  | nil =>
    simp only [stash_apportion, Prod.mk.injEq] at h
    exact ⟨s.veg_c, s.detritus_c, s.soil_c, h.2.symm⟩
  | cons b rest ih =>
    obtain ⟨v, d, so, h1⟩ := stash_biome_frame T dv dd ds s b
    unfold stash_apportion at h
    split at h
    · next e s2 he =>
      rw [he] at h1
      simp only [Prod.mk.injEq] at h
      rw [← h.2]
      exact ⟨v, d, so, h1⟩
    · next s2 he =>
      rw [he] at h1
      obtain ⟨v2, d2, so2, h2⟩ := ih s2 h
      refine ⟨v2, d2, so2, ?_⟩
      rw [h2]
      simp only at h1
      rw [h1]

/-- The write-back part of `stashCValues` leaves every field other than `atmos_c`,
`atmosland_flux`, `atmosland_flux_ts`, the three pool maps and `earth_c` untouched; when it
completes, `atmos_c` and `earth_c` hold the solver values and the atmosphere value was
accepted as a `fluxpool`. -/
theorem stash_pools_frame (omodel : CarbonCycleModel K) (s : SimpleNbox K) (t : K)
    (c : Fin 6 → K) :
    ∃ a fl ts v d so e, (stash_pools omodel s t c).2
      = { s with atmos_c := a, atmosland_flux := fl, atmosland_flux_ts := ts, veg_c := v,
                 detritus_c := d, soil_c := so, earth_c := e }
      ∧ ((stash_pools omodel s t c).1 = none →
          a = c SNBOX_ATMOS ∧ e = c SNBOX_EARTH ∧ 0 ≤ c SNBOX_ATMOS) := by
  unfold stash_pools fluxpool_set
  by_cases hc : c SNBOX_ATMOS < 0
  · rw [if_pos hc]
    exact ⟨s.atmos_c, s.atmosland_flux, s.atmosland_flux_ts, s.veg_c, s.detritus_c, s.soil_c,
      s.earth_c, rfl, by simp⟩
  rw [if_neg hc]
  dsimp only
  split
  · exact ⟨_, s.atmosland_flux, s.atmosland_flux_ts, s.veg_c, s.detritus_c, s.soil_c,
      s.earth_c, rfl, by simp⟩
  split
  · exact ⟨_, s.atmosland_flux, s.atmosland_flux_ts, s.veg_c, s.detritus_c, s.soil_c,
      s.earth_c, rfl, by simp⟩
  split
  · exact ⟨_, s.atmosland_flux, s.atmosland_flux_ts, s.veg_c, s.detritus_c, s.soil_c,
      s.earth_c, rfl, by simp⟩
  split
  · next e s3 he =>
    obtain ⟨v, d, so, h⟩ := stash_apportion_frame _ _ _ _ _ _ _ _ he
    rw [h]
    exact ⟨_, _, _, _, _, _, s.earth_c, rfl, by simp⟩
  · next s3 he =>
    obtain ⟨v, d, so, h⟩ := stash_apportion_frame _ _ _ _ _ _ _ _ he
    rw [h]
    split
    · exact ⟨_, _, _, _, _, _, _, rfl, fun _ => ⟨rfl, rfl, not_lt.mp hc⟩⟩
    · exact ⟨_, _, _, _, _, _, s.earth_c, rfl, by simp⟩

/-- What a successful `stashCValues` went through: the year fraction was in range, the
write-back completed, the mass check passed, the constraint step completed, and the final
state is the constraint step's state with `ODEstartdate = t`. -/
theorem stashCValues_ok_inv (k : h_constants K) (core : Core) (omodel : CarbonCycleModel K)
    (s : SimpleNbox K) (t : K) (c : Fin 6 → K)
    (h : (stashCValues k core omodel s t c).failure = none) :
    ∃ s1, stash_pools omodel s t c = (none, s1)
      ∧ (0 ≤ t - s.ODEstartdate ∧ t - s.ODEstartdate ≤ 1)
      ∧ ¬ (s1.masstot > 0 ∧ |stash_sum c - s1.masstot| > k.MB_EPSILON)
      ∧ (stash_constrain k core { s1 with masstot := stash_sum c } t).failure = none
      ∧ (stashCValues k core omodel s t c).state
          = { (stash_constrain k core { s1 with masstot := stash_sum c } t).state with
              ODEstartdate := t }
      ∧ (stashCValues k core omodel s t c).sent
          = (stash_constrain k core { s1 with masstot := stash_sum c } t).sent := by
  unfold stashCValues at h ⊢
  dsimp only at h ⊢
  by_cases hyf : t - s.ODEstartdate ≥ 0 ∧ t - s.ODEstartdate ≤ 1
  · rw [if_pos hyf] at h ⊢
    rcases hP : stash_pools omodel s t c with ⟨_ | e, s1⟩
    · rw [hP] at h
      simp only [hP] at h ⊢
      by_cases hm : s1.masstot > 0 ∧ |stash_sum c - s1.masstot| > k.MB_EPSILON
      · rw [if_pos hm] at h
        simp at h
      · rw [if_neg hm] at h ⊢
        rcases hQ : stash_constrain k core { s1 with masstot := stash_sum c } t
          with ⟨_ | e, s3, sent⟩
        · refine ⟨s1, rfl, hyf, hm, ?_, ?_, ?_⟩
          · rw [hQ]
          · rw [hQ]
          · rw [hQ]
        · rw [hQ] at h
          simp at h
    · rw [hP] at h
      simp at h
  · rw [if_neg hyf] at h
    simp at h

/-- The write-back part of `stashCValues` does not touch `masstot`. -/
theorem stash_pools_masstot (omodel : CarbonCycleModel K) (s : SimpleNbox K) (t : K)
    (c : Fin 6 → K) : (stash_pools omodel s t c).2.masstot = s.masstot := by
  obtain ⟨a, fl, ts, v, d, so, e, h, -⟩ := stash_pools_frame omodel s t c
  rw [h]

/-- The constraint step of `stashCValues` never reports a mass-conservation failure and does
not touch `masstot`. -/
theorem stash_constrain_masstot (k : h_constants K) (core : Core) (s : SimpleNbox K) (t : K) :
    (stash_constrain k core s t).failure ≠ some Failure.mass_not_conserved
      ∧ (stash_constrain k core s t).state.masstot = s.masstot := by
  unfold stash_constrain
  split
  · rcases hm : atmos_cpool_to_match k core s t with e | m
    · refine ⟨?_, rfl⟩
      simp only [ne_eq, Option.some.injEq]
      intro he
      subst he
      unfold atmos_cpool_to_match fluxpool_set tseries.get at hm
      split at hm
      · split at hm <;> simp at hm
      · rcases hf : tseries_find s.CO2_constrain.mapdata t with _ | v
        · rw [hf] at hm
          rcases hi : s.CO2_constrain.interp t with _ | w
          · rw [hi] at hm
            simp [bind, Except.bind] at hm
          · rw [hi] at hm
            simp only [bind, Except.bind] at hm
            split at hm <;> simp at hm
        · rw [hf] at hm
          simp only [bind, Except.bind] at hm
          split at hm <;> simp at hm
    · exact ⟨by simp, rfl⟩
  · exact ⟨by simp, rfl⟩

/-- C2: for a call whose year fraction is in [0,1] and whose write-back of the solver pools
completes, the mass-conservation error is raised exactly when `masstot > 0` and
`|c[0]+...+c[5] - masstot| > MB_EPSILON`; it is never raised while `masstot` is 0; and
whenever it is not raised `masstot` afterwards equals `c[0]+...+c[5]`. -/
theorem stashCValues_mass_check (k : h_constants K) (core : Core)
    (omodel : CarbonCycleModel K) (s : SimpleNbox K) (t : K) (c : Fin 6 → K)
    (hyf : 0 ≤ t - s.ODEstartdate ∧ t - s.ODEstartdate ≤ 1)
    (hpools : (stash_pools omodel s t c).1 = none) :
    ((stashCValues k core omodel s t c).failure = some Failure.mass_not_conserved
        ↔ (s.masstot > 0
            ∧ |(c 0 + c 1 + c 2 + c 3 + c 4 + c 5) - s.masstot| > k.MB_EPSILON))
      ∧ (s.masstot = 0 →
          (stashCValues k core omodel s t c).failure ≠ some Failure.mass_not_conserved)
      ∧ ((stashCValues k core omodel s t c).failure ≠ some Failure.mass_not_conserved →
          (stashCValues k core omodel s t c).state.masstot
            = c 0 + c 1 + c 2 + c 3 + c 4 + c 5) := by
  have hsum : stash_sum c = c 0 + c 1 + c 2 + c 3 + c 4 + c 5 := by
    unfold stash_sum
    ring
  have hmt := stash_pools_masstot omodel s t c
  rcases hP : stash_pools omodel s t c with ⟨f, s1⟩
  rw [hP] at hpools hmt
  simp only at hpools hmt
  subst hpools
  have hyf2 : t - s.ODEstartdate ≥ 0 ∧ t - s.ODEstartdate ≤ 1 := hyf
  obtain ⟨hQ1, hQ2⟩ := stash_constrain_masstot k core { s1 with masstot := stash_sum c } t
  have key : (stashCValues k core omodel s t c).failure = some Failure.mass_not_conserved
        ↔ (s.masstot > 0
            ∧ |(c 0 + c 1 + c 2 + c 3 + c 4 + c 5) - s.masstot| > k.MB_EPSILON) := by
    unfold stashCValues
    dsimp only
    rw [if_pos hyf2]
    simp only [hP]
    rw [hmt, hsum]
    by_cases hm : s.masstot > 0 ∧ |c 0 + c 1 + c 2 + c 3 + c 4 + c 5 - s.masstot| > k.MB_EPSILON
    · rw [if_pos hm]
      simp only [true_iff]
      exact hm
    · rw [if_neg hm]
      rw [hsum] at hQ1
      rcases hQ : stash_constrain k core
          { s1 with masstot := c 0 + c 1 + c 2 + c 3 + c 4 + c 5 } t with ⟨_ | e, s3, sent⟩
      · simp only [false_iff, reduceCtorEq, not_false_eq_true, iff_true]
        exact hm
      · rw [hQ] at hQ1
        simp only at hQ1
        simp only [hm, iff_false]
        exact hQ1
  refine ⟨key, ?_, ?_⟩
  · intro h0 hf
    have := (key.mp hf).1
    rw [h0] at this
    exact lt_irrefl _ this
  · intro hnf
    have hm := mt key.mpr hnf
    unfold stashCValues
    dsimp only
    rw [if_pos hyf2]
    simp only [hP]
    rw [hmt, hsum]
    rw [if_neg hm]
    rw [hsum] at hQ2
    rcases hQ : stash_constrain k core
        { s1 with masstot := c 0 + c 1 + c 2 + c 3 + c 4 + c 5 } t with ⟨_ | e, s3, sent⟩
    · rw [hQ] at hQ2
      exact hQ2
    · rw [hQ] at hQ2
      exact hQ2

/-- A value accepted by a `fluxpool` is stored unchanged and is non-negative. -/
theorem fluxpool_set_ok (v m : K) (h : fluxpool_set v = Except.ok m) : m = v ∧ 0 ≤ v := by
  unfold fluxpool_set at h
  by_cases hv : v < 0
  · rw [if_pos hv] at h
    simp at h
  · rw [if_neg hv] at h
    simp only [Except.ok.injEq] at h
    exact ⟨h.symm, not_lt.mp hv⟩

/-- A time series with a stored entry at `t` serves that entry. -/
theorem tseries_get_of_find (ts : tseries K) (t v : K)
    (h : tseries_find ts.mapdata t = some v) : ts.get t = Except.ok v := by
  unfold tseries.get
  rw [h]

/-- A time series with a stored entry at `t` is non-empty and reports the entry. -/
theorem tseries_exists_of_find (ts : tseries K) (t v : K)
    (h : tseries_find ts.mapdata t = some v) :
    ts.size ≠ 0 ∧ ts.exists_at t = true := by
  constructor
  · unfold tseries.size
    intro h0
    rw [List.length_eq_zero] at h0
    rw [h0] at h
    simp [tseries_find] at h
  · unfold tseries.exists_at
    rw [h]
    rfl

/-- The constraint step when the atmosphere is made to match the pool `m`. -/
theorem stash_constrain_match (k : h_constants K) (core : Core) (s : SimpleNbox K) (t m : K)
    (hc : (core.inSpinup || (decide (s.CO2_constrain.size ≠ 0) && s.CO2_constrain.exists_at t))
      = true)
    (hm : atmos_cpool_to_match k core s t = Except.ok m) :
    stash_constrain k core s t
      = ⟨none,
         { s with
           residual := s.atmos_c - m
           atmos_c := s.atmos_c - (s.atmos_c - m)
           Ca := (s.atmos_c - (s.atmos_c - m)) * k.PGC_TO_PPMVCO2 },
         [⟨message_kind.M_DUMP_TO_DEEP_OCEAN, D_OCEAN_C, s.atmos_c - m⟩]⟩ := by
  unfold stash_constrain
  rw [if_pos hc, hm]

/-- The constraint step when neither spinup nor a constraint entry applies. -/
theorem stash_constrain_free (k : h_constants K) (core : Core) (s : SimpleNbox K) (t : K)
    (hc : (core.inSpinup || (decide (s.CO2_constrain.size ≠ 0) && s.CO2_constrain.exists_at t))
      = false) :
    stash_constrain k core s t = ⟨none, { s with residual := 0 }, []⟩ := by
  unfold stash_constrain
  rw [hc]
  rfl

/-- A constraint step that completes under spinup or a constraint entry matched some pool. -/
theorem stash_constrain_ok (k : h_constants K) (core : Core) (s : SimpleNbox K) (t : K)
    (hc : (core.inSpinup || (decide (s.CO2_constrain.size ≠ 0) && s.CO2_constrain.exists_at t))
      = true)
    (hok : (stash_constrain k core s t).failure = none) :
    ∃ m, atmos_cpool_to_match k core s t = Except.ok m := by
  unfold stash_constrain at hok
  rw [if_pos hc] at hok
  rcases hm : atmos_cpool_to_match k core s t with e | m
  · rw [hm] at hok
    simp at hok
  · exact ⟨m, rfl⟩

/-- C9: `stashCValues` fails whenever `t - ODEstartdate < 0` or `t - ODEstartdate > 1`, and
then the kernel state is exactly the state before the call and nothing was sent; on success
`ODEstartdate` equals `t`. -/
theorem stashCValues_yearfraction (k : h_constants K) (core : Core)
    (omodel : CarbonCycleModel K) (s : SimpleNbox K) (t : K) (c : Fin 6 → K) :
    ((t - s.ODEstartdate < 0 ∨ t - s.ODEstartdate > 1) →
        stashCValues k core omodel s t c
          = ⟨some Failure.yearfraction_out_of_bounds, s, []⟩)
      ∧ ((stashCValues k core omodel s t c).failure = none →
          (stashCValues k core omodel s t c).state.ODEstartdate = t) := by
  constructor
  · intro h
    have hn : ¬ (t - s.ODEstartdate ≥ 0 ∧ t - s.ODEstartdate ≤ 1) := by
      rintro ⟨h1, h2⟩
      rcases h with h | h
      · exact absurd h1 (not_le.mpr h)
      · exact absurd h2 (not_le.mpr h)
    unfold stashCValues
    dsimp only
    rw [if_neg hn]
  · intro h
    obtain ⟨s1, -, -, -, -, hst, -⟩ := stashCValues_ok_inv k core omodel s t c h
    rw [hst]

/-- Witness for C9: a stash two years after the solver start date is rejected and leaves the
two-biome state as it was; a stash one year after it succeeds and sets `ODEstartdate`. -/
theorem stashCValues_yearfraction_witness :
    (1752 - two_biomes.ODEstartdate < 0 ∨ 1752 - two_biomes.ODEstartdate > 1)
      ∧ stashCValues hector_constants ⟨false⟩ calm_ocean two_biomes 1752 solver_vector
          = ⟨some Failure.yearfraction_out_of_bounds, two_biomes, []⟩
      ∧ (stashCValues hector_constants ⟨false⟩ calm_ocean two_biomes 1751 solver_vector).failure
          = none
      ∧ (stashCValues hector_constants ⟨false⟩ calm_ocean two_biomes 1751
          solver_vector).state.ODEstartdate = 1751 :=
  ⟨by decide!,
   (stashCValues_yearfraction hector_constants ⟨false⟩ calm_ocean two_biomes 1752
      solver_vector).1 (by decide!),
   by decide!,
   (stashCValues_yearfraction hector_constants ⟨false⟩ calm_ocean two_biomes 1751
      solver_vector).2 (by decide!)⟩

/-- Witness for C2: in the two-biome state with `masstot = 6000` the solver total 6212 is
off by 212, so the error is raised; with `masstot = 0` it is not and `masstot` becomes
6212. -/
theorem stashCValues_mass_check_witness :
    (stashCValues hector_constants ⟨false⟩ calm_ocean { two_biomes with masstot := 6000 } 1751
        solver_vector).failure = some Failure.mass_not_conserved
      ∧ (stashCValues hector_constants ⟨false⟩ calm_ocean two_biomes 1751
          solver_vector).state.masstot = 6212 :=
  ⟨((stashCValues_mass_check hector_constants ⟨false⟩ calm_ocean
        { two_biomes with masstot := 6000 } 1751 solver_vector (by decide!) (by decide!)).1).mpr
      (by decide!),
   ((stashCValues_mass_check hector_constants ⟨false⟩ calm_ocean two_biomes 1751 solver_vector
        (by decide!) (by decide!)).2.2 (by decide!)).trans (by decide!)⟩

/-- What a successful `stashCValues` leaves when spinup or a constraint entry applies: for
the matched pool `m`, the residual `c[atmos] - m` was sent to the deep ocean, `atmos_c` is
`c[atmos] - (c[atmos] - m)` and `Ca` is that pool times `PGC_TO_PPMVCO2`. -/
theorem stashCValues_matched (k : h_constants K) (core : Core) (omodel : CarbonCycleModel K)
    (s : SimpleNbox K) (t : K) (c : Fin 6 → K)
    (hc : (core.inSpinup || (decide (s.CO2_constrain.size ≠ 0) && s.CO2_constrain.exists_at t))
      = true)
    (hok : (stashCValues k core omodel s t c).failure = none) :
    ∃ m s1, stash_pools omodel s t c = (none, s1)
      ∧ atmos_cpool_to_match k core { s1 with masstot := stash_sum c } t = Except.ok m
      ∧ (stashCValues k core omodel s t c).state.residual = c SNBOX_ATMOS - m
      ∧ (stashCValues k core omodel s t c).state.atmos_c
          = c SNBOX_ATMOS - (c SNBOX_ATMOS - m)
      ∧ (stashCValues k core omodel s t c).state.Ca
          = (stashCValues k core omodel s t c).state.atmos_c * k.PGC_TO_PPMVCO2
      ∧ (stashCValues k core omodel s t c).sent
          = [⟨message_kind.M_DUMP_TO_DEEP_OCEAN, D_OCEAN_C, c SNBOX_ATMOS - m⟩] := by
  obtain ⟨s1, hP, -, -, hQ, hst, hsent⟩ := stashCValues_ok_inv k core omodel s t c hok
  obtain ⟨a, fl, ts, v, d, so, e, hfr, hval⟩ := stash_pools_frame omodel s t c
  rw [hP] at hfr hval
  simp only at hfr hval
  obtain ⟨ha, -, -⟩ := hval trivial
  have hc1 : (core.inSpinup || (decide (({ s1 with masstot := stash_sum c } :
      SimpleNbox K).CO2_constrain.size ≠ 0)
      && ({ s1 with masstot := stash_sum c } : SimpleNbox K).CO2_constrain.exists_at t))
      = true := by
    rw [hfr]
    exact hc
  obtain ⟨m, hm⟩ := stash_constrain_ok k core _ t hc1 hQ
  have hres := stash_constrain_match k core _ t m hc1 hm
  have hat : s1.atmos_c = c SNBOX_ATMOS := by
    rw [hfr]
    exact ha
  refine ⟨m, s1, hP, hm, ?_, ?_, ?_, ?_⟩
  · rw [hst, hres]
    simp only
    rw [hat]
  · rw [hst, hres]
    simp only
    rw [hat]
  · rw [hst, hres]
  · rw [hsent, hres]
    simp only
    rw [hat]

/-- The pool to match outside spinup when the constraint series has the entry `T` at `t`. -/
theorem atmos_cpool_to_match_constrained (k : h_constants K) (core : Core) (s : SimpleNbox K)
    (t T m : K) (hsp : core.inSpinup = false)
    (hT : tseries_find s.CO2_constrain.mapdata t = some T)
    (hm : atmos_cpool_to_match k core s t = Except.ok m) :
    m = T / k.PGC_TO_PPMVCO2 := by
  unfold atmos_cpool_to_match at hm
  rw [hsp, tseries_get_of_find _ _ _ hT] at hm
  simp only [Bool.false_eq_true, if_false, bind, Except.bind] at hm
  exact (fluxpool_set_ok _ _ hm).1

/-- The pool to match in spinup. -/
theorem atmos_cpool_to_match_spinup (k : h_constants K) (core : Core) (s : SimpleNbox K)
    (t m : K) (hsp : core.inSpinup = true)
    (hm : atmos_cpool_to_match k core s t = Except.ok m) :
    m = s.C0 / k.PGC_TO_PPMVCO2 := by
  unfold atmos_cpool_to_match at hm
  rw [hsp] at hm
  simp only [if_true] at hm
  exact (fluxpool_set_ok _ _ hm).1

/-- C5: outside spinup, when `CO2_constrain` has the entry `T` at `t`, a successful
`stashCValues(t, c)` sets `residual = c[atmos] - T/PGC_TO_PPMVCO2`, sends exactly one
`DUMP_TO_DEEP_OCEAN` message carrying that residual, and leaves
`atmos_c = T/PGC_TO_PPMVCO2` and `Ca = T` (`PGC_TO_PPMVCO2` being non-zero). -/
theorem stashCValues_constrained (k : h_constants K) (core : Core)
    (omodel : CarbonCycleModel K) (s : SimpleNbox K) (t : K) (c : Fin 6 → K) (T : K)
    (hk : k.PGC_TO_PPMVCO2 ≠ 0) (hsp : core.inSpinup = false)
    (hT : tseries_find s.CO2_constrain.mapdata t = some T)
    (hok : (stashCValues k core omodel s t c).failure = none) :
    (stashCValues k core omodel s t c).state.residual
        = c SNBOX_ATMOS - T / k.PGC_TO_PPMVCO2
      ∧ (stashCValues k core omodel s t c).sent
        = [⟨message_kind.M_DUMP_TO_DEEP_OCEAN, D_OCEAN_C,
            c SNBOX_ATMOS - T / k.PGC_TO_PPMVCO2⟩]
      ∧ (stashCValues k core omodel s t c).state.atmos_c = T / k.PGC_TO_PPMVCO2
      ∧ (stashCValues k core omodel s t c).state.Ca = T := by
  obtain ⟨hsz, hex⟩ := tseries_exists_of_find _ _ _ hT
  have hc : (core.inSpinup || (decide (s.CO2_constrain.size ≠ 0)
      && s.CO2_constrain.exists_at t)) = true := by
    rw [hex]
    simp [hsz]
  obtain ⟨m, s1, hP, hm, hres, hat, hCa, hsent⟩ :=
    stashCValues_matched k core omodel s t c hc hok
  obtain ⟨a, fl, ts, v, d, so, e, hfr, -⟩ := stash_pools_frame omodel s t c
  rw [hP] at hfr
  simp only at hfr
  have hT1 : tseries_find ({ s1 with masstot := stash_sum c } :
      SimpleNbox K).CO2_constrain.mapdata t = some T := by
    rw [hfr]
    exact hT
  have hmT := atmos_cpool_to_match_constrained k core _ t T m hsp hT1 hm
  subst hmT
  refine ⟨hres, hsent, ?_, ?_⟩
  · rw [hat]
    ring
  · rw [hCa, hat]
    field_simp

/-- Witness for C5: constraint 400 ppm at 1751 and a solver atmosphere equivalent to 420 ppm
give the residual 20/PGC_TO_PPMVCO2 = 42.6 PgC and `Ca = 400`. -/
theorem stashCValues_constrained_witness :
    (stashCValues hector_constants ⟨false⟩ calm_ocean constrained_400 1751
        solver_vector_420).state.residual = 20 / hector_constants.PGC_TO_PPMVCO2
      ∧ (stashCValues hector_constants ⟨false⟩ calm_ocean constrained_400 1751
        solver_vector_420).state.Ca = 400 :=
  ⟨(stashCValues_constrained hector_constants ⟨false⟩ calm_ocean constrained_400 1751
      solver_vector_420 400 (by decide!) rfl (by decide!) (by decide!)).1.trans (by decide!),
   (stashCValues_constrained hector_constants ⟨false⟩ calm_ocean constrained_400 1751
      solver_vector_420 400 (by decide!) rfl (by decide!) (by decide!)).2.2.2⟩

/-- C6: whenever the hub reports spinup, a successful `stashCValues(t, c)` ends with
`Ca = C0` and `atmos_c = C0/PGC_TO_PPMVCO2`, for every `c[atmos]` and whatever the
`CO2_constrain` series holds, and the residual sent to the deep ocean is
`c[atmos] - C0/PGC_TO_PPMVCO2` (`PGC_TO_PPMVCO2` being non-zero). -/
theorem stashCValues_spinup (k : h_constants K) (core : Core)
    (omodel : CarbonCycleModel K) (s : SimpleNbox K) (t : K) (c : Fin 6 → K)
    (hk : k.PGC_TO_PPMVCO2 ≠ 0) (hsp : core.inSpinup = true)
    (hok : (stashCValues k core omodel s t c).failure = none) :
    (stashCValues k core omodel s t c).state.Ca = s.C0
      ∧ (stashCValues k core omodel s t c).state.atmos_c = s.C0 / k.PGC_TO_PPMVCO2
      ∧ (stashCValues k core omodel s t c).state.residual
        = c SNBOX_ATMOS - s.C0 / k.PGC_TO_PPMVCO2
      ∧ (stashCValues k core omodel s t c).sent
        = [⟨message_kind.M_DUMP_TO_DEEP_OCEAN, D_OCEAN_C,
            c SNBOX_ATMOS - s.C0 / k.PGC_TO_PPMVCO2⟩] := by
  have hc : (core.inSpinup || (decide (s.CO2_constrain.size ≠ 0)
      && s.CO2_constrain.exists_at t)) = true := by
    rw [hsp]
    rfl
  obtain ⟨m, s1, hP, hm, hres, hat, hCa, hsent⟩ :=
    stashCValues_matched k core omodel s t c hc hok
  obtain ⟨a, fl, ts, v, d, so, e, hfr, -⟩ := stash_pools_frame omodel s t c
  rw [hP] at hfr
  simp only at hfr
  have hmT := atmos_cpool_to_match_spinup k core _ t m hsp hm
  have hC0 : ({ s1 with masstot := stash_sum c } : SimpleNbox K).C0 = s.C0 := by
    rw [hfr]
  rw [hC0] at hmT
  subst hmT
  refine ⟨?_, ?_, hres, hsent⟩
  · rw [hCa, hat]
    field_simp
  · rw [hat]
    ring

/-- Witness for C6: spinup with the two-biome state (`C0 = 276`) and a constraint series
present: `Ca` ends at 276. -/
theorem stashCValues_spinup_witness :
    (stashCValues hector_constants ⟨true⟩ calm_ocean constrained_400 1751
        solver_vector).state.Ca = 276
      ∧ (stashCValues hector_constants ⟨true⟩ calm_ocean constrained_400 1751
        solver_vector).state.atmos_c = 276 / hector_constants.PGC_TO_PPMVCO2 :=
  ⟨(stashCValues_spinup hector_constants ⟨true⟩ calm_ocean constrained_400 1751
      solver_vector (by decide!) rfl (by decide!)).1,
   (stashCValues_spinup hector_constants ⟨true⟩ calm_ocean constrained_400 1751
      solver_vector (by decide!) rfl (by decide!)).2.1⟩

/-- Counterexample to C7 as stated: outside spinup, with the constraint entry at 1751 equal to
the solver atmosphere (`c[atmos] * PGC_TO_PPMVCO2`), the stash succeeds with residual 0 and a
`DUMP_TO_DEEP_OCEAN` message is nevertheless sent. -/
theorem stashCValues_exact_match_sends :
    tseries_find constrained_exact.CO2_constrain.mapdata 1751
        = some (solver_vector SNBOX_ATMOS * hector_constants.PGC_TO_PPMVCO2)
      ∧ (stashCValues hector_constants ⟨false⟩ calm_ocean constrained_exact 1751
          solver_vector).failure = none
      ∧ (stashCValues hector_constants ⟨false⟩ calm_ocean constrained_exact 1751
          solver_vector).state.residual = 0
      ∧ ∃ msg ∈ (stashCValues hector_constants ⟨false⟩ calm_ocean constrained_exact 1751
          solver_vector).sent, msg.kind = message_kind.M_DUMP_TO_DEEP_OCEAN := by
  decide!

/-- C7 (amended): outside spinup, when the `CO2_constrain` entry at `t` equals
`c[atmos] * PGC_TO_PPMVCO2`, a successful `stashCValues` sets `residual = 0` and sends exactly
one `DUMP_TO_DEEP_OCEAN` message, which carries the residual 0. -/
theorem stashCValues_exact_match (k : h_constants K) (core : Core)
    (omodel : CarbonCycleModel K) (s : SimpleNbox K) (t : K) (c : Fin 6 → K)
    (hk : k.PGC_TO_PPMVCO2 ≠ 0) (hsp : core.inSpinup = false)
    (hT : tseries_find s.CO2_constrain.mapdata t
      = some (c SNBOX_ATMOS * k.PGC_TO_PPMVCO2))
    (hok : (stashCValues k core omodel s t c).failure = none) :
    (stashCValues k core omodel s t c).state.residual = 0
      ∧ (stashCValues k core omodel s t c).sent
        = [⟨message_kind.M_DUMP_TO_DEEP_OCEAN, D_OCEAN_C, 0⟩] := by
  obtain ⟨hsz, hex⟩ := tseries_exists_of_find _ _ _ hT
  have hc : (core.inSpinup || (decide (s.CO2_constrain.size ≠ 0)
      && s.CO2_constrain.exists_at t)) = true := by
    rw [hex]
    simp [hsz]
  obtain ⟨m, s1, hP, hm, hres, -, -, hsent⟩ :=
    stashCValues_matched k core omodel s t c hc hok
  obtain ⟨a, fl, ts, v, d, so, e, hfr, -⟩ := stash_pools_frame omodel s t c
  rw [hP] at hfr
  simp only at hfr
  have hT1 : tseries_find ({ s1 with masstot := stash_sum c } :
      SimpleNbox K).CO2_constrain.mapdata t = some (c SNBOX_ATMOS * k.PGC_TO_PPMVCO2) := by
    rw [hfr]
    exact hT
  have hmT := atmos_cpool_to_match_constrained k core _ t _ m hsp hT1 hm
  have hm0 : c SNBOX_ATMOS - m = 0 := by
    rw [hmT]
    field_simp
  rw [hres, hsent, hm0]
  exact ⟨rfl, rfl⟩

/-- Witness for C7 (amended): the exactly matching constraint at 1751. -/
theorem stashCValues_exact_match_witness :
    (stashCValues hector_constants ⟨false⟩ calm_ocean constrained_exact 1751
        solver_vector).state.residual = 0
      ∧ (stashCValues hector_constants ⟨false⟩ calm_ocean constrained_exact 1751
        solver_vector).sent = [⟨message_kind.M_DUMP_TO_DEEP_OCEAN, D_OCEAN_C, 0⟩] :=
  stashCValues_exact_match hector_constants ⟨false⟩ calm_ocean constrained_exact 1751
    solver_vector (by decide!) rfl (by decide!) (by decide!)

/-- What a successful `stashCValues` leaves when neither spinup nor a constraint entry
applies: no residual, no message, `atmos_c` and `earth_c` are the solver values and `Ca` is
not touched. -/
theorem stashCValues_free (k : h_constants K) (core : Core) (omodel : CarbonCycleModel K)
    (s : SimpleNbox K) (t : K) (c : Fin 6 → K)
    (hc : (core.inSpinup || (decide (s.CO2_constrain.size ≠ 0) && s.CO2_constrain.exists_at t))
      = false)
    (hok : (stashCValues k core omodel s t c).failure = none) :
    (stashCValues k core omodel s t c).state.residual = 0
      ∧ (stashCValues k core omodel s t c).sent = []
      ∧ (stashCValues k core omodel s t c).state.atmos_c = c SNBOX_ATMOS
      ∧ (stashCValues k core omodel s t c).state.earth_c = c SNBOX_EARTH
      ∧ (stashCValues k core omodel s t c).state.Ca = s.Ca := by
  obtain ⟨s1, hP, -, -, -, hst, hsent⟩ := stashCValues_ok_inv k core omodel s t c hok
  obtain ⟨a, fl, ts, v, d, so, e, hfr, hval⟩ := stash_pools_frame omodel s t c
  rw [hP] at hfr hval
  simp only at hfr hval
  obtain ⟨ha, he, -⟩ := hval trivial
  have hc1 : (core.inSpinup || (decide (({ s1 with masstot := stash_sum c } :
      SimpleNbox K).CO2_constrain.size ≠ 0)
      && ({ s1 with masstot := stash_sum c } : SimpleNbox K).CO2_constrain.exists_at t))
      = false := by
    rw [hfr]
    exact hc
  have hres := stash_constrain_free k core _ t hc1
  refine ⟨?_, ?_, ?_, ?_, ?_⟩
  · rw [hst, hres]
  · rw [hsent, hres]
  · rw [hst, hres, hfr]
    exact ha
  · rw [hst, hres, hfr]
    exact he
  · rw [hst, hres, hfr]

/-- Counterexample to C8 as stated: from a state with `Ca = atmos_c * PGC_TO_PPMVCO2` an
unconstrained stash outside spinup succeeds, stores `atmos_c = 100` and leaves `Ca = 276`,
which is not `100 * PGC_TO_PPMVCO2`. -/
theorem stashCValues_unconstrained_not_coupled :
    two_biomes.Ca = two_biomes.atmos_c * hector_constants.PGC_TO_PPMVCO2
      ∧ (stashCValues hector_constants ⟨false⟩ calm_ocean two_biomes 1751
        solver_vector).failure = none
      ∧ (stashCValues hector_constants ⟨false⟩ calm_ocean two_biomes 1751
          solver_vector).state.Ca
        ≠ (stashCValues hector_constants ⟨false⟩ calm_ocean two_biomes 1751
          solver_vector).state.atmos_c * hector_constants.PGC_TO_PPMVCO2 := by
  decide!

/-- C8 (amended): after a successful `stashCValues`, `Ca = atmos_c * PGC_TO_PPMVCO2` holds in
the spinup branch and in the constrained branch; in the unconstrained branch `atmos_c` is
`c[atmos]` and `Ca` keeps the value it had before the call. -/
theorem stashCValues_coupling (k : h_constants K) (core : Core)
    (omodel : CarbonCycleModel K) (s : SimpleNbox K) (t : K) (c : Fin 6 → K)
    (hok : (stashCValues k core omodel s t c).failure = none) :
    ((core.inSpinup = true
        ∨ (s.CO2_constrain.size ≠ 0 ∧ s.CO2_constrain.exists_at t = true)) →
        (stashCValues k core omodel s t c).state.Ca
          = (stashCValues k core omodel s t c).state.atmos_c * k.PGC_TO_PPMVCO2)
      ∧ (¬ (core.inSpinup = true
        ∨ (s.CO2_constrain.size ≠ 0 ∧ s.CO2_constrain.exists_at t = true)) →
        (stashCValues k core omodel s t c).state.atmos_c = c SNBOX_ATMOS
          ∧ (stashCValues k core omodel s t c).state.Ca = s.Ca) := by
  constructor
  · intro h
    have hc : (core.inSpinup || (decide (s.CO2_constrain.size ≠ 0)
        && s.CO2_constrain.exists_at t)) = true := by
      rcases h with h | ⟨h1, h2⟩
      · rw [h]
        rfl
      · rw [h2]
        simp [h1]
    obtain ⟨m, s1, -, -, -, -, hCa, -⟩ := stashCValues_matched k core omodel s t c hc hok
    exact hCa
  · intro h
    have hc : (core.inSpinup || (decide (s.CO2_constrain.size ≠ 0)
        && s.CO2_constrain.exists_at t)) = false := by
      rw [Bool.eq_false_iff]
      intro hb
      apply h
      simp only [Bool.or_eq_true, Bool.and_eq_true, decide_eq_true_eq] at hb
      exact hb
    obtain ⟨-, -, hat, -, hCa⟩ := stashCValues_free k core omodel s t c hc hok
    exact ⟨hat, hCa⟩

/-- Witness for C8 (amended): coupled in spinup, `Ca` untouched in the unconstrained
branch. -/
theorem stashCValues_coupling_witness :
    (stashCValues hector_constants ⟨true⟩ calm_ocean two_biomes 1751 solver_vector).state.Ca
        = (stashCValues hector_constants ⟨true⟩ calm_ocean two_biomes 1751
            solver_vector).state.atmos_c * hector_constants.PGC_TO_PPMVCO2
      ∧ (stashCValues hector_constants ⟨false⟩ calm_ocean two_biomes 1751
            solver_vector).state.Ca = two_biomes.Ca :=
  ⟨(stashCValues_coupling hector_constants ⟨true⟩ calm_ocean two_biomes 1751 solver_vector
      (by decide!)).1 (Or.inl rfl),
   ((stashCValues_coupling hector_constants ⟨false⟩ calm_ocean two_biomes 1751 solver_vector
      (by decide!)).2 (by decide!)).2⟩

/-- Outside spinup a non-negative FFI value `e` gives `ffi_flux_current = e` and
`ccs_flux_current = 0`. -/
theorem calcderivs_ffi_nonneg (s : SimpleNbox K) (t e : K) (hsp : s.in_spinup = false)
    (he : s.ffiEmissions.get t = Except.ok e) (h0 : 0 ≤ e) :
    calcderivs_ffi s t = Except.ok (e, 0) := by
  unfold calcderivs_ffi fluxpool_set
  rw [hsp, he]
  simp only [Bool.not_false, if_true, bind, Except.bind, ge_iff_le, if_pos h0,
    if_neg (not_lt.mpr h0)]
  rfl

/-- Outside spinup a negative FFI value is offered unchanged to the `fluxpool`
`ccs_flux_current`, which rejects it. -/
theorem calcderivs_ffi_neg (s : SimpleNbox K) (t e : K) (hsp : s.in_spinup = false)
    (he : s.ffiEmissions.get t = Except.ok e) (h0 : e < 0) :
    calcderivs_ffi s t = Except.error Failure.negative_fluxpool := by
  unfold calcderivs_ffi fluxpool_set
  rw [hsp, he]
  simp only [Bool.not_false, if_true, bind, Except.bind, ge_iff_le, if_neg (not_le.mpr h0),
    if_pos h0]

/-- C10 (behaviour of the code): outside spinup, for the FFI value `e` at time `t`: if
`e >= 0` every derivative vector written has `dcdt[earth] = -e` and `dcdt[atmos]` equal to
`e` minus the land and ocean derivatives; if `e < 0` (carbon capture) `calcderivs` writes no
derivatives at all, because `ccs_flux_current` is set to the negative value itself. -/
theorem calcderivs_ffi_flow (omodel : CarbonCycleModel K) (s : SimpleNbox K) (t : K)
    (c : Fin 6 → K) (e : K) (hsp : s.in_spinup = false)
    (he : s.ffiEmissions.get t = Except.ok e) :
    (0 ≤ e → ∀ err dcdt, calcderivs omodel s t c = Except.ok (err, dcdt) →
        dcdt SNBOX_EARTH = - e
          ∧ dcdt SNBOX_ATMOS
            = e - (dcdt SNBOX_VEG + dcdt SNBOX_DET + dcdt SNBOX_SOIL + dcdt SNBOX_OCEAN))
      ∧ (e < 0 → ∀ r, calcderivs omodel s t c ≠ Except.ok r) := by
  constructor
  · intro h0 err dcdt h
    have hff := calcderivs_ffi_nonneg s t e hsp he h0
    simp only [calcderivs, bind_ok_iff] at h
    obtain ⟨a, ha, l, hl, ds, -, ff, hf, luc, -, h⟩ := h
    rw [hff] at hf
    simp only [Except.ok.injEq] at hf
    subst hf
    simp only [pure, Except.pure, Except.ok.injEq, Prod.mk.injEq] at h
    obtain ⟨-, rfl⟩ := h
    have h1 := calcderivs_npp_rh_partition s _ _ _ ha
    have h2 := calcderivs_litter_partition s _ _ _ hl
    have e5 : (5 : Fin 6) = Fin.succ 4 := rfl
    simp only [SNBOX_ATMOS, SNBOX_VEG, SNBOX_DET, SNBOX_SOIL, SNBOX_OCEAN, SNBOX_EARTH, e5,
      Matrix.cons_val_zero, Matrix.cons_val_one, Matrix.head_cons, Matrix.cons_val_two,
      Matrix.tail_cons, Matrix.cons_val_three, Matrix.cons_val_four, Matrix.cons_val_succ]
    simp only [add_zero, sub_zero] at h1 h2
    constructor
    · ring
    · linear_combination h1 + h2
  · intro h0 r h
    have hff := calcderivs_ffi_neg s t e hsp he h0
    simp only [calcderivs, bind_ok_iff] at h
    obtain ⟨a, -, l, -, ds, -, ff, hf, -⟩ := h
    rw [hff] at hf
    simp at hf

/-- Witness for C10: with FFI = 3 the earth derivative is -3; with FFI = -1 (capture)
`calcderivs` fails on the negative `fluxpool` value. -/
theorem calcderivs_ffi_flow_witness :
    (![1 / 2, 19 / 20, -4067 / 1000, 2117 / 1000, 7 / 2, -3] : Fin 6 → ℚ) SNBOX_EARTH = - 3
      ∧ calcderivs calm_ocean capture_state 1750 solver_vector
          = Except.error Failure.negative_fluxpool
      ∧ ∀ r, calcderivs calm_ocean capture_state 1750 solver_vector ≠ Except.ok r :=
  ⟨((calcderivs_ffi_flow calm_ocean two_biomes 1750 solver_vector 3 rfl (by decide!)).1
      (by decide!) 0 _ (by decide!)).1,
   by decide!,
   (calcderivs_ffi_flow calm_ocean capture_state 1750 solver_vector (-1) rfl (by decide!)).2
      (by decide!)⟩

/-! ### Apportioning -/

/-- Lookup `map_at` returns exactly the entries `map_find` finds. -/
theorem map_at_ok_iff (m : stringmap K) (b : String) (v : K) :
    map_at m b = Except.ok v ↔ map_find m b = some v := by
  unfold map_at
  rcases map_find m b with _ | x
  · simp
  · simp

/-- Assigning under one key leaves the entries under other keys alone. -/
theorem map_find_set_ne (m : stringmap K) (b k : String) (x : K) (h : b ≠ k) :
    map_find (map_set m b x) k = map_find m k := by
  induction m with
  | nil => simp [map_set, map_find, h]
  | cons p rest ih =>
    obtain ⟨k1, v1⟩ := p
    unfold map_set
    by_cases hk : k1 = b
    · rw [if_pos hk]
      subst hk
      simp [map_find, h]
    · rw [if_neg hk]
      unfold map_find
      rw [ih]

/-- Assigning under a key stores the value there. -/
theorem map_find_set_eq (m : stringmap K) (b : String) (x : K) :
    map_find (map_set m b x) b = some x := by
  induction m with
  | nil => simp [map_set, map_find]
  | cons p rest ih =>
    obtain ⟨k1, v1⟩ := p
    unfold map_set
    by_cases hk : k1 = b
    · rw [if_pos hk]
      simp [map_find, hk]
    · rw [if_neg hk]
      unfold map_find
      rw [if_neg hk, ih]

/-- The accumulation loop of `sum_map` started from `a`. -/
theorem sum_map_foldl (m : stringmap K) (a : K) :
    List.foldl (fun sum (entry : String × K) => sum + entry.2) a m
      = a + List.foldl (fun sum (entry : String × K) => sum + entry.2) 0 m := by
  induction m generalizing a with
  | nil => simp
  | cons p rest ih =>
    simp only [List.foldl_cons]
    rw [ih (a + p.2), ih (0 + p.2)]
    ring

/-- The value of `sum_map` on a map with a leading entry. -/
theorem sum_map_cons (p : String × K) (m : stringmap K) :
    sum_map (p :: m) = p.2 + sum_map m := by
  unfold sum_map
  simp only [List.foldl_cons]
  rw [sum_map_foldl]
  ring

/-- Overwriting an existing entry changes `sum_map` by the difference of the values. -/
theorem sum_map_set (m : stringmap K) (b : String) (v x : K)
    (h : map_find m b = some v) : sum_map (map_set m b x) = sum_map m + (x - v) := by
  induction m with
  | nil => simp [map_find] at h
  | cons p rest ih =>
    obtain ⟨k1, v1⟩ := p
    unfold map_find at h
    unfold map_set
    by_cases hk : k1 = b
    · rw [if_pos hk] at h ⊢
      simp only [Option.some.injEq] at h
      subst h
      rw [sum_map_cons, sum_map_cons]
      ring
    · rw [if_neg hk] at h ⊢
      rw [sum_map_cons, sum_map_cons, ih h]
      ring

/-- What a completed apportioning step for biome `b` did. -/
theorem stash_biome_ok (T dv dd ds : K) (s s1 : SimpleNbox K) (b : String)
    (h : stash_biome T dv dd ds s b = (none, s1)) :
    ∃ n r v d so, npp s b = Except.ok n ∧ rh s b = Except.ok r
      ∧ map_find s.veg_c b = some v ∧ map_find s.detritus_c b = some d
      ∧ map_find s.soil_c b = some so
      ∧ s1 = { s with
          veg_c := map_set s.veg_c b (v + dv * ((n + r) / T))
          detritus_c := map_set s.detritus_c b (d + dd * ((n + r) / T))
          soil_c := map_set s.soil_c b (so + ds * ((n + r) / T)) } := by
  unfold stash_biome at h
  rcases hn : npp s b with e | n
  · rw [hn] at h
    simp at h
  rcases hr : rh s b with e | r
  · rw [hn, hr] at h
    simp at h
  rcases hv : map_at s.veg_c b with e | v
  · rw [hn, hr, hv] at h
    simp at h
  rcases hd : map_at s.detritus_c b with e | d
  · rw [hn, hr, hv] at h
    dsimp only at h
    rw [hd] at h
    simp at h
  rcases hso : map_at s.soil_c b with e | so
  · rw [hn, hr, hv] at h
    dsimp only at h
    rw [hd] at h
    dsimp only at h
    rw [hso] at h
    simp at h
  rw [hn, hr, hv] at h
  dsimp only at h
  rw [hd] at h
  dsimp only at h
  rw [hso] at h
  simp only [Prod.mk.injEq, true_and] at h
  exact ⟨n, r, v, d, so, rfl, rfl, (map_at_ok_iff _ _ _).mp hv, (map_at_ok_iff _ _ _).mp hd,
    (map_at_ok_iff _ _ _).mp hso, h.symm⟩

/-- The loop `sum_npp_loop` only reads `npp_flux0` and `co2fert`. -/
theorem sum_npp_loop_congr (s s1 : SimpleNbox K) (h1 : s1.npp_flux0 = s.npp_flux0)
    (h2 : s1.co2fert = s.co2fert) (l : List String) (a : K) :
    sum_npp_loop s1 l a = sum_npp_loop s l a := by
  induction l generalizing a with
  | nil => rfl
  | cons b rest ih =>
    unfold sum_npp_loop
    have hn : npp s1 b = npp s b := by
      unfold npp
      rw [h1, h2]
    rw [hn]
    simp only [ih]

/-- The loop `sum_rh_loop` only depends on the respiration of the biomes it visits. -/
theorem sum_rh_loop_congr (s s1 : SimpleNbox K) (l : List String)
    (h : ∀ b ∈ l, rh s1 b = rh s b) (a : K) :
    sum_rh_loop s1 l a = sum_rh_loop s l a := by
  induction l generalizing a with
  | nil => rfl
  | cons b rest ih =>
    unfold sum_rh_loop
    rw [h b (List.mem_cons_self _ _)]
    have ih2 := ih (fun b1 hb1 => h b1 (List.mem_cons_of_mem _ hb1))
    simp only [ih2]

/-- Respiration only reads the detritus and soil pools and their temperature factors. -/
theorem rh_congr (s s1 : SimpleNbox K) (b : String)
    (hd : map_find s1.detritus_c b = map_find s.detritus_c b)
    (hs : map_find s1.soil_c b = map_find s.soil_c b)
    (htd : s1.tempfertd = s.tempfertd) (hts : s1.tempferts = s.tempferts) :
    rh s1 b = rh s b := by
  unfold rh rh_fda rh_fsa map_at
  rw [hd, hs, htd, hts]

/-- The apportioning loop over a duplicate-free biome list moves each aggregate by its delta
times the visited share of `npp + rh`. -/
theorem stash_apportion_sums (T dv dd ds : K) (l : List String) (s s1 : SimpleNbox K)
    (a r0 n r : K) (hnd : l.Nodup)
    (h : stash_apportion T dv dd ds l s = (none, s1))
    (hn : sum_npp_loop s l a = Except.ok n) (hr : sum_rh_loop s l r0 = Except.ok r) :
    sum_map s1.veg_c = sum_map s.veg_c + dv * (((n - a) + (r - r0)) / T)
      ∧ sum_map s1.detritus_c = sum_map s.detritus_c + dd * (((n - a) + (r - r0)) / T)
      ∧ sum_map s1.soil_c = sum_map s.soil_c + ds * (((n - a) + (r - r0)) / T) := by
  induction l generalizing s a r0 with
  | nil =>
    simp only [stash_apportion, Prod.mk.injEq, true_and] at h
    simp only [sum_npp_loop, sum_rh_loop, pure, Except.pure, Except.ok.injEq] at hn hr
    subst h hn hr
    simp
  | cons b rest ih =>
    unfold stash_apportion at h
    rcases hb : stash_biome T dv dd ds s b with ⟨_ | e, s2⟩
    · rw [hb] at h
      simp only at h
      obtain ⟨nb, rb, v, d, so, hnb, hrb, hv, hd, hso, hs2⟩ := stash_biome_ok T dv dd ds s s2 b hb
      simp only [sum_npp_loop, sum_rh_loop, bind_ok_iff] at hn hr
      obtain ⟨nb1, hnb1, hn⟩ := hn
      obtain ⟨rb1, hrb1, hr⟩ := hr
      rw [hnb] at hnb1
      rw [hrb] at hrb1
      simp only [Except.ok.injEq] at hnb1 hrb1
      subst hnb1 hrb1
      rw [List.nodup_cons] at hnd
      have hn2 : sum_npp_loop s2 rest (a + nb) = Except.ok n := by
        rw [sum_npp_loop_congr s s2 (by rw [hs2]) (by rw [hs2])]
        exact hn
      have hr2 : sum_rh_loop s2 rest (r0 + rb) = Except.ok r := by
        rw [sum_rh_loop_congr s s2 rest]
        · exact hr
        · intro b1 hb1
          have hne : b ≠ b1 := by
            intro heq
            rw [heq] at hnd
            exact hnd.1 hb1
          apply rh_congr
          · rw [hs2]
            exact map_find_set_ne _ _ _ _ hne
          · rw [hs2]
            exact map_find_set_ne _ _ _ _ hne
          · rw [hs2]
          · rw [hs2]
      obtain ⟨i1, i2, i3⟩ := ih s2 (a + nb) (r0 + rb) hnd.2 h hn2 hr2
      have e1 : sum_map s2.veg_c = sum_map s.veg_c + (v + dv * ((nb + rb) / T) - v) := by
        rw [hs2]
        exact sum_map_set _ _ _ _ hv
      have e2 : sum_map s2.detritus_c
          = sum_map s.detritus_c + (d + dd * ((nb + rb) / T) - d) := by
        rw [hs2]
        exact sum_map_set _ _ _ _ hd
      have e3 : sum_map s2.soil_c = sum_map s.soil_c + (so + ds * ((nb + rb) / T) - so) := by
        rw [hs2]
        exact sum_map_set _ _ _ _ hso
      rw [i1, i2, i3, e1, e2, e3]
      refine ⟨?_, ?_, ?_⟩ <;> ring
    · rw [hb] at h
      simp at h

/-- The constraint step of `stashCValues` only touches `residual`, `atmos_c` and `Ca`. -/
theorem stash_constrain_frame (k : h_constants K) (core : Core) (s : SimpleNbox K) (t : K) :
    ∃ r a ca, (stash_constrain k core s t).state
      = { s with residual := r, atmos_c := a, Ca := ca } := by
  unfold stash_constrain
  split
  · rcases atmos_cpool_to_match k core s t with e | m
    · exact ⟨s.residual, s.atmos_c, s.Ca, rfl⟩
    · exact ⟨_, _, _, rfl⟩
  · exact ⟨_, s.atmos_c, s.Ca, rfl⟩

/-- What a completed write-back did to the aggregated land pools: each moved by its delta
times `(npp_total + rh_total) / (npp_total + rh_total)`. -/
theorem stash_pools_sums (omodel : CarbonCycleModel K) (s s1 : SimpleNbox K) (t : K)
    (c : Fin 6 → K) (npp_total rh_total : K) (hnd : s.biome_list.Nodup)
    (hn : sum_npp s = Except.ok npp_total) (hr : sum_rh s = Except.ok rh_total)
    (hT : npp_total + rh_total ≠ 0)
    (h : stash_pools omodel s t c = (none, s1)) :
    sum_map s1.veg_c = c SNBOX_VEG ∧ sum_map s1.detritus_c = c SNBOX_DET
      ∧ sum_map s1.soil_c = c SNBOX_SOIL := by
  unfold stash_pools at h
  rcases ha : fluxpool_set (c SNBOX_ATMOS) with e | a
  · rw [ha] at h
    simp at h
  rw [ha] at h
  dsimp only at h
  have hn0 : ∀ s2 : SimpleNbox K, s2.npp_flux0 = s.npp_flux0 → s2.co2fert = s.co2fert →
      sum_npp_loop s2 s.biome_list 0 = Except.ok npp_total := by
    intro s2 h1 h2
    rw [sum_npp_loop_congr s s2 h1 h2]
    exact hn
  have hr0 : ∀ s2 : SimpleNbox K, s2.detritus_c = s.detritus_c → s2.soil_c = s.soil_c →
      s2.tempfertd = s.tempfertd → s2.tempferts = s.tempferts →
      sum_rh_loop s2 s.biome_list 0 = Except.ok rh_total := by
    intro s2 h1 h2 h3 h4
    rw [sum_rh_loop_congr s s2 _ (fun b _ => rh_congr s s2 b (by rw [h1]) (by rw [h2]) h3 h4)]
    exact hr
  have hn1 : sum_npp { s with atmos_c := a } = Except.ok npp_total := hn0 _ rfl rfl
  have hr1 : sum_rh { s with atmos_c := a } = Except.ok rh_total := hr0 _ rfl rfl rfl rfl
  rw [hn1, hr1] at h
  dsimp only at h
  rcases hl : s.lucEmissions.get t with e | luc
  · rw [hl] at h
    simp at h
  rw [hl] at h
  dsimp only at h
  split at h
  · simp at h
  · next s3 he =>
    obtain ⟨i1, i2, i3⟩ := stash_apportion_sums _ _ _ _ _ _ _ 0 0 npp_total rh_total hnd he
      (hn0 _ rfl rfl) (hr0 _ rfl rfl rfl rfl)
    simp only [sub_zero] at i1 i2 i3
    rw [div_self hT] at i1 i2 i3
    split at h
    · simp only [Prod.mk.injEq, true_and] at h
      subst h
      simp only
      rw [i1, i2, i3]
      refine ⟨?_, ?_, ?_⟩ <;> ring
    · simp at h

/-- C3: for a duplicate-free biome list, if `npp_total + rh_total` is non-zero then after a
successful `stashCValues(t, c)` the per-biome pools re-aggregate to the solver's values:
`sum_map` of `veg_c`, of `detritus_c` and of `soil_c` equal `c[veg]`, `c[det]` and `c[soil]`
(the apportioning weights sum to 1). -/
theorem stashCValues_reaggregates (k : h_constants K) (core : Core)
    (omodel : CarbonCycleModel K) (s : SimpleNbox K) (t : K) (c : Fin 6 → K)
    (npp_total rh_total : K) (hnd : s.biome_list.Nodup)
    (hn : sum_npp s = Except.ok npp_total) (hr : sum_rh s = Except.ok rh_total)
    (hT : npp_total + rh_total ≠ 0)
    (hok : (stashCValues k core omodel s t c).failure = none) :
    sum_map (stashCValues k core omodel s t c).state.veg_c = c SNBOX_VEG
      ∧ sum_map (stashCValues k core omodel s t c).state.detritus_c = c SNBOX_DET
      ∧ sum_map (stashCValues k core omodel s t c).state.soil_c = c SNBOX_SOIL := by
  obtain ⟨s1, hP, -, -, -, hst, -⟩ := stashCValues_ok_inv k core omodel s t c hok
  obtain ⟨r, a, ca, hfr⟩ := stash_constrain_frame k core { s1 with masstot := stash_sum c } t
  obtain ⟨i1, i2, i3⟩ := stash_pools_sums omodel s s1 t c npp_total rh_total hnd hn hr hT hP
  rw [hst, hfr]
  exact ⟨i1, i2, i3⟩

/-- Witness for C3: the two-biome state (NPP total 4, RH total 4) stashed with the solver
vector (vegetation 4, detritus 8, soil 100). -/
theorem stashCValues_reaggregates_witness :
    sum_map (stashCValues hector_constants ⟨false⟩ calm_ocean two_biomes 1751
        solver_vector).state.veg_c = 4
      ∧ sum_map (stashCValues hector_constants ⟨false⟩ calm_ocean two_biomes 1751
        solver_vector).state.detritus_c = 8
      ∧ sum_map (stashCValues hector_constants ⟨false⟩ calm_ocean two_biomes 1751
        solver_vector).state.soil_c = 100 :=
  stashCValues_reaggregates hector_constants ⟨false⟩ calm_ocean two_biomes 1751 solver_vector
    4 4 (by decide) (by decide!) (by decide!) (by decide!) (by decide!)

/-- What a completed write-back went through. -/
theorem stash_pools_inv (omodel : CarbonCycleModel K) (s s1 : SimpleNbox K) (t : K)
    (c : Fin 6 → K) (h : stash_pools omodel s t c = (none, s1)) :
    ∃ npp_total rh_total luc s3,
      0 ≤ c SNBOX_ATMOS ∧ sum_npp s = Except.ok npp_total ∧ sum_rh s = Except.ok rh_total
      ∧ s.lucEmissions.get t = Except.ok luc ∧ omodel.stashCValues t c = true
      ∧ stash_apportion (npp_total + rh_total) (c SNBOX_VEG - sum_map s.veg_c)
          (c SNBOX_DET - sum_map s.detritus_c) (c SNBOX_SOIL - sum_map s.soil_c) s.biome_list
          { s with
            atmos_c := c SNBOX_ATMOS
            atmosland_flux := npp_total - rh_total - luc
            atmosland_flux_ts := s.atmosland_flux_ts.set t (npp_total - rh_total - luc) }
          = (none, s3)
      ∧ s1 = { s3 with earth_c := c SNBOX_EARTH } := by
  unfold stash_pools at h
  rcases ha : fluxpool_set (c SNBOX_ATMOS) with e | a
  · rw [ha] at h
    simp at h
  rw [ha] at h
  dsimp only at h
  obtain ⟨haeq, ha0⟩ := fluxpool_set_ok _ _ ha
  subst haeq
  have hn0 : sum_npp { s with atmos_c := c SNBOX_ATMOS } = sum_npp s :=
    sum_npp_loop_congr s { s with atmos_c := c SNBOX_ATMOS } rfl rfl _ _
  have hr0 : sum_rh { s with atmos_c := c SNBOX_ATMOS } = sum_rh s :=
    sum_rh_loop_congr s { s with atmos_c := c SNBOX_ATMOS } _
      (fun b _ => rh_congr s _ b rfl rfl rfl rfl) _
  rw [hn0, hr0] at h
  rcases hn : sum_npp s with e | npp_total
  · rw [hn] at h
    simp at h
  rw [hn] at h
  dsimp only at h
  rcases hr : sum_rh s with e | rh_total
  · rw [hr] at h
    simp at h
  rw [hr] at h
  dsimp only at h
  rcases hl : s.lucEmissions.get t with e | luc
  · rw [hl] at h
    simp at h
  rw [hl] at h
  dsimp only at h
  split at h
  · simp at h
  · next s3 he =>
    by_cases ho : omodel.stashCValues t c = true
    · rw [if_pos ho] at h
      simp only [Prod.mk.injEq, true_and] at h
      exact ⟨npp_total, rh_total, luc, s3, ha0, rfl, rfl, rfl, ho, he, h.symm⟩
    · rw [if_neg ho] at h
      simp at h

/-- Overwriting an existing entry keeps the keys of a map. -/
theorem map_keys_set (m : stringmap K) (b : String) (v x : K)
    (h : map_find m b = some v) : map_keys (map_set m b x) = map_keys m := by
  induction m with
  | nil => simp [map_find] at h
  | cons p rest ih =>
    obtain ⟨k1, v1⟩ := p
    unfold map_find at h
    unfold map_set
    by_cases hk : k1 = b
    · rw [if_pos hk]
      rfl
    · rw [if_neg hk] at h ⊢
      unfold map_keys at ih ⊢
      simp only [List.map_cons]
      rw [ih h]

/-- A completed apportioning loop keeps the keys of the three pool maps. -/
theorem stash_apportion_keys (T dv dd ds : K) (l : List String) (s s1 : SimpleNbox K)
    (h : stash_apportion T dv dd ds l s = (none, s1)) :
    map_keys s1.veg_c = map_keys s.veg_c ∧ map_keys s1.detritus_c = map_keys s.detritus_c
      ∧ map_keys s1.soil_c = map_keys s.soil_c := by
  induction l generalizing s with
  | nil =>
    simp only [stash_apportion, Prod.mk.injEq, true_and] at h
    subst h
    exact ⟨rfl, rfl, rfl⟩
  | cons b rest ih =>
    unfold stash_apportion at h
    rcases hb : stash_biome T dv dd ds s b with ⟨_ | e, s2⟩
    · rw [hb] at h
      simp only at h
      obtain ⟨nb, rb, v, d, so, -, -, hv, hd, hso, hs2⟩ := stash_biome_ok T dv dd ds s s2 b hb
      obtain ⟨i1, i2, i3⟩ := ih s2 h
      rw [i1, i2, i3, hs2]
      exact ⟨map_keys_set _ _ _ _ hv, map_keys_set _ _ _ _ hd, map_keys_set _ _ _ _ hso⟩
    · rw [hb] at h
      simp at h

/-- A map with the single key `b` and a known `sum_map` is determined. -/
theorem single_entry_of_keys (m : stringmap K) (b : String) (x : K)
    (hk : map_keys m = [b]) (hs : sum_map m = x) : m = [(b, x)] := by
  unfold map_keys at hk
  match m, hk, hs with
  | [(k1, v1)], hk, hs =>
    simp only [List.map_cons, List.map_nil, List.cons.injEq, and_true] at hk
    rw [sum_map_cons] at hs
    simp only [sum_map, List.foldl_nil, add_zero] at hs
    rw [hk, hs]

/-- Counterexample to C4 as stated: in the two-biome state all pools are non-negative and so
are the solver values (vegetation 4, below the stored aggregate 10); the stash succeeds and
leaves `veg_c["boreal"] = 1 + (4 - 10) * 1/2 = -2`. -/
theorem stashCValues_negative_pool :
    (∀ entry ∈ two_biomes.veg_c ++ two_biomes.detritus_c ++ two_biomes.soil_c, 0 ≤ entry.2)
      ∧ 0 ≤ solver_vector SNBOX_VEG ∧ 0 ≤ solver_vector SNBOX_DET
      ∧ 0 ≤ solver_vector SNBOX_SOIL
      ∧ (stashCValues hector_constants ⟨false⟩ calm_ocean two_biomes 1751
          solver_vector).failure = none
      ∧ map_find (stashCValues hector_constants ⟨false⟩ calm_ocean two_biomes 1751
          solver_vector).state.veg_c "boreal" = some (-2) := by
  decide!

/-- C4 (amended): in a single-biome configuration (one biome `b`, each pool map holding just
the entry of `b`) with `npp_total + rh_total` non-zero, a successful `stashCValues(t, c)`
leaves `veg_c[b] = c[veg]`, `detritus_c[b] = c[det]` and `soil_c[b] = c[soil]`; hence with
`c[veg]`, `c[det]`, `c[soil]` non-negative every pool is non-negative afterwards. -/
theorem stashCValues_single_biome_nonneg (k : h_constants K) (core : Core)
    (omodel : CarbonCycleModel K) (s : SimpleNbox K) (t : K) (c : Fin 6 → K)
    (b : String) (npp_total rh_total : K)
    (hl : s.biome_list = [b]) (hv : map_keys s.veg_c = [b])
    (hd : map_keys s.detritus_c = [b]) (hso : map_keys s.soil_c = [b])
    (hn : sum_npp s = Except.ok npp_total) (hr : sum_rh s = Except.ok rh_total)
    (hT : npp_total + rh_total ≠ 0)
    (hc : 0 ≤ c SNBOX_VEG ∧ 0 ≤ c SNBOX_DET ∧ 0 ≤ c SNBOX_SOIL)
    (hok : (stashCValues k core omodel s t c).failure = none) :
    (stashCValues k core omodel s t c).state.veg_c = [(b, c SNBOX_VEG)]
      ∧ (stashCValues k core omodel s t c).state.detritus_c = [(b, c SNBOX_DET)]
      ∧ (stashCValues k core omodel s t c).state.soil_c = [(b, c SNBOX_SOIL)]
      ∧ ∀ entry ∈ (stashCValues k core omodel s t c).state.veg_c
            ++ (stashCValues k core omodel s t c).state.detritus_c
            ++ (stashCValues k core omodel s t c).state.soil_c, 0 ≤ entry.2 := by
  obtain ⟨s1, hP, -, -, -, hst, -⟩ := stashCValues_ok_inv k core omodel s t c hok
  obtain ⟨r, a, ca, hfr⟩ := stash_constrain_frame k core { s1 with masstot := stash_sum c } t
  have hnd : s.biome_list.Nodup := by
    rw [hl]
    exact List.nodup_singleton b
  obtain ⟨i1, i2, i3⟩ := stash_pools_sums omodel s s1 t c npp_total rh_total hnd hn hr hT hP
  obtain ⟨n2, r2, luc, s3, -, -, -, -, -, hap, hs1⟩ := stash_pools_inv omodel s s1 t c hP
  obtain ⟨k1, k2, k3⟩ := stash_apportion_keys _ _ _ _ _ _ _ hap
  simp only at k1 k2 k3
  have e1 : s1.veg_c = [(b, c SNBOX_VEG)] := by
    apply single_entry_of_keys _ _ _ _ i1
    rw [hs1]
    exact k1.trans hv
  have e2 : s1.detritus_c = [(b, c SNBOX_DET)] := by
    apply single_entry_of_keys _ _ _ _ i2
    rw [hs1]
    exact k2.trans hd
  have e3 : s1.soil_c = [(b, c SNBOX_SOIL)] := by
    apply single_entry_of_keys _ _ _ _ i3
    rw [hs1]
    exact k3.trans hso
  rw [hst, hfr]
  simp only
  rw [e1, e2, e3]
  refine ⟨rfl, rfl, rfl, ?_⟩
  intro entry hmem
  simp only [List.cons_append, List.nil_append, List.mem_cons, List.not_mem_nil,
    or_false] at hmem
  rcases hmem with h | h | h
  · rw [h]
    exact hc.1
  · rw [h]
    exact hc.2.1
  · rw [h]
    exact hc.2.2

/-- Witness for C4 (amended): the single-biome state stashed with vegetation 540,
detritus 61 and soil 1755. -/
theorem stashCValues_single_biome_nonneg_witness :
    (stashCValues hector_constants ⟨false⟩ calm_ocean one_biome 1751
        solver_vector_global).state.veg_c = [("global", 540)]
      ∧ (stashCValues hector_constants ⟨false⟩ calm_ocean one_biome 1751
        solver_vector_global).state.detritus_c = [("global", 61)]
      ∧ (stashCValues hector_constants ⟨false⟩ calm_ocean one_biome 1751
        solver_vector_global).state.soil_c = [("global", 1755)] :=
  ⟨(stashCValues_single_biome_nonneg hector_constants ⟨false⟩ calm_ocean one_biome 1751
      solver_vector_global "global" 50 50 rfl rfl rfl rfl (by decide!) (by decide!)
      (by decide!) (by decide!) (by decide!)).1,
   (stashCValues_single_biome_nonneg hector_constants ⟨false⟩ calm_ocean one_biome 1751
      solver_vector_global "global" 50 50 rfl rfl rfl rfl (by decide!) (by decide!)
      (by decide!) (by decide!) (by decide!)).2.1,
   (stashCValues_single_biome_nonneg hector_constants ⟨false⟩ calm_ocean one_biome 1751
      solver_vector_global "global" 50 50 rfl rfl rfl rfl (by decide!) (by decide!)
      (by decide!) (by decide!) (by decide!)).2.2.1⟩

/-! ### Completion: when the callbacks return -/

/-- A present entry is returned by `map_at`. -/
theorem map_at_of_isSome (m : stringmap K) (b : String) (h : (map_find m b).isSome = true) :
    ∃ v, map_at m b = Except.ok v := by
  unfold map_at
  rcases hf : map_find m b with _ | v
  · rw [hf] at h
    simp at h
  · exact ⟨v, rfl⟩

/-- Assigning under a key keeps every present entry present. -/
theorem map_find_set_isSome (m : stringmap K) (b k : String) (x : K)
    (h : (map_find m k).isSome = true) : (map_find (map_set m b x) k).isSome = true := by
  by_cases hk : b = k
  · subst hk
    rw [map_find_set_eq]
    rfl
  · rw [map_find_set_ne _ _ _ _ hk]
    exact h

/-- Member `npp` returns for a biome with complete data. -/
theorem npp_total_of_complete (s : SimpleNbox K) (b : String)
    (h : biome_complete s b = true) : ∃ n, npp s b = Except.ok n := by
  simp only [biome_complete, Bool.and_eq_true] at h
  obtain ⟨x, hx⟩ := map_at_of_isSome s.npp_flux0 b h.1.1.1.1.1.1.2
  obtain ⟨y, hy⟩ := map_at_of_isSome s.co2fert b h.1.1.1.1.1.2
  exact ⟨x * y, by simp [npp, hx, hy, bind, Except.bind, pure, Except.pure]⟩

/-- Member `rh_fda` returns for a biome with complete data. -/
theorem rh_fda_of_complete (s : SimpleNbox K) (b : String)
    (h : biome_complete s b = true) : ∃ r, rh_fda s b = Except.ok r := by
  simp only [biome_complete, Bool.and_eq_true] at h
  obtain ⟨x, hx⟩ := map_at_of_isSome s.detritus_c b h.1.1.1.1.1.1.1.1.2
  obtain ⟨y, hy⟩ := map_at_of_isSome s.tempfertd b h.1.1.1.1.2
  exact ⟨x * (25 / 100) * y, by simp [rh_fda, hx, hy, bind, Except.bind, pure, Except.pure]⟩

/-- Member `rh_fsa` returns for a biome with complete data. -/
theorem rh_fsa_of_complete (s : SimpleNbox K) (b : String)
    (h : biome_complete s b = true) : ∃ r, rh_fsa s b = Except.ok r := by
  simp only [biome_complete, Bool.and_eq_true] at h
  obtain ⟨x, hx⟩ := map_at_of_isSome s.soil_c b h.1.1.1.1.1.1.1.2
  obtain ⟨y, hy⟩ := map_at_of_isSome s.tempferts b h.1.1.1.2
  exact ⟨x * (2 / 100) * y, by simp [rh_fsa, hx, hy, bind, Except.bind, pure, Except.pure]⟩

/-- Member `rh` returns for a biome with complete data. -/
theorem rh_of_complete (s : SimpleNbox K) (b : String)
    (h : biome_complete s b = true) : ∃ r, rh s b = Except.ok r := by
  obtain ⟨x, hx⟩ := rh_fda_of_complete s b h
  obtain ⟨y, hy⟩ := rh_fsa_of_complete s b h
  exact ⟨x + y, by simp [rh, hx, hy, bind, Except.bind, pure, Except.pure]⟩

/-- Member `sum_npp` returns when every biome of the list has complete data. -/
theorem sum_npp_loop_total (s : SimpleNbox K) (l : List String) (a : K)
    (h : ∀ b ∈ l, biome_complete s b = true) : ∃ n, sum_npp_loop s l a = Except.ok n := by
  induction l generalizing a with
  | nil => exact ⟨a, rfl⟩
  | cons b rest ih =>
    obtain ⟨x, hx⟩ := npp_total_of_complete s b (h b (List.mem_cons_self _ _))
    obtain ⟨n, hn⟩ := ih (a + x) (fun b1 hb1 => h b1 (List.mem_cons_of_mem _ hb1))
    exact ⟨n, by simp [sum_npp_loop, hx, hn, bind, Except.bind]⟩

/-- Member `sum_rh` returns when every biome of the list has complete data. -/
theorem sum_rh_loop_total (s : SimpleNbox K) (l : List String) (a : K)
    (h : ∀ b ∈ l, biome_complete s b = true) : ∃ r, sum_rh_loop s l a = Except.ok r := by
  induction l generalizing a with
  | nil => exact ⟨a, rfl⟩
  | cons b rest ih =>
    obtain ⟨x, hx⟩ := rh_of_complete s b (h b (List.mem_cons_self _ _))
    obtain ⟨n, hn⟩ := ih (a + x) (fun b1 hb1 => h b1 (List.mem_cons_of_mem _ hb1))
    exact ⟨n, by simp [sum_rh_loop, hx, hn, bind, Except.bind]⟩

/-- The apportioning step completes for a biome with complete data and keeps the data of
every biome complete. -/
theorem stash_biome_total (T dv dd ds : K) (s : SimpleNbox K) (b : String)
    (h : biome_complete s b = true) :
    ∃ s1, stash_biome T dv dd ds s b = (none, s1)
      ∧ ∀ b1, biome_complete s b1 = true → biome_complete s1 b1 = true := by
  obtain ⟨n, hn⟩ := npp_total_of_complete s b h
  obtain ⟨r, hr⟩ := rh_of_complete s b h
  have h2 := h
  simp only [biome_complete, Bool.and_eq_true] at h2
  obtain ⟨v, hv⟩ := map_at_of_isSome s.veg_c b h2.1.1.1.1.1.1.1.1.1
  obtain ⟨d, hd⟩ := map_at_of_isSome s.detritus_c b h2.1.1.1.1.1.1.1.1.2
  obtain ⟨so, hso⟩ := map_at_of_isSome s.soil_c b h2.1.1.1.1.1.1.1.2
  refine ⟨{ s with
      veg_c := map_set s.veg_c b (v + dv * ((n + r) / T))
      detritus_c := map_set s.detritus_c b (d + dd * ((n + r) / T))
      soil_c := map_set s.soil_c b (so + ds * ((n + r) / T)) },
    by simp only [stash_biome, hn, hr, hv, hd, hso], ?_⟩
  intro b1 hb1
  simp only [biome_complete, Bool.and_eq_true] at hb1 ⊢
  obtain ⟨⟨⟨⟨⟨⟨⟨⟨⟨c1, c2⟩, c3⟩, c4⟩, c5⟩, c6⟩, c7⟩, c8⟩, c9⟩, c10⟩ := hb1
  exact ⟨⟨⟨⟨⟨⟨⟨⟨⟨map_find_set_isSome _ _ _ _ c1, map_find_set_isSome _ _ _ _ c2⟩,
    map_find_set_isSome _ _ _ _ c3⟩, c4⟩, c5⟩, c6⟩, c7⟩, c8⟩, c9⟩, c10⟩

/-- The apportioning loop completes when every biome of the list has complete data. -/
theorem stash_apportion_total (T dv dd ds : K) (l : List String) (s : SimpleNbox K)
    (h : ∀ b ∈ l, biome_complete s b = true) :
    ∃ s1, stash_apportion T dv dd ds l s = (none, s1) := by
  induction l generalizing s with
  | nil => exact ⟨s, rfl⟩
  | cons b rest ih =>
    obtain ⟨s2, hs2, hkeep⟩ := stash_biome_total T dv dd ds s b (h b (List.mem_cons_self _ _))
    obtain ⟨s1, hs1⟩ := ih s2 (fun b1 hb1 => hkeep b1 (h b1 (List.mem_cons_of_mem _ hb1)))
    exact ⟨s1, by simp only [stash_apportion, hs2, hs1]⟩

/-- The write-back part of `stashCValues` completes when the solver atmosphere is
non-negative, every biome of the list has complete data, land-use emissions are available at
`t` and the ocean model's stash returns. -/
theorem stash_pools_total (omodel : CarbonCycleModel K) (s : SimpleNbox K) (t : K)
    (c : Fin 6 → K) (luc : K) (h0 : 0 ≤ c SNBOX_ATMOS)
    (hall : ∀ b ∈ s.biome_list, biome_complete s b = true)
    (hluc : s.lucEmissions.get t = Except.ok luc) (hoc : omodel.stashCValues t c = true) :
    (stash_pools omodel s t c).1 = none := by
  obtain ⟨n, hn⟩ := sum_npp_loop_total s s.biome_list 0 hall
  obtain ⟨r, hr⟩ := sum_rh_loop_total s s.biome_list 0 hall
  have hn1 : sum_npp { s with atmos_c := c SNBOX_ATMOS } = Except.ok n :=
    (sum_npp_loop_congr s { s with atmos_c := c SNBOX_ATMOS } rfl rfl _ _).trans hn
  have hr1 : sum_rh { s with atmos_c := c SNBOX_ATMOS } = Except.ok r :=
    (sum_rh_loop_congr s { s with atmos_c := c SNBOX_ATMOS } _
      (fun b _ => rh_congr s _ b rfl rfl rfl rfl) _).trans hr
  obtain ⟨s3, hs3⟩ := stash_apportion_total (n + r) (c SNBOX_VEG - sum_map s.veg_c)
    (c SNBOX_DET - sum_map s.detritus_c) (c SNBOX_SOIL - sum_map s.soil_c) s.biome_list
    { s with
      atmos_c := c SNBOX_ATMOS
      atmosland_flux := n - r - luc
      atmosland_flux_ts := s.atmosland_flux_ts.set t (n - r - luc) }
    hall
  unfold stash_pools fluxpool_set
  rw [if_neg (not_lt.mpr h0)]
  dsimp only
  rw [hn1, hr1]
  dsimp only
  rw [hluc]
  dsimp only
  rw [hs3]
  dsimp only
  rw [if_pos hoc]

/-- The first loop of `calcderivs` returns when every biome of the list has complete data. -/
theorem calcderivs_npp_rh_total (s : SimpleNbox K) (l : List String) (acc : npp_rh_acc K)
    (h : ∀ b ∈ l, biome_complete s b = true) :
    ∃ r, calcderivs_npp_rh s l acc = Except.ok r := by
  induction l generalizing acc with
  | nil => exact ⟨acc, rfl⟩
  | cons b rest ih =>
    have hb := h b (List.mem_cons_self _ _)
    obtain ⟨n, hn⟩ := npp_total_of_complete s b hb
    obtain ⟨rd, hrd⟩ := rh_fda_of_complete s b hb
    obtain ⟨rs, hrs⟩ := rh_fsa_of_complete s b hb
    have h2 := hb
    simp only [biome_complete, Bool.and_eq_true] at h2
    obtain ⟨fv, hfv⟩ := map_at_of_isSome s.f_nppv b h2.1.1.2
    obtain ⟨fd, hfd⟩ := map_at_of_isSome s.f_nppd b h2.1.2
    obtain ⟨r, hr⟩ := ih
      { npp_current := acc.npp_current + n
        npp_fav := acc.npp_fav + n * fv
        npp_fad := acc.npp_fad + n * fd
        npp_fas := acc.npp_fas + n * (1 - fv - fd)
        rh_fda_current := acc.rh_fda_current + rd
        rh_fsa_current := acc.rh_fsa_current + rs }
      (fun b1 hb1 => h b1 (List.mem_cons_of_mem _ hb1))
    exact ⟨r, by simp only [calcderivs_npp_rh, hn, hfv, hfd, hrd, hrs, bind, Except.bind, hr]⟩

/-- The litter loop of `calcderivs` returns when every biome of the list has complete data. -/
theorem calcderivs_litter_total (s : SimpleNbox K) (l : List String) (acc : litter_acc K)
    (h : ∀ b ∈ l, biome_complete s b = true) :
    ∃ r, calcderivs_litter s l acc = Except.ok r := by
  induction l generalizing acc with
  | nil => exact ⟨acc, rfl⟩
  | cons b rest ih =>
    have h2 := h b (List.mem_cons_self _ _)
    simp only [biome_complete, Bool.and_eq_true] at h2
    obtain ⟨v, hv⟩ := map_at_of_isSome s.veg_c b h2.1.1.1.1.1.1.1.1.1
    obtain ⟨fl, hfl⟩ := map_at_of_isSome s.f_litterd b h2.2
    obtain ⟨r, hr⟩ := ih
      { litter_flux := acc.litter_flux + v * (35 / 1000)
        litter_fvd := acc.litter_fvd + v * (35 / 1000) * fl
        litter_fvs := acc.litter_fvs + v * (35 / 1000) * (1 - fl) }
      (fun b1 hb1 => h b1 (List.mem_cons_of_mem _ hb1))
    exact ⟨r, by simp only [calcderivs_litter, hv, hfl, bind, Except.bind, hr]⟩

/-- The detritus-to-soil loop of `calcderivs` returns when every biome of the list has
complete data. -/
theorem calcderivs_detsoil_total (s : SimpleNbox K) (l : List String) (a : K)
    (h : ∀ b ∈ l, biome_complete s b = true) :
    ∃ r, calcderivs_detsoil s l a = Except.ok r := by
  induction l generalizing a with
  | nil => exact ⟨a, rfl⟩
  | cons b rest ih =>
    have h2 := h b (List.mem_cons_self _ _)
    simp only [biome_complete, Bool.and_eq_true] at h2
    obtain ⟨d, hd⟩ := map_at_of_isSome s.detritus_c b h2.1.1.1.1.1.1.1.1.2
    obtain ⟨r, hr⟩ := ih (a + d * (6 / 10)) (fun b1 hb1 => h b1 (List.mem_cons_of_mem _ hb1))
    exact ⟨r, by simp only [calcderivs_detsoil, hd, bind, Except.bind, hr]⟩

/-- Member `calcderivs` writes its derivatives whenever every biome of the list has complete data
and either the kernel is in spinup (emissions of any sign are ignored) or the FFI value at
`t` is non-negative and land-use emissions are available at `t`. -/
theorem calcderivs_total (omodel : CarbonCycleModel K) (s : SimpleNbox K) (t : K)
    (c : Fin 6 → K) (hall : ∀ b ∈ s.biome_list, biome_complete s b = true)
    (hem : s.in_spinup = true
      ∨ ∃ e luc, s.ffiEmissions.get t = Except.ok e ∧ 0 ≤ e
          ∧ s.lucEmissions.get t = Except.ok luc) :
    ∃ r, calcderivs omodel s t c = Except.ok r := by
  obtain ⟨a, ha⟩ := calcderivs_npp_rh_total s s.biome_list ⟨0, 0, 0, 0, 0, 0⟩ hall
  obtain ⟨l, hl⟩ := calcderivs_litter_total s s.biome_list ⟨0, 0, 0⟩ hall
  obtain ⟨d, hd⟩ := calcderivs_detsoil_total s s.biome_list 0 hall
  have hff : ∃ ff, calcderivs_ffi s t = Except.ok ff := by
    rcases hem with hsp | ⟨e, luc, he, h0, -⟩
    · exact ⟨(0, 0), by simp [calcderivs_ffi, hsp, pure, Except.pure]⟩
    · by_cases hsp : s.in_spinup = true
      · exact ⟨(0, 0), by simp [calcderivs_ffi, hsp, pure, Except.pure]⟩
      · exact ⟨(e, 0), calcderivs_ffi_nonneg s t e (by simpa using hsp) he h0⟩
  have hluc : ∃ luc, calcderivs_luc s t = Except.ok luc := by
    rcases hem with hsp | ⟨e, luc, -, -, hl2⟩
    · exact ⟨0, by simp [calcderivs_luc, hsp, pure, Except.pure]⟩
    · by_cases hsp : s.in_spinup = true
      · exact ⟨0, by simp [calcderivs_luc, hsp, pure, Except.pure]⟩
      · exact ⟨luc, by simp [calcderivs_luc, hsp, hl2]⟩
  obtain ⟨ff, hff⟩ := hff
  obtain ⟨luc, hluc⟩ := hluc
  rcases h : calcderivs omodel s t c with e | r
  · simp only [calcderivs, ha, hl, hd, hff, hluc, bind, Except.bind, pure, Except.pure,
      reduceCtorEq] at h
  · exact ⟨r, rfl⟩

/-- Member `stashCValues` succeeds when the year fraction is in range, the write-back completes,
the mass check passes and the pool to match (if any) is accepted as a `fluxpool`. -/
theorem stashCValues_total (k : h_constants K) (core : Core) (omodel : CarbonCycleModel K)
    (s : SimpleNbox K) (t : K) (c : Fin 6 → K)
    (hyf : 0 ≤ t - s.ODEstartdate ∧ t - s.ODEstartdate ≤ 1)
    (hpools : (stash_pools omodel s t c).1 = none)
    (hmass : ¬ (s.masstot > 0 ∧ |stash_sum c - s.masstot| > k.MB_EPSILON))
    (hspin : core.inSpinup = true → 0 ≤ s.C0 / k.PGC_TO_PPMVCO2)
    (hcon : core.inSpinup = false → ∀ T, tseries_find s.CO2_constrain.mapdata t = some T →
      0 ≤ T / k.PGC_TO_PPMVCO2) :
    (stashCValues k core omodel s t c).failure = none := by
  have hmt := stash_pools_masstot omodel s t c
  obtain ⟨a, fl, ts, v, d, so, e, hfr, -⟩ := stash_pools_frame omodel s t c
  rcases hP : stash_pools omodel s t c with ⟨f, s1⟩
  rw [hP] at hpools hmt hfr
  simp only at hpools hmt hfr
  subst hpools
  have hyf2 : t - s.ODEstartdate ≥ 0 ∧ t - s.ODEstartdate ≤ 1 := hyf
  have hQ : (stash_constrain k core { s1 with masstot := stash_sum c } t).failure = none := by
    unfold stash_constrain
    split
    · next hc =>
      have hm : ∃ m, atmos_cpool_to_match k core { s1 with masstot := stash_sum c } t
          = Except.ok m := by
        unfold atmos_cpool_to_match fluxpool_set
        by_cases hsp : core.inSpinup = true
        · have h0 := hspin hsp
          rw [hfr]
          simp only [hsp, if_true]
          rw [if_neg (not_lt.mpr h0)]
          exact ⟨_, rfl⟩
        · have hsp2 : core.inSpinup = false := by simpa using hsp
          rw [hsp2] at hc
          simp only [Bool.false_or, Bool.and_eq_true, decide_eq_true_eq] at hc
          have hex := hc.2
          unfold tseries.exists_at at hex
          rcases hf : tseries_find ({ s1 with masstot := stash_sum c } :
              SimpleNbox K).CO2_constrain.mapdata t with _ | T
          · rw [hf] at hex
            simp at hex
          · have hf2 : tseries_find s.CO2_constrain.mapdata t = some T := by
              rw [← hf, hfr]
            have h0 := hcon hsp2 T hf2
            rw [tseries_get_of_find _ _ _ hf]
            simp only [hsp2, Bool.false_eq_true, if_false, bind, Except.bind]
            rw [if_neg (not_lt.mpr h0)]
            exact ⟨_, rfl⟩
      obtain ⟨m, hm⟩ := hm
      rw [hm]
    · rfl
  unfold stashCValues
  dsimp only
  rw [if_pos hyf2]
  simp only [hP]
  rw [hmt, if_neg hmass]
  rcases hQ2 : stash_constrain k core { s1 with masstot := stash_sum c } t with ⟨_ | e, s3, sent⟩
  · rfl
  · rw [hQ2] at hQ
    simp at hQ

/-! ### `sanitychecks` -/

/-- A statement about some value of type `Unit` is a statement about `()`. -/
theorem exists_unit_iff (p : Unit → Prop) : (∃ u, p u) ↔ p () :=
  ⟨fun ⟨_, h⟩ => h, fun h => ⟨(), h⟩⟩

/-- An `H_ASSERT` passes exactly when its condition holds. -/
theorem h_assert_ok_iff (cond : Bool) (msg : String) (u : Unit) :
    h_assert cond msg = Except.ok u ↔ cond = true := by
  unfold h_assert
  cases cond <;> simp

/-- An `H_ASSERT` only fails with its own message. -/
theorem h_assert_error (cond : Bool) (msg : String) (e : Failure)
    (h : h_assert cond msg = Except.error e) : e = Failure.assertion msg := by
  unfold h_assert at h
  cases cond
  · simp only [Bool.false_eq_true, if_false, Except.error.injEq] at h
    exact h.symm
  · simp at h

/-- In the `Except Failure` monad a sequenced computation fails exactly when the first part
fails or it returns and the second part fails. -/
theorem bind_error_iff {α β : Type} (x : Except Failure α) (f : α → Except Failure β)
    (e : Failure) :
    (x >>= f) = Except.error e ↔ x = Except.error e ∨ ∃ a, x = Except.ok a ∧ f a = Except.error e := by
  cases x with
  | error e1 => simp [bind, Except.bind]
  | ok a => simp [bind, Except.bind]

/-- A missing key is the only way `map_at` fails. -/
theorem map_at_error (m : stringmap K) (b : String) (e : Failure)
    (h : map_at m b = Except.error e) : e = Failure.out_of_range := by
  unfold map_at at h
  rcases hf : map_find m b with _ | v
  · rw [hf] at h
    exact (Except.error.inj h).symm
  · rw [hf] at h
    cases h

/-- The checks of `sanitychecks` for one biome pass exactly when the biome has an entry in
each of the seven maps and the values are in range. -/
theorem sanitychecks_biome_ok_iff (s : SimpleNbox K) (b : String) :
    sanitychecks_biome s b = Except.ok () ↔
      ∃ veg det soil npp0 fv fd fl,
        map_find s.veg_c b = some veg ∧ map_find s.detritus_c b = some det
        ∧ map_find s.soil_c b = some soil ∧ map_find s.npp_flux0 b = some npp0
        ∧ map_find s.f_nppv b = some fv ∧ map_find s.f_nppd b = some fd
        ∧ map_find s.f_litterd b = some fl
        ∧ 0 ≤ veg ∧ 0 ≤ det ∧ 0 ≤ soil ∧ 0 ≤ npp0 ∧ 0 ≤ fv ∧ 0 ≤ fd ∧ fv + fd ≤ 1
        ∧ 0 ≤ fl ∧ fl ≤ 1 := by
  simp only [sanitychecks_biome, bind_ok_iff, h_assert_ok_iff, map_at_ok_iff,
    decide_eq_true_eq, Bool.and_eq_true, ge_iff_le, exists_const]
  constructor
  · rintro ⟨veg, h1, c1, det, h2, c2, soil, h3, c3, npp0, h4, c4, fv, h5, c5, fd, h6, c6, c7,
      fl, h7, c8, c9⟩
    exact ⟨veg, det, soil, npp0, fv, fd, fl, h1, h2, h3, h4, h5, h6, h7, c1, c2, c3, c4, c5,
      c6, c7, c8, c9⟩
  · rintro ⟨veg, det, soil, npp0, fv, fd, fl, h1, h2, h3, h4, h5, h6, h7, c1, c2, c3, c4, c5,
      c6, c7, c8, c9⟩
    exact ⟨veg, h1, c1, det, h2, c2, soil, h3, c3, npp0, h4, c4, fv, h5, c5, fd, h6, c6, c7,
      fl, h7, c8, c9⟩

/-- The biome loop of `sanitychecks` passes exactly when the checks pass for every biome of
the list. -/
theorem sanitychecks_loop_ok_iff (s : SimpleNbox K) (l : List String) :
    sanitychecks_loop s l = Except.ok () ↔ ∀ b ∈ l, sanitychecks_biome s b = Except.ok () := by
  induction l with
  | nil => simp [sanitychecks_loop]
  | cons a rest ih =>
    simp only [sanitychecks_loop, bind_ok_iff, exists_unit_iff, List.mem_cons,
      forall_eq_or_imp, ih]

/-- The checks of `sanitychecks` pass exactly when the global values are in range and the
per-biome checks pass for every biome of the list. -/
theorem sanitychecks_checks_ok_iff (s : SimpleNbox K) :
    sanitychecks_checks s = Except.ok () ↔
      0 < s.atmos_c ∧ (∀ b ∈ s.biome_list, sanitychecks_biome s b = Except.ok ())
        ∧ 0 ≤ s.f_lucv ∧ 0 ≤ s.f_lucd ∧ s.f_lucv + s.f_lucd ≤ 1 ∧ 0 < s.C0 ∧ 0 < s.Ca := by
  simp only [sanitychecks_checks, bind_ok_iff, h_assert_ok_iff, decide_eq_true_eq, ge_iff_le,
    gt_iff_lt, exists_const, exists_unit_iff, sanitychecks_loop_ok_iff]

/-- C16: `sanitychecks` succeeds if and only if `atmos_c > 0`, `C0 > 0`, `Ca > 0`,
`f_lucv >= 0`, `f_lucd >= 0`, `f_lucv + f_lucd <= 1` and every biome of the biome list has an
entry in `veg_c`, `detritus_c`, `soil_c`, `npp_flux0`, `f_nppv`, `f_nppd` and `f_litterd` with
the four pools `>= 0`, `f_nppv >= 0`, `f_nppd >= 0`, `f_nppv + f_nppd <= 1` and
`0 <= f_litterd <= 1`; the state it leaves behind is the state it was called on. -/
theorem sanitychecks_iff (s : SimpleNbox K) :
    ((sanitychecks s).failure = none ↔
        (0 < s.atmos_c ∧ 0 < s.C0 ∧ 0 < s.Ca ∧ 0 ≤ s.f_lucv ∧ 0 ≤ s.f_lucd
          ∧ s.f_lucv + s.f_lucd ≤ 1
          ∧ ∀ b ∈ s.biome_list, ∃ veg det soil npp0 fv fd fl,
              map_find s.veg_c b = some veg ∧ map_find s.detritus_c b = some det
              ∧ map_find s.soil_c b = some soil ∧ map_find s.npp_flux0 b = some npp0
              ∧ map_find s.f_nppv b = some fv ∧ map_find s.f_nppd b = some fd
              ∧ map_find s.f_litterd b = some fl
              ∧ 0 ≤ veg ∧ 0 ≤ det ∧ 0 ≤ soil ∧ 0 ≤ npp0 ∧ 0 ≤ fv ∧ 0 ≤ fd ∧ fv + fd ≤ 1
              ∧ 0 ≤ fl ∧ fl ≤ 1))
      ∧ (sanitychecks s).state = s := by
  have hst : (sanitychecks s).state = s := by
    unfold sanitychecks
    split <;> rfl
  have hf : (sanitychecks s).failure = none ↔ sanitychecks_checks s = Except.ok () := by
    unfold sanitychecks
    rcases sanitychecks_checks s with e | u
    · simp
    · simp
  refine ⟨?_, hst⟩
  rw [hf, sanitychecks_checks_ok_iff]
  simp only [sanitychecks_biome_ok_iff]
  constructor
  · rintro ⟨h1, h2, h3, h4, h5, h6, h7⟩
    exact ⟨h1, h6, h7, h3, h4, h5, h2⟩
  · rintro ⟨h1, h6, h7, h3, h4, h5, h2⟩
    exact ⟨h1, h2, h3, h4, h5, h6, h7⟩

/-! ### `prepareToRun` -/

/-- Sequencing two computations that never fail with an `H_THROW` gives one that never does. -/
theorem no_thrown_bind {α β : Type} (x : Except Failure α) (f : α → Except Failure β)
    (hx : ∀ e, x = Except.error e → ∀ m, e ≠ Failure.thrown m)
    (hf : ∀ a e, f a = Except.error e → ∀ m, e ≠ Failure.thrown m) :
    ∀ e, (x >>= f) = Except.error e → ∀ m, e ≠ Failure.thrown m := by
  intro e h
  rw [bind_error_iff] at h
  rcases h with h | ⟨a, -, h⟩
  · exact hx e h
  · exact hf a e h

/-- An `H_ASSERT` never fails with an `H_THROW`. -/
theorem no_thrown_h_assert (cond : Bool) (msg : String) :
    ∀ e, h_assert cond msg = Except.error e → ∀ m, e ≠ Failure.thrown m := by
  intro e h m
  rw [h_assert_error cond msg e h]
  simp

/-- A lookup `map_at` never fails with an `H_THROW`. -/
theorem no_thrown_map_at (mp : stringmap K) (b : String) :
    ∀ e, map_at mp b = Except.error e → ∀ m, e ≠ Failure.thrown m := by
  intro e h m
  rw [map_at_error mp b e h]
  simp

/-- The per-biome checks of `sanitychecks` never fail with an `H_THROW`. -/
theorem no_thrown_sanitychecks_biome (s : SimpleNbox K) (b : String) :
    ∀ e, sanitychecks_biome s b = Except.error e → ∀ m, e ≠ Failure.thrown m := by
  unfold sanitychecks_biome
  repeat' first
    | exact no_thrown_h_assert _ _
    | exact no_thrown_map_at _ _
    | refine no_thrown_bind _ _ ?_ (fun _ => ?_)

/-- The biome loop of `sanitychecks` never fails with an `H_THROW`. -/
theorem no_thrown_sanitychecks_loop (s : SimpleNbox K) (l : List String) :
    ∀ e, sanitychecks_loop s l = Except.error e → ∀ m, e ≠ Failure.thrown m := by
  induction l with
  | nil =>
    intro e h
    simp [sanitychecks_loop] at h
  | cons a rest ih =>
    unfold sanitychecks_loop
    exact no_thrown_bind _ _ (no_thrown_sanitychecks_biome s a) (fun _ => ih)

/-- The checks of `sanitychecks` never fail with an `H_THROW`. -/
theorem no_thrown_sanitychecks (s : SimpleNbox K) :
    ∀ e, sanitychecks_checks s = Except.error e → ∀ m, e ≠ Failure.thrown m := by
  unfold sanitychecks_checks
  repeat' first
    | exact no_thrown_h_assert _ _
    | exact no_thrown_sanitychecks_loop _ _
    | refine no_thrown_bind _ _ ?_ (fun _ => ?_)

/-- The cardinality assertions of `prepareToRun` never fail with an `H_THROW`. -/
theorem no_thrown_prepare_sizes (s : SimpleNbox K) :
    ∀ e, prepare_sizes s = Except.error e → ∀ m, e ≠ Failure.thrown m := by
  unfold prepare_sizes
  repeat' first
    | exact no_thrown_h_assert _ _
    | refine no_thrown_bind _ _ ?_ (fun _ => ?_)

/-- The completeness assertions of `prepareToRun` never fail with an `H_THROW`. -/
theorem no_thrown_prepare_biome_checks (s : SimpleNbox K) (b : String) :
    ∀ e, prepare_biome_checks s b = Except.error e → ∀ m, e ≠ Failure.thrown m := by
  unfold prepare_biome_checks
  repeat' first
    | exact no_thrown_h_assert _ _
    | refine no_thrown_bind _ _ ?_ (fun _ => ?_)

/-- The one-time parameter checks of `prepareToRun` never fail with an `H_THROW`. -/
theorem no_thrown_prepare_params (s : SimpleNbox K) (l : List String) :
    ∀ e, prepare_params s l = Except.error e → ∀ m, e ≠ Failure.thrown m := by
  induction l with
  | nil =>
    intro e h
    simp [prepare_params] at h
  | cons a rest ih =>
    unfold prepare_params
    repeat' first
      | exact ih
      | exact no_thrown_h_assert _ _
      | exact no_thrown_map_at _ _
      | refine no_thrown_bind _ _ ?_ (fun _ => ?_)

/-- The first biome loop of `prepareToRun` only touches `warmingfactor`, keeps the entries
`warmingfactor` has, and never fails with an `H_THROW`. -/
theorem prepare_biomes_frame (l : List String) (s s1 : SimpleNbox K) (f : Option Failure)
    (h : prepare_biomes l s = (f, s1)) :
    (∃ w, s1 = { s with warmingfactor := w })
      ∧ (∀ b, map_count s.warmingfactor b = true → map_count s1.warmingfactor b = true)
      ∧ (∀ e, f = some e → ∀ m, e ≠ Failure.thrown m) := by
  induction l generalizing s with
  | nil =>
    simp only [prepare_biomes, Prod.mk.injEq] at h
    obtain ⟨hf, hs⟩ := h
    subst hf hs
    exact ⟨⟨s.warmingfactor, rfl⟩, fun _ hb => hb, by simp⟩
  | cons a rest ih =>
    unfold prepare_biomes at h
    rcases hc : prepare_biome_checks s a with e | u
    · rw [hc] at h
      simp only [Prod.mk.injEq] at h
      obtain ⟨hf, hs⟩ := h
      subst hf hs
      refine ⟨⟨s.warmingfactor, rfl⟩, fun _ hb => hb, ?_⟩
      intro e1 he1
      simp only [Option.some.injEq] at he1
      subst he1
      exact no_thrown_prepare_biome_checks s a e hc
    · rw [hc] at h
      dsimp only at h
      by_cases hw : map_count s.warmingfactor a = true
      · simp only [hw, Bool.not_true, Bool.false_eq_true, if_false] at h
        exact ih s h
      · have hw2 : map_count s.warmingfactor a = false := by simpa using hw
        simp only [hw2, Bool.not_false, if_true] at h
        obtain ⟨⟨w, hw3⟩, hk, hn⟩ := ih _ h
        refine ⟨⟨w, ?_⟩, ?_, hn⟩
        · rw [hw3]
        · intro b hb
          apply hk
          exact map_find_set_isSome _ _ _ _ hb

/-- The default albedo step of `prepareToRun` only touches `Ftalbedo`. -/
theorem prepare_albedo_frame (startDate endDate : K) (s : SimpleNbox K) :
    ∃ alb, prepare_albedo startDate endDate s = { s with Ftalbedo := alb } := by
  unfold prepare_albedo
  split
  · exact ⟨_, rfl⟩
  · exact ⟨s.Ftalbedo, rfl⟩

/-- The one-time parameter checks of `prepareToRun` only read `beta` and `q10_rh`. -/
theorem prepare_params_congr (s s2 : SimpleNbox K) (h1 : s2.beta = s.beta)
    (h2 : s2.q10_rh = s.q10_rh) (l : List String) :
    prepare_params s2 l = prepare_params s l := by
  induction l with
  | nil => rfl
  | cons a rest ih =>
    unfold prepare_params
    rw [h1, h2]
    simp only [ih]

/-- What a successful `prepareToRun` went through, and the state it leaves. -/
theorem prepareToRun_ok_inv (P startDate endDate : K) (s : SimpleNbox K)
    (h : (prepareToRun P startDate endDate s).failure = none) :
    (has_biome s SNBOX_DEFAULT_BIOME && decide (s.biome_list.length > 1)) = false
      ∧ prepare_sizes s = Except.ok ()
      ∧ ∃ w alb, prepare_biomes s.biome_list s = (none, { s with warmingfactor := w })
        ∧ 0 ≤ s.C0 * P
        ∧ prepare_params s s.biome_list = Except.ok ()
        ∧ sanitychecks_checks { s with
            warmingfactor := w, Ftalbedo := alb, Ca := s.C0, atmos_c := s.C0 * P }
            = Except.ok ()
        ∧ (prepareToRun P startDate endDate s).state
          = { s with warmingfactor := w, Ftalbedo := alb, Ca := s.C0, atmos_c := s.C0 * P } := by
  by_cases hg : (has_biome s SNBOX_DEFAULT_BIOME && decide (s.biome_list.length > 1)) = true
  · unfold prepareToRun at h
    rw [if_pos hg] at h
    simp at h
  have hg2 : (has_biome s SNBOX_DEFAULT_BIOME && decide (s.biome_list.length > 1)) = false := by
    simpa using hg
  rcases hsz : prepare_sizes s with e | u
  · unfold prepareToRun at h
    simp only [hg, hsz, if_false] at h
    simp at h
  rcases hb : prepare_biomes s.biome_list s with ⟨f, s1⟩
  obtain ⟨⟨w, hw⟩, -, -⟩ := prepare_biomes_frame _ _ _ _ hb
  subst hw
  obtain ⟨alb, halb⟩ := prepare_albedo_frame startDate endDate { s with warmingfactor := w }
  have hpp : prepare_params
      { s with warmingfactor := w, Ftalbedo := alb, Ca := s.C0, atmos_c := s.C0 * P }
      s.biome_list = prepare_params s s.biome_list :=
    prepare_params_congr s
      { s with warmingfactor := w, Ftalbedo := alb, Ca := s.C0, atmos_c := s.C0 * P }
      rfl rfl _
  have key : prepareToRun P startDate endDate s
      = (match f with
        | some e => ⟨some e, { s with warmingfactor := w }, []⟩
        | none =>
          match fluxpool_set (s.C0 * P) with
          | Except.error e =>
            ⟨some e, { s with warmingfactor := w, Ftalbedo := alb, Ca := s.C0 }, []⟩
          | Except.ok a =>
            match prepare_params s s.biome_list with
            | Except.error e =>
              ⟨some e, { s with warmingfactor := w, Ftalbedo := alb, Ca := s.C0, atmos_c := a },
                []⟩
            | Except.ok _ =>
              sanitychecks
                { s with warmingfactor := w, Ftalbedo := alb, Ca := s.C0, atmos_c := a }) := by
    unfold prepareToRun
    simp only [hg2, hsz, hb, Bool.false_eq_true, if_false]
    rcases f with _ | e
    · simp only [halb]
      rcases fluxpool_set (s.C0 * P) with e | a
      · rfl
      · simp only [prepare_params_congr s
          { s with warmingfactor := w, Ftalbedo := alb, Ca := s.C0, atmos_c := a } rfl rfl]
    · rfl
  rw [key] at h ⊢
  rcases f with _ | e
  swap
  · simp at h
  dsimp only at h ⊢
  rcases hfp : fluxpool_set (s.C0 * P) with e | a
  · rw [hfp] at h
    simp at h
  obtain ⟨ha, h0⟩ := fluxpool_set_ok _ _ hfp
  subst ha
  rw [hfp] at h
  dsimp only at h ⊢
  rcases hp : prepare_params s s.biome_list with e | u2
  · rw [hp] at h
    simp at h
  rw [hp] at h
  dsimp only at h ⊢
  unfold sanitychecks at h ⊢
  rcases hs : sanitychecks_checks { s with
      warmingfactor := w, Ftalbedo := alb, Ca := s.C0, atmos_c := s.C0 * P } with e | u3
  · rw [hs] at h
    simp at h
  · exact ⟨hg2, rfl, w, alb, rfl, h0, rfl, hs, rfl⟩

/-- The failure `H_THROW` of `prepareToRun` is raised exactly by its first check. -/
theorem prepareToRun_thrown_iff (P startDate endDate : K) (s : SimpleNbox K) (m : String) :
    (prepareToRun P startDate endDate s).failure = some (Failure.thrown m) ↔
      ((has_biome s SNBOX_DEFAULT_BIOME && decide (s.biome_list.length > 1)) = true
        ∧ m = "Cannot have both global and biome-specific data!") := by
  unfold prepareToRun
  by_cases hg : (has_biome s SNBOX_DEFAULT_BIOME && decide (s.biome_list.length > 1)) = true
  · rw [if_pos hg]
    simp only [Option.some.injEq, Failure.thrown.injEq, hg, true_and]
    exact eq_comm
  rw [if_neg hg]
  refine iff_of_false ?_ (fun hr => hg hr.1)
  rcases hsz : prepare_sizes s with e | u
  · simp only [Option.some.injEq]
    exact no_thrown_prepare_sizes s e hsz m
  dsimp only
  rcases hb : prepare_biomes s.biome_list s with ⟨_ | e, s1⟩
  swap
  · obtain ⟨-, -, hn⟩ := prepare_biomes_frame _ _ _ _ hb
    simp only [Option.some.injEq]
    exact hn e rfl m
  dsimp only
  rcases hfp : fluxpool_set ((prepare_albedo startDate endDate s1).C0 * P) with e | a
  · simp only [Option.some.injEq]
    unfold fluxpool_set at hfp
    split at hfp
    · simp only [Except.error.injEq] at hfp
      rw [← hfp]
      simp
    · simp at hfp
  dsimp only
  split
  · next e hp =>
    simp only [Option.some.injEq]
    exact no_thrown_prepare_params _ _ e hp m
  · unfold sanitychecks
    split
    · next e hs =>
      simp only [Option.some.injEq]
      exact no_thrown_sanitychecks _ e hs m
    · simp

/-- A list holding two different names has more than one element. -/
theorem length_gt_one_of_two (l : List String) (a b : String) (ha : a ∈ l) (hb : b ∈ l)
    (hab : b ≠ a) : 1 < l.length := by
  match l, ha, hb with
  | [x], ha, hb =>
    simp only [List.mem_singleton] at ha hb
    exact absurd (hb.trans ha.symm) hab
  | _ :: _ :: _, _, _ => simp

theorem length_le_one_of_all_eq (l : List String) (g : String) (hn : l.Nodup)
    (h : ∀ b ∈ l, b = g) : l.length ≤ 1 := by
  rcases l with _ | ⟨a, _ | ⟨b, rest⟩⟩
  · exact Nat.zero_le 1
  · exact le_refl 1
  · exfalso
    have ha : a = g := h a (List.mem_cons_self _ _)
    have hb : b = g := h b (List.mem_cons_of_mem _ (List.mem_cons_self _ _))
    rw [List.nodup_cons] at hn
    exact hn.1 (by rw [ha, hb]; exact List.mem_cons_self _ _)

theorem has_biome_iff (s : SimpleNbox K) (b : String) :
    has_biome s b = true ↔ b ∈ s.biome_list := by
  simp [has_biome]

/-- Witness for C16: the configured single-biome state passes `sanitychecks` and is left as
it was. -/
theorem sanitychecks_iff_witness :
    (sanitychecks configured).failure = none ∧ (sanitychecks configured).state = configured :=
  ⟨by decide!, (sanitychecks_iff configured).2⟩

/-- Counterexample to C13 as stated: `prepareToRun` succeeds on the configured state
(`C0 = 276`) and leaves `atmos_c = 276 * 2.13`, which is not `276 * PGC_TO_PPMVCO2`
(`PGC_TO_PPMVCO2 = 1/2.13`). -/
theorem prepareToRun_atmos_c_not_pgc_to_ppmv :
    (prepareToRun ppmvco2_to_pgc 1745 2300 configured).failure = none
      ∧ (prepareToRun ppmvco2_to_pgc 1745 2300 configured).state.atmos_c
        ≠ configured.C0 * hector_constants.PGC_TO_PPMVCO2 := by
  decide!

/-- C13 (amended): after a successful `prepareToRun`, `Ca` equals `C0` and `atmos_c` equals
`C0 * PPMVCO2_TO_PGC`; with `PPMVCO2_TO_PGC` the reciprocal of `PGC_TO_PPMVCO2` this is
`C0 / PGC_TO_PPMVCO2`, and `Ca = atmos_c * PGC_TO_PPMVCO2`. -/
theorem prepareToRun_atmosphere (P startDate endDate : K) (s : SimpleNbox K)
    (hok : (prepareToRun P startDate endDate s).failure = none) :
    (prepareToRun P startDate endDate s).state.Ca = s.C0
      ∧ (prepareToRun P startDate endDate s).state.atmos_c = s.C0 * P
      ∧ ∀ k : h_constants K, P * k.PGC_TO_PPMVCO2 = 1 →
          (prepareToRun P startDate endDate s).state.atmos_c = s.C0 / k.PGC_TO_PPMVCO2
          ∧ (prepareToRun P startDate endDate s).state.Ca
            = (prepareToRun P startDate endDate s).state.atmos_c * k.PGC_TO_PPMVCO2 := by
  obtain ⟨-, -, w, alb, -, -, -, -, hst⟩ := prepareToRun_ok_inv P startDate endDate s hok
  rw [hst]
  refine ⟨rfl, rfl, ?_⟩
  intro k hk
  have hne : k.PGC_TO_PPMVCO2 ≠ 0 := by
    intro h0
    rw [h0, mul_zero] at hk
    exact zero_ne_one hk
  have hP : P = 1 / k.PGC_TO_PPMVCO2 := by
    field_simp
    exact hk
  dsimp only
  constructor
  · rw [hP]
    ring
  · rw [mul_assoc, hk, mul_one]

/-- Witness for C13 (amended): the configured state, `C0 = 276`. -/
theorem prepareToRun_atmosphere_witness :
    (prepareToRun ppmvco2_to_pgc 1745 2300 configured).state.Ca = 276
      ∧ (prepareToRun ppmvco2_to_pgc 1745 2300 configured).state.atmos_c
        = 276 * (213 / 100) :=
  ⟨(prepareToRun_atmosphere ppmvco2_to_pgc 1745 2300 configured (by decide!)).1,
   (prepareToRun_atmosphere ppmvco2_to_pgc 1745 2300 configured (by decide!)).2.1⟩

/-- C14: `prepareToRun` fails with its "global and biome-specific" error whenever the biome
list holds "global" together with another biome name; it does not fail with that error for
a biome list (without repetition) that holds only "global", nor for a biome list without
"global". -/
theorem prepareToRun_global_check (P startDate endDate : K) (s : SimpleNbox K) :
    ((SNBOX_DEFAULT_BIOME ∈ s.biome_list ∧ ∃ b ∈ s.biome_list, b ≠ SNBOX_DEFAULT_BIOME) →
        (prepareToRun P startDate endDate s).failure
          = some (Failure.thrown "Cannot have both global and biome-specific data!"))
      ∧ (((s.biome_list.Nodup ∧ ∀ b ∈ s.biome_list, b = SNBOX_DEFAULT_BIOME)
          ∨ SNBOX_DEFAULT_BIOME ∉ s.biome_list) →
        ∀ m, (prepareToRun P startDate endDate s).failure ≠ some (Failure.thrown m)) := by
  constructor
  · rintro ⟨hg, b, hb, hne⟩
    rw [prepareToRun_thrown_iff]
    refine ⟨?_, rfl⟩
    have hlen := length_gt_one_of_two s.biome_list SNBOX_DEFAULT_BIOME b hg hb hne
    simp only [Bool.and_eq_true, decide_eq_true_eq, has_biome_iff, gt_iff_lt]
    exact ⟨hg, hlen⟩
  · intro h m hf
    rw [prepareToRun_thrown_iff] at hf
    obtain ⟨hc, -⟩ := hf
    simp only [Bool.and_eq_true, decide_eq_true_eq, has_biome_iff, gt_iff_lt] at hc
    rcases h with h | h
    · exact absurd hc.2 (not_lt.mpr (length_le_one_of_all_eq s.biome_list _ h.1 h.2))
    · exact h hc.1

/-- Witness for C14: the list "global", "boreal" is rejected; the list "global" alone and a
list without "global" are not rejected by this check. -/
theorem prepareToRun_global_check_witness :
    (prepareToRun ppmvco2_to_pgc 1745 2300 configured_mixed).failure
        = some (Failure.thrown "Cannot have both global and biome-specific data!")
      ∧ (∀ m, (prepareToRun ppmvco2_to_pgc 1745 2300 configured).failure
          ≠ some (Failure.thrown m))
      ∧ (∀ m, (prepareToRun ppmvco2_to_pgc 1745 2300 two_biomes).failure
          ≠ some (Failure.thrown m)) :=
  ⟨(prepareToRun_global_check ppmvco2_to_pgc 1745 2300 configured_mixed).1
      ⟨by decide, "boreal", by decide, by decide⟩,
   (prepareToRun_global_check ppmvco2_to_pgc 1745 2300 configured).2
      (Or.inl ⟨by decide, by decide⟩),
   (prepareToRun_global_check ppmvco2_to_pgc 1745 2300 two_biomes).2 (Or.inr (by decide))⟩

theorem slowparam_co2fert_inv (L : libm K) :
    ∀ (l : List String) (s : SimpleNbox K) (f : Option Failure) (s' : SimpleNbox K),
      slowparam_co2fert L l s = (f, s') →
      (∃ cf, s' = { s with co2fert := cf }) ∧
      (f = none →
        (∀ b, b ∉ l → map_find s'.co2fert b = map_find s.co2fert b) ∧
        ∀ b ∈ l, (s.in_spinup = true → map_find s'.co2fert b = some 1) ∧
          (s.in_spinup = false → ∃ β, map_find s.beta b = some β ∧
            map_find s'.co2fert b = some (1 + β * L.log (s.Ca / s.C0)))) := by
  intro l
  induction l with
  | nil =>
    intro s f s' h
    simp only [slowparam_co2fert, Prod.mk.injEq] at h
    obtain ⟨rfl, rfl⟩ := h
    refine ⟨⟨s.co2fert, rfl⟩, fun _ => ⟨fun _ _ => rfl, ?_⟩⟩
    intro b hb
    cases hb
  | cons biome rest ih =>
    intro s f s' h
    unfold slowparam_co2fert at h
    by_cases hsp : s.in_spinup = true
    · rw [if_pos hsp] at h
      obtain ⟨⟨cf, hcf⟩, hrest⟩ := ih _ f s' h
      refine ⟨⟨cf, hcf⟩, ?_⟩
      intro hf
      obtain ⟨hframe, hval⟩ := hrest hf
      constructor
      · intro b hb
        rw [List.mem_cons, not_or] at hb
        rw [hframe b hb.2]
        exact map_find_set_ne _ _ _ _ (fun h => hb.1 h.symm)
      · intro b hb
        by_cases hbr : b ∈ rest
        · exact hval b hbr
        · have hbe : b = biome := by
            rcases List.mem_cons.mp hb with h | h
            · exact h
            · exact absurd h hbr
          subst hbe
          refine ⟨fun _ => ?_, fun hn => ?_⟩
          · rw [hframe b hbr]
            exact map_find_set_eq _ _ _
          · rw [hsp] at hn
            cases hn
    · rw [if_neg hsp] at h
      rcases hc : calc_co2fert L s biome with e | v
      · rw [hc] at h
        simp only [Prod.mk.injEq] at h
        obtain ⟨rfl, rfl⟩ := h
        refine ⟨⟨s.co2fert, rfl⟩, fun hf => ?_⟩
        cases hf
      · rw [hc] at h
        unfold calc_co2fert at hc
        rw [bind_ok_iff] at hc
        obtain ⟨β, hβ, hv⟩ := hc
        rw [map_at_ok_iff] at hβ
        have hv2 : 1 + β * L.log (s.Ca / s.C0) = v := Except.ok.inj hv
        obtain ⟨⟨cf, hcf⟩, hrest⟩ := ih _ f s' h
        refine ⟨⟨cf, hcf⟩, ?_⟩
        intro hf
        obtain ⟨hframe, hval⟩ := hrest hf
        constructor
        · intro b hb
          rw [List.mem_cons, not_or] at hb
          rw [hframe b hb.2]
          exact map_find_set_ne _ _ _ _ (fun h => hb.1 h.symm)
        · intro b hb
          by_cases hbr : b ∈ rest
          · exact hval b hbr
          · have hbe : b = biome := by
              rcases List.mem_cons.mp hb with h | h
              · exact h
              · exact absurd h hbr
            subst hbe
            refine ⟨fun hn => absurd hn hsp, fun _ => ⟨β, hβ, ?_⟩⟩
            rw [hframe b hbr, hv2]
            exact map_find_set_eq _ _ _

theorem slowparam_temp_biome_inv [FloorRing K] (L : libm K) (hub : hub_values K)
    (last : stringmap K) (t : K) (s : SimpleNbox K) (biome : String) (f : Option Failure)
    (s' : SimpleNbox K) (h : slowparam_temp_biome L hub last t s biome = (f, s')) :
    (∃ td ts, s' = { s with tempfertd := td, tempferts := ts }) ∧
    (f = none →
      (∀ b, b ≠ biome → map_find s'.tempferts b = map_find s.tempferts b) ∧
      (s.in_spinup = true → map_find s'.tempferts biome = some 1) ∧
      (s.in_spinup = false →
        ∃ v, map_find s'.tempferts biome = some v ∧ tempferts_last last biome ≤ v)) := by
  unfold slowparam_temp_biome at h
  by_cases hsp : s.in_spinup = true
  · rw [if_pos hsp] at h
    simp only [Prod.mk.injEq] at h
    obtain ⟨rfl, rfl⟩ := h
    refine ⟨⟨_, _, rfl⟩, fun _ => ⟨?_, ?_, ?_⟩⟩
    · intro b hb
      exact map_find_set_ne _ _ _ _ (fun h => hb h.symm)
    · intro _
      exact map_find_set_eq _ _ _
    · intro hn
      rw [hsp] at hn
      cases hn
  · rw [if_neg hsp] at h
    rcases hq : map_at s.q10_rh biome with e | q10
    · rw [hq] at h
      simp only [Prod.mk.injEq] at h
      obtain ⟨rfl, rfl⟩ := h
      refine ⟨⟨s.tempfertd, s.tempferts, rfl⟩, fun hf => ?_⟩
      cases hf
    · rw [hq] at h
      dsimp only at h
      rcases hrm : Tgav_rm hub
          { s with tempfertd := map_set s.tempfertd biome
                                  (L.pow q10 (hub.Tgav * warming_wf s biome / 10)) }
          (warming_wf s biome) t with e | rm
      · rw [hrm] at h
        simp only [Prod.mk.injEq] at h
        obtain ⟨rfl, rfl⟩ := h
        refine ⟨⟨_, s.tempferts, rfl⟩, fun hf => ?_⟩
        cases hf
      · rw [hrm] at h
        dsimp only at h
        by_cases hlt : L.pow q10 (rm / 10) < tempferts_last last biome
        · rw [if_pos hlt] at h
          simp only [Prod.mk.injEq] at h
          obtain ⟨rfl, rfl⟩ := h
          refine ⟨⟨_, _, rfl⟩, fun _ => ⟨?_, fun hn => absurd hn hsp, fun _ => ?_⟩⟩
          · intro b hb
            exact map_find_set_ne _ _ _ _ (fun h => hb h.symm)
          · exact ⟨_, map_find_set_eq _ _ _, le_refl _⟩
        · rw [if_neg hlt] at h
          simp only [Prod.mk.injEq] at h
          obtain ⟨rfl, rfl⟩ := h
          refine ⟨⟨_, _, rfl⟩, fun _ => ⟨?_, fun hn => absurd hn hsp, fun _ => ?_⟩⟩
          · intro b hb
            exact map_find_set_ne _ _ _ _ (fun h => hb h.symm)
          · exact ⟨_, map_find_set_eq _ _ _, not_lt.mp hlt⟩

theorem slowparam_temp_inv [FloorRing K] (L : libm K) (hub : hub_values K)
    (last : stringmap K) (t : K) :
    ∀ (l : List String) (s : SimpleNbox K) (f : Option Failure) (s' : SimpleNbox K),
      slowparam_temp L hub last t l s = (f, s') →
      (∃ td ts, s' = { s with tempfertd := td, tempferts := ts }) ∧
      (f = none →
        (∀ b, b ∉ l → map_find s'.tempferts b = map_find s.tempferts b) ∧
        ∀ b ∈ l, (s.in_spinup = true → map_find s'.tempferts b = some 1) ∧
          (s.in_spinup = false →
            ∃ v, map_find s'.tempferts b = some v ∧ tempferts_last last b ≤ v)) := by
  intro l
  induction l with
  | nil =>
    intro s f s' h
    simp only [slowparam_temp, Prod.mk.injEq] at h
    obtain ⟨rfl, rfl⟩ := h
    refine ⟨⟨s.tempfertd, s.tempferts, rfl⟩, fun _ => ⟨fun _ _ => rfl, ?_⟩⟩
    intro b hb
    cases hb
  | cons biome rest ih =>
    intro s f s' h
    unfold slowparam_temp at h
    rcases hb1 : slowparam_temp_biome L hub last t s biome with ⟨f1, s1⟩
    obtain ⟨⟨td1, ts1, hs1⟩, h1⟩ := slowparam_temp_biome_inv L hub last t s biome f1 s1 hb1
    rw [hb1] at h
    rcases f1 with _ | e
    · dsimp only at h
      obtain ⟨⟨td, ts, hs'⟩, hrest⟩ := ih s1 f s' h
      obtain ⟨hne, hsp1, hns1⟩ := h1 rfl
      have hspin : s1.in_spinup = s.in_spinup := by rw [hs1]
      refine ⟨⟨td, ts, ?_⟩, ?_⟩
      · rw [hs', hs1]
      · intro hf
        obtain ⟨hframe, hval⟩ := hrest hf
        constructor
        · intro b hb
          rw [List.mem_cons, not_or] at hb
          rw [hframe b hb.2]
          exact hne b hb.1
        · intro b hb
          by_cases hbr : b ∈ rest
          · have := hval b hbr
            rw [hspin] at this
            exact this
          · have hbe : b = biome := by
              rcases List.mem_cons.mp hb with h | h
              · exact h
              · exact absurd h hbr
            subst hbe
            rw [hframe b hbr]
            exact ⟨hsp1, hns1⟩
    · dsimp only at h
      simp only [Prod.mk.injEq] at h
      obtain ⟨rfl, rfl⟩ := h
      refine ⟨⟨td1, ts1, hs1⟩, fun hf => ?_⟩
      cases hf

theorem slowparameval_ok_inv [FloorRing K] (L : libm K) (k : h_constants K)
    (hub : hub_values K) (s : SimpleNbox K) (t : K) (c : Fin 6 → K)
    (h : (slowparameval L k hub s t c).failure = none) :
    ∃ cf td ts,
      slowparam_co2fert L s.biome_list { s with Ca := c SNBOX_ATMOS * k.PGC_TO_PPMVCO2 }
        = (none, { s with Ca := c SNBOX_ATMOS * k.PGC_TO_PPMVCO2, co2fert := cf })
      ∧ slowparam_temp L hub (tfs_last hub s t) t s.biome_list
          { s with Ca := c SNBOX_ATMOS * k.PGC_TO_PPMVCO2, co2fert := cf }
        = (none, { s with Ca := c SNBOX_ATMOS * k.PGC_TO_PPMVCO2, co2fert := cf,
                          tempfertd := td, tempferts := ts })
      ∧ (slowparameval L k hub s t c).state
        = { s with Ca := c SNBOX_ATMOS * k.PGC_TO_PPMVCO2, co2fert := cf,
                   tempfertd := td, tempferts := ts } := by
  have htfs : ∀ cf : stringmap K, tfs_last hub
      { s with Ca := c SNBOX_ATMOS * k.PGC_TO_PPMVCO2, co2fert := cf } t = tfs_last hub s t :=
    fun _ => rfl
  unfold slowparameval at h ⊢
  dsimp only at h ⊢
  rcases h1 : slowparam_co2fert L s.biome_list
      { s with Ca := c SNBOX_ATMOS * k.PGC_TO_PPMVCO2 } with ⟨f1, s2⟩
  rw [h1] at h
  obtain ⟨⟨cf, hcf⟩, -⟩ := slowparam_co2fert_inv L _ _ f1 s2 h1
  rcases f1 with _ | e
  · subst hcf
    dsimp only at h ⊢
    rw [htfs cf] at h ⊢
    refine ⟨cf, ?_⟩
    rcases h2 : slowparam_temp L hub (tfs_last hub s t) t s.biome_list
        { s with Ca := c SNBOX_ATMOS * k.PGC_TO_PPMVCO2, co2fert := cf } with ⟨f2, s3⟩
    rw [h2] at h
    obtain ⟨⟨td, ts, hts⟩, -⟩ := slowparam_temp_inv L hub _ t _ _ f2 s3 h2
    rcases f2 with _ | e
    · subst hts
      exact ⟨td, ts, rfl, rfl, rfl⟩
    · cases h
  · cases h
/-- C11: after a successful `slowparameval( t, c )`, `Ca` is `c[ SNBOX_ATMOS ] *
PGC_TO_PPMVCO2` and, for every biome of the biome list, `co2fert` is 1 in spinup and
`1 + beta * log( Ca / C0 )`, with the updated `Ca`, otherwise. -/
theorem slowparameval_co2fert [FloorRing K] (L : libm K) (k : h_constants K)
    (hub : hub_values K) (s : SimpleNbox K) (t : K) (c : Fin 6 → K)
    (hok : (slowparameval L k hub s t c).failure = none) :
    (slowparameval L k hub s t c).state.Ca = c SNBOX_ATMOS * k.PGC_TO_PPMVCO2
      ∧ ∀ b ∈ s.biome_list,
          (s.in_spinup = true →
            map_find (slowparameval L k hub s t c).state.co2fert b = some 1)
          ∧ (s.in_spinup = false → ∃ β, map_find s.beta b = some β
              ∧ map_find (slowparameval L k hub s t c).state.co2fert b
                = some (1 + β * L.log ((slowparameval L k hub s t c).state.Ca
                    / (slowparameval L k hub s t c).state.C0))) := by
  obtain ⟨cf, td, ts, h1, -, hst⟩ := slowparameval_ok_inv L k hub s t c hok
  rw [hst]
  refine ⟨rfl, ?_⟩
  intro b hb
  obtain ⟨-, hval⟩ := slowparam_co2fert_inv L _ _ _ _ h1
  exact (hval rfl).2 b hb

/-- Witness for C11: the single-biome state, not in spinup, at 1751. -/
theorem slowparameval_co2fert_witness :
    (slowparameval table_libm hector_constants hub_1500 warm_record 1751 solver_vector).state.Ca
        = solver_vector SNBOX_ATMOS * hector_constants.PGC_TO_PPMVCO2
      ∧ ∃ β, map_find warm_record.beta "global" = some β
          ∧ map_find (slowparameval table_libm hector_constants hub_1500 warm_record 1751
              solver_vector).state.co2fert "global"
            = some (1 + β * table_libm.log
                ((slowparameval table_libm hector_constants hub_1500 warm_record 1751
                    solver_vector).state.Ca
                  / (slowparameval table_libm hector_constants hub_1500 warm_record 1751
                    solver_vector).state.C0)) :=
  ⟨(slowparameval_co2fert table_libm hector_constants hub_1500 warm_record 1751 solver_vector
      (by decide!)).1,
   ((slowparameval_co2fert table_libm hector_constants hub_1500 warm_record 1751 solver_vector
      (by decide!)).2 "global" (by decide)).2 (by decide)⟩

/-- C12: the soil factor does decrease between two consecutive non-spinup calls of
`slowparameval`, at 1751 and at 1752 on the state the first call leaves: the factor of
"global" is 2 after the first call and 1 after the second, although the comment at the
comparison says that it can only increase. The comparison reads the previous value from
`tempferts_tv`, and the statement of `slowparameval` that writes `tempferts_tv` is commented
out. -/
theorem slowparameval_tempferts_decreases :
    warm_record.in_spinup = false
      ∧ (slowparameval table_libm hector_constants hub_1500 warm_record 1751
          solver_vector).failure = none
      ∧ map_find (slowparameval table_libm hector_constants hub_1500 warm_record 1751
          solver_vector).state.tempferts "global" = some 2
      ∧ (slowparameval table_libm hector_constants hub_1500
          (slowparameval table_libm hector_constants hub_1500 warm_record 1751
            solver_vector).state 1752 solver_vector).failure = none
      ∧ map_find (slowparameval table_libm hector_constants hub_1500
          (slowparameval table_libm hector_constants hub_1500 warm_record 1751
            solver_vector).state 1752 solver_vector).state.tempferts "global" = some 1 := by
  decide!

/-- What the comparison of `slowparameval` does achieve: after a successful non-spinup
`slowparameval( t, c )` at a defined time after the start date, the soil factor `tempferts`
of every biome of the biome list is at least the value recorded for that biome in
`tempferts_tv[ t ]` (0 when there is none); hence it is at least the biome's previous
`tempferts` whenever `tempferts_tv[ t ]` holds the previous `tempferts`. The record
`tempferts_tv` is not written by `slowparameval`. -/
theorem slowparameval_tempferts_sticky [FloorRing K] (L : libm K) (k : h_constants K)
    (hub : hub_values K) (s : SimpleNbox K) (t : K) (c : Fin 6 → K)
    (hok : (slowparameval L k hub s t c).failure = none) (hsp : s.in_spinup = false)
    (ht : t ≠ hub.undefinedIndex ∧ t > hub.startDate) :
    (slowparameval L k hub s t c).state.tempferts_tv = s.tempferts_tv
      ∧ ∀ b ∈ s.biome_list, ∃ v,
          map_find (slowparameval L k hub s t c).state.tempferts b = some v
          ∧ tempferts_last (s.tempferts_tv t) b ≤ v
          ∧ (s.tempferts_tv t = s.tempferts →
              ∀ v0, map_find s.tempferts b = some v0 → v0 ≤ v) := by
  obtain ⟨cf, td, ts, -, h2, hst⟩ := slowparameval_ok_inv L k hub s t c hok
  rw [hst]
  refine ⟨rfl, ?_⟩
  intro b hb
  obtain ⟨-, hval⟩ := slowparam_temp_inv L hub _ t _ _ _ _ h2
  obtain ⟨v, hv, hle⟩ := ((hval rfl).2 b hb).2 hsp
  have hlast : tfs_last hub s t = s.tempferts_tv t := by
    unfold tfs_last
    rw [if_pos ht]
  rw [hlast] at hle
  refine ⟨v, hv, hle, ?_⟩
  intro hrec v0 hv0
  have : tempferts_last (s.tempferts_tv t) b = v0 := by
    unfold tempferts_last
    rw [hrec, hv0]
  rw [← this]
  exact hle

/-- An instance of the above: the state whose soil factor 2 is recorded in `tempferts_tv`;
the call at 1752 computes 1 and retains 2. -/
theorem slowparameval_tempferts_sticky_witness :
    ∃ v, map_find (slowparameval table_libm hector_constants hub_1500 recorded 1752
        solver_vector).state.tempferts "global" = some v ∧ (2 : ℚ) ≤ v :=
  match (slowparameval_tempferts_sticky table_libm hector_constants hub_1500 recorded 1752
      solver_vector (by decide!) (by decide!) (by decide!)).2 "global" (by decide) with
  | ⟨v, hv, _, h3⟩ => ⟨v, hv, h3 (by decide!) 2 (by decide!)⟩

/-! ### The forcing component -/

theorem run_ghg_ok (L : libm K) (k : forcing_constants K) (hub : forcing_hub K)
    (f : ForcingComponent K) (t : K) (m0 : stringmap K) (C0 M0 N0 Ca Ma Na α : K)
    (hcap : (hub.checkCapability D_ATMOSPHERIC_CH4 && hub.checkCapability D_ATMOSPHERIC_N2O
      && hub.checkCapability D_ATMOSPHERIC_CO2) = true)
    (hC0 : hub.getData D_PREINDUSTRIAL_CO2 none = Except.ok C0)
    (hM0 : hub.getData D_PREINDUSTRIAL_CH4 none = Except.ok M0)
    (hN0 : hub.getData D_PREINDUSTRIAL_N2O none = Except.ok N0)
    (hCa : hub.getData D_ATMOSPHERIC_CO2 (some t) = Except.ok Ca)
    (hMa : hub.getData D_ATMOSPHERIC_CH4 (some t) = Except.ok Ma)
    (hNa : hub.getData D_ATMOSPHERIC_N2O (some t) = Except.ok Na)
    (hα : co2_alpha_prime L k C0 Ca = Except.ok α) :
    run_ghg L k hub f t m0
      = Except.ok (map_set (map_set (map_set (map_set m0
          D_RF_CO2 ((α + k.c1 * L.sqrt Na) * L.log (Ca / C0) * f.delta_co2
            + (α + k.c1 * L.sqrt Na) * L.log (Ca / C0)))
          D_RF_N2O (f.delta_n2o * ((k.a2 * L.sqrt Ca + k.b2 * L.sqrt Na + k.c2 * L.sqrt Ma)
              * (L.sqrt Na - L.sqrt N0))
            + (k.a2 * L.sqrt Ca + k.b2 * L.sqrt Na + k.c2 * L.sqrt Ma)
              * (L.sqrt Na - L.sqrt N0)))
          D_RF_CH4 (f.delta_ch4 * ((k.a3 * L.sqrt Ma + k.b3 * L.sqrt Na + k.d3)
              * (L.sqrt Ma - L.sqrt M0))
            + (k.a3 * L.sqrt Ma + k.b3 * L.sqrt Na + k.d3) * (L.sqrt Ma - L.sqrt M0)))
          D_RF_H2O_STRAT (5 / 100 * (36 / 1000 * (L.sqrt Ma - L.sqrt M0)))) := by
  unfold run_ghg
  rw [if_pos hcap, hC0, hM0, hN0, hCa, hMa, hNa]
  simp only [bind, Except.bind, hα, pure, Except.pure]

theorem run_ghg_throws (L : libm K) (k : forcing_constants K) (hub : forcing_hub K)
    (f : ForcingComponent K) (t : K) (m0 : stringmap K) (C0 M0 N0 Ca Ma Na : K) (e : Failure)
    (hcap : (hub.checkCapability D_ATMOSPHERIC_CH4 && hub.checkCapability D_ATMOSPHERIC_N2O
      && hub.checkCapability D_ATMOSPHERIC_CO2) = true)
    (hC0 : hub.getData D_PREINDUSTRIAL_CO2 none = Except.ok C0)
    (hM0 : hub.getData D_PREINDUSTRIAL_CH4 none = Except.ok M0)
    (hN0 : hub.getData D_PREINDUSTRIAL_N2O none = Except.ok N0)
    (hCa : hub.getData D_ATMOSPHERIC_CO2 (some t) = Except.ok Ca)
    (hMa : hub.getData D_ATMOSPHERIC_CH4 (some t) = Except.ok Ma)
    (hNa : hub.getData D_ATMOSPHERIC_N2O (some t) = Except.ok Na)
    (hα : co2_alpha_prime L k C0 Ca = Except.error e) :
    run_ghg L k hub f t m0 = Except.error e := by
  unfold run_ghg
  rw [if_pos hcap, hC0, hM0, hN0, hCa, hMa, hNa]
  simp only [bind, Except.bind, hα]

theorem run_o3_frame (hub : forcing_hub K) (t : K) (m m' : stringmap K)
    (h : run_o3 hub t m = Except.ok m') (key : String) (hk : key ≠ D_RF_O3_TROP) :
    map_find m' key = map_find m key := by
  unfold run_o3 at h
  by_cases hc : hub.checkCapability D_ATMOSPHERIC_O3 = true
  · rw [if_pos hc, bind_ok_iff] at h
    obtain ⟨v, -, hv⟩ := h
    rw [← Except.ok.inj hv]
    exact map_find_set_ne _ _ _ _ (fun h => hk h.symm)
  · rw [if_neg hc] at h
    rw [← Except.ok.inj h]

theorem run_halos_frame (hub : forcing_hub K) (t : K) :
    ∀ (l : List String) (m m' : stringmap K), run_halos hub t l m = Except.ok m' →
      ∀ key, key ∉ l → map_find m' key = map_find m key := by
  intro l
  induction l with
  | nil =>
    intro m m' h key _
    unfold run_halos at h
    rw [← Except.ok.inj h]
  | cons name rest ih =>
    intro m m' h key hk
    rw [List.mem_cons, not_or] at hk
    unfold run_halos at h
    by_cases hc : hub.checkCapability name = true
    · rw [if_pos hc, bind_ok_iff] at h
      obtain ⟨v, -, hv⟩ := h
      rw [ih _ _ hv key hk.2]
      exact map_find_set_ne _ _ _ _ (fun h => hk.1 h.symm)
    · rw [if_neg hc] at h
      exact ih _ _ h key hk.2

theorem run_aerosols_frame (hub : forcing_hub K) (f : ForcingComponent K) (t : K)
    (m m' : stringmap K) (h : run_aerosols hub f t m = Except.ok m') (key : String)
    (hbc : key ≠ D_RF_BC) (hoc : key ≠ D_RF_OC) (hso2 : key ≠ D_RF_SO2) :
    map_find m' key = map_find m key := by
  unfold run_aerosols at h
  by_cases hc : (hub.checkCapability D_EMISSIONS_BC && hub.checkCapability D_EMISSIONS_OC
      && hub.checkCapability D_NATURAL_SO2 && hub.checkCapability D_EMISSIONS_SO2) = true
  · rw [if_pos hc] at h
    simp only [bind_ok_iff] at h
    obtain ⟨E_BC, -, E_OC, -, S0, -, SN, -, u, -, E_SO2, -, hv⟩ := h
    rw [← Except.ok.inj hv, map_find_set_ne _ _ _ _ (fun h => hso2 h.symm),
      map_find_set_ne _ _ _ _ (fun h => hoc h.symm),
      map_find_set_ne _ _ _ _ (fun h => hbc h.symm)]
  · rw [if_neg hc] at h
    rw [← Except.ok.inj h]

theorem run_albedo_frame (hub : forcing_hub K) (t : K) (m m' : stringmap K)
    (h : run_albedo hub t m = Except.ok m') (key : String) (hk : key ≠ D_RF_T_ALBEDO) :
    map_find m' key = map_find m key := by
  unfold run_albedo at h
  by_cases hc : hub.checkCapability D_RF_T_ALBEDO = true
  · rw [if_pos hc, bind_ok_iff] at h
    obtain ⟨v, -, hv⟩ := h
    rw [← Except.ok.inj hv]
    exact map_find_set_ne _ _ _ _ (fun h => hk h.symm)
  · rw [if_neg hc] at h
    rw [← Except.ok.inj h]

theorem run_volcanic_frame (hub : forcing_hub K) (t : K) (m m' : stringmap K)
    (h : run_volcanic hub t m = Except.ok m') (key : String) (hk : key ≠ D_RF_VOL) :
    map_find m' key = map_find m key := by
  unfold run_volcanic at h
  by_cases hc : hub.checkCapability D_VOLCANIC_SO2 = true
  · rw [if_pos hc, bind_ok_iff] at h
    obtain ⟨v, -, hv⟩ := h
    rw [← Except.ok.inj hv]
    exact map_find_set_ne _ _ _ _ (fun h => hk h.symm)
  · rw [if_neg hc] at h
    rw [← Except.ok.inj h]

/-- The forcing names written by the blocks of `run` after "Major GHGs". -/
theorem run_forcings_inv (L : libm K) (k : forcing_constants K) (hub : forcing_hub K)
    (f : ForcingComponent K) (t : K) (m' : stringmap K)
    (h : run_forcings L k hub f t = Except.ok m') :
    ∃ m, run_ghg L k hub f t [] = Except.ok m ∧
      ∀ key, key ≠ D_RF_O3_TROP → key ∉ halos → key ≠ D_RF_BC → key ≠ D_RF_OC →
        key ≠ D_RF_SO2 → key ≠ D_RF_T_ALBEDO → key ≠ D_RF_VOL →
        map_find m' key = map_find m key := by
  unfold run_forcings at h
  simp only [bind_ok_iff] at h
  obtain ⟨m1, h1, m2, h2, m3, h3, m4, h4, m5, h5, h6⟩ := h
  refine ⟨m1, h1, ?_⟩
  intro key k1 k2 k3 k4 k5 k6 k7
  rw [run_volcanic_frame hub t m5 m' h6 key k7, run_albedo_frame hub t m4 m5 h5 key k6,
    run_aerosols_frame hub f t m3 m4 h4 key k3 k4 k5, run_halos_frame hub t halos m2 m3 h3 key k2,
    run_o3_frame hub t m1 m2 h2 key k1]

theorem run_forcings_throws (L : libm K) (k : forcing_constants K) (hub : forcing_hub K)
    (f : ForcingComponent K) (t : K) (e : Failure)
    (h : run_ghg L k hub f t [] = Except.error e) :
    run_forcings L k hub f t = Except.error e := by
  unfold run_forcings
  rw [h]
  rfl

theorem co2_alpha_prime_upper (L : libm K) (k : forcing_constants K) (C0 Ca : K)
    (h : Ca > C_alpha_max k C0) :
    co2_alpha_prime L k C0 Ca = Except.ok (alpha_prime_upper L k) := by
  unfold co2_alpha_prime
  rw [if_pos h]

theorem co2_alpha_prime_middle (L : libm K) (k : forcing_constants K) (C0 Ca : K)
    (h : C0 < Ca ∧ Ca < C_alpha_max k C0) :
    co2_alpha_prime L k C0 Ca = Except.ok (alpha_prime_middle L k C0 Ca) := by
  unfold co2_alpha_prime
  rw [if_neg (not_lt.mpr (le_of_lt h.2)), if_pos h]

theorem co2_alpha_prime_lower (L : libm K) (k : forcing_constants K) (C0 Ca : K)
    (hsign : k.b1 / (2 * k.a1) ≤ 0) (h : Ca < C0) :
    co2_alpha_prime L k C0 Ca = Except.ok k.d1 := by
  have hmax : C0 ≤ C_alpha_max k C0 := by
    unfold C_alpha_max
    linarith
  unfold co2_alpha_prime
  rw [if_neg (not_lt.mpr (le_trans (le_of_lt h) hmax)),
    if_neg (fun hc => lt_asymm h hc.1), if_pos h]

theorem co2_alpha_prime_at_C0 (L : libm K) (k : forcing_constants K) (C0 : K)
    (hsign : k.b1 / (2 * k.a1) ≤ 0) :
    co2_alpha_prime L k C0 C0
      = Except.error (Failure.thrown "Caller is requesting unknown condition for CO2  SARF ") := by
  have hmax : C0 ≤ C_alpha_max k C0 := by
    unfold C_alpha_max
    linarith
  unfold co2_alpha_prime
  rw [if_neg (not_lt.mpr hmax), if_neg (fun hc => lt_irrefl C0 hc.1), if_neg (lt_irrefl C0)]

theorem co2_alpha_prime_at_max (L : libm K) (k : forcing_constants K) (C0 : K)
    (hsign : k.b1 / (2 * k.a1) ≤ 0) :
    co2_alpha_prime L k C0 (C_alpha_max k C0)
      = Except.error (Failure.thrown "Caller is requesting unknown condition for CO2  SARF ") := by
  have hmax : C0 ≤ C_alpha_max k C0 := by
    unfold C_alpha_max
    linarith
  unfold co2_alpha_prime
  rw [if_neg (lt_irrefl _), if_neg (fun hc => lt_irrefl _ hc.2), if_neg (not_lt.mpr hmax)]

theorem table_libm_pow_two (x : ℚ) : table_libm.pow x 2 = x ^ 2 := by
  show exact_pow x 2 = x ^ 2
  unfold exact_pow
  have hd : (2 : ℚ).den = 1 := rfl
  have hn : (2 : ℚ).num = 2 := rfl
  rw [if_pos hd, hn]
  exact zpow_ofNat x 2

/-- C17: with the three greenhouse gas capabilities present and the hub serving `C0`,
`M0`, `N0`, `Ca`, `Ma`, `Na`, for `Ca` strictly inside one of the three regions
`Ca > C_alpha_max`, `C0 < Ca < C_alpha_max`, `Ca < C0` (`C_alpha_max = C0 - b1/(2*a1)`,
coefficients with `b1/(2*a1) <= 0`, so that the regions do not overlap), the block "Major
GHGs" of `run` produces the CO2 forcing `(alpha' + c1*sqrt(Na)) * log(Ca/C0) *
(1 + delta_co2)`, where `alpha'` is `d1 - b1^2/(2*a1)`, `d1 + a1*(Ca-C0)^2 + b1*(Ca-C0)`
and `d1` respectively, and every map of absolute forcings that `run` computes holds this
value under `D_RF_CO2`. -/
theorem run_forcings_co2 (L : libm K) (k : forcing_constants K) (hub : forcing_hub K)
    (f : ForcingComponent K) (t C0 M0 N0 Ca Ma Na : K)
    (hpow : ∀ x : K, L.pow x 2 = x ^ 2)
    (hsign : k.b1 / (2 * k.a1) ≤ 0)
    (hcap : (hub.checkCapability D_ATMOSPHERIC_CH4 && hub.checkCapability D_ATMOSPHERIC_N2O
      && hub.checkCapability D_ATMOSPHERIC_CO2) = true)
    (hC0 : hub.getData D_PREINDUSTRIAL_CO2 none = Except.ok C0)
    (hM0 : hub.getData D_PREINDUSTRIAL_CH4 none = Except.ok M0)
    (hN0 : hub.getData D_PREINDUSTRIAL_N2O none = Except.ok N0)
    (hCa : hub.getData D_ATMOSPHERIC_CO2 (some t) = Except.ok Ca)
    (hMa : hub.getData D_ATMOSPHERIC_CH4 (some t) = Except.ok Ma)
    (hNa : hub.getData D_ATMOSPHERIC_N2O (some t) = Except.ok Na)
    (hregion : Ca > C0 - k.b1 / (2 * k.a1) ∨ (C0 < Ca ∧ Ca < C0 - k.b1 / (2 * k.a1))
      ∨ Ca < C0) :
    ∃ α, (Ca > C0 - k.b1 / (2 * k.a1) → α = k.d1 - k.b1 ^ 2 / (2 * k.a1))
      ∧ (C0 < Ca ∧ Ca < C0 - k.b1 / (2 * k.a1) →
          α = k.d1 + k.a1 * (Ca - C0) ^ 2 + k.b1 * (Ca - C0))
      ∧ (Ca < C0 → α = k.d1)
      ∧ (∃ m, run_ghg L k hub f t [] = Except.ok m
          ∧ map_find m D_RF_CO2
            = some ((α + k.c1 * L.sqrt Na) * L.log (Ca / C0) * (1 + f.delta_co2)))
      ∧ ∀ forcings, run_forcings L k hub f t = Except.ok forcings →
          map_find forcings D_RF_CO2
            = some ((α + k.c1 * L.sqrt Na) * L.log (Ca / C0) * (1 + f.delta_co2)) := by
  have hmax : C0 ≤ C0 - k.b1 / (2 * k.a1) := by linarith
  have hfind : ∀ α, co2_alpha_prime L k C0 Ca = Except.ok α →
      (∃ m, run_ghg L k hub f t [] = Except.ok m
          ∧ map_find m D_RF_CO2
            = some ((α + k.c1 * L.sqrt Na) * L.log (Ca / C0) * (1 + f.delta_co2)))
      ∧ ∀ forcings, run_forcings L k hub f t = Except.ok forcings →
          map_find forcings D_RF_CO2
            = some ((α + k.c1 * L.sqrt Na) * L.log (Ca / C0) * (1 + f.delta_co2)) := by
    intro α hα
    have hg := run_ghg_ok L k hub f t [] C0 M0 N0 Ca Ma Na α hcap hC0 hM0 hN0 hCa hMa hNa hα
    have hval : ∀ m, run_ghg L k hub f t [] = Except.ok m → map_find m D_RF_CO2
        = some ((α + k.c1 * L.sqrt Na) * L.log (Ca / C0) * (1 + f.delta_co2)) := by
      intro m hm
      rw [hg] at hm
      rw [← Except.ok.inj hm, map_find_set_ne _ _ _ _ (by decide),
        map_find_set_ne _ _ _ _ (by decide), map_find_set_ne _ _ _ _ (by decide),
        map_find_set_eq]
      congr 1
      ring
    refine ⟨⟨_, hg, hval _ hg⟩, ?_⟩
    intro forcings hrun
    obtain ⟨m, hm, hframe⟩ := run_forcings_inv L k hub f t forcings hrun
    rw [hframe D_RF_CO2 (by decide) (by decide) (by decide) (by decide) (by decide)
      (by decide) (by decide)]
    exact hval m hm
  rcases hregion with h | h | h
  · refine ⟨k.d1 - k.b1 ^ 2 / (2 * k.a1), fun _ => rfl, fun h2 => absurd h (not_lt.mpr
      (le_of_lt h2.2)), fun h3 => absurd h (not_lt.mpr (le_trans (le_of_lt h3) hmax)), ?_⟩
    apply hfind
    rw [co2_alpha_prime_upper L k C0 Ca h]
    unfold alpha_prime_upper
    rw [hpow]
  · refine ⟨k.d1 + k.a1 * (Ca - C0) ^ 2 + k.b1 * (Ca - C0), fun h1 => absurd h1 (not_lt.mpr
      (le_of_lt h.2)), fun _ => rfl, fun h3 => absurd h3 (lt_asymm h.1), ?_⟩
    apply hfind
    rw [co2_alpha_prime_middle L k C0 Ca h]
    unfold alpha_prime_middle
    rw [hpow]
  · refine ⟨k.d1, fun h1 => absurd h1 (not_lt.mpr (le_trans (le_of_lt h) hmax)),
      fun h2 => absurd h (lt_asymm h2.1), fun _ => rfl, ?_⟩
    apply hfind
    exact co2_alpha_prime_lower L k C0 Ca hsign h

/-- Witness for C17: the AR6 coefficients, `C0 = 277` and `Ca = 400` in the middle region,
`Na = 324`, `delta_co2 = 0.2`. -/
theorem run_forcings_co2_witness :
    ∃ forcings, run_forcings table_libm ar6_constants (ghg_hub 400 1600 324) forcing_1751 1800
        = Except.ok forcings
      ∧ map_find forcings D_RF_CO2
        = some ((ar6_constants.d1 + ar6_constants.a1 * (400 - 277) ^ 2
              + ar6_constants.b1 * (400 - 277) + ar6_constants.c1 * table_libm.sqrt 324)
            * table_libm.log (400 / 277) * (1 + forcing_1751.delta_co2)) := by
  obtain ⟨α, -, h2, -, -, h5⟩ := run_forcings_co2 table_libm ar6_constants
    (ghg_hub 400 1600 324) forcing_1751 1800 277 729 256 400 1600 324 table_libm_pow_two
    (by decide!) (by decide!) (by decide!) (by decide!) (by decide!) (by decide!) (by decide!)
    (by decide!) (Or.inr (Or.inl (by decide!)))
  have hα := h2 (by decide!)
  subst hα
  have hok : (run_forcings table_libm ar6_constants (ghg_hub 400 1600 324) forcing_1751
      1800).isOk = true := by decide!
  rcases h : run_forcings table_libm ar6_constants (ghg_hub 400 1600 324) forcing_1751 1800
    with e | forcings
  · rw [h] at hok
    cases hok
  · exact ⟨forcings, rfl, h5 forcings h⟩

/-- C18 (what the code does at `Ca = C0`): with the three greenhouse gas capabilities
present and atmospheric CO2 served exactly at its preindustrial value, for coefficients with
`b1/(2*a1) <= 0`, none of the strict conditions of the `alpha_prime` cascade holds and `run`
throws "Caller is requesting unknown condition for CO2  SARF " instead of computing a CO2
forcing of 0. -/
theorem run_forcings_preindustrial_throws (L : libm K) (k : forcing_constants K)
    (hub : forcing_hub K) (f : ForcingComponent K) (t C0 M0 N0 Ma Na : K)
    (hsign : k.b1 / (2 * k.a1) ≤ 0)
    (hcap : (hub.checkCapability D_ATMOSPHERIC_CH4 && hub.checkCapability D_ATMOSPHERIC_N2O
      && hub.checkCapability D_ATMOSPHERIC_CO2) = true)
    (hC0 : hub.getData D_PREINDUSTRIAL_CO2 none = Except.ok C0)
    (hM0 : hub.getData D_PREINDUSTRIAL_CH4 none = Except.ok M0)
    (hN0 : hub.getData D_PREINDUSTRIAL_N2O none = Except.ok N0)
    (hCa : hub.getData D_ATMOSPHERIC_CO2 (some t) = Except.ok C0)
    (hMa : hub.getData D_ATMOSPHERIC_CH4 (some t) = Except.ok Ma)
    (hNa : hub.getData D_ATMOSPHERIC_N2O (some t) = Except.ok Na) :
    run_forcings L k hub f t
      = Except.error (Failure.thrown "Caller is requesting unknown condition for CO2  SARF ") :=
  run_forcings_throws L k hub f t _
    (run_ghg_throws L k hub f t [] C0 M0 N0 C0 Ma Na _ hcap hC0 hM0 hN0 hCa hMa hNa
      (co2_alpha_prime_at_C0 L k C0 hsign))

/-- Witness for C18: the AR6 coefficients with CO2, CH4 and N2O all at their preindustrial
values and no other capability. -/
theorem run_forcings_preindustrial_throws_witness :
    run_forcings table_libm ar6_constants (ghg_hub 277 729 256) forcing_1751 1800
      = Except.error (Failure.thrown "Caller is requesting unknown condition for CO2  SARF ") :=
  run_forcings_preindustrial_throws table_libm ar6_constants (ghg_hub 277 729 256)
    forcing_1751 1800 277 729 256 729 256 (by decide!) (by decide!) (by decide!) (by decide!)
    (by decide!) (by decide!) (by decide!) (by decide!)

/-- C19 (what the code does at the threshold): when `pow( x, 2 )` is the square and
`a1` is not 0, the value `d1 - pow(b1, 2)/(2*a1)` of the upper branch of `alpha_prime`
differs from the middle-branch expression at `Ca = C_alpha_max` by `-(b1^2/(4*a1))`, so the
two do not agree unless `b1 = 0`; the middle-branch expression at the threshold is
`d1 - b1^2/(4*a1)`. -/
theorem alpha_prime_jump (L : libm K) (k : forcing_constants K) (C0 : K)
    (hpow : ∀ x : K, L.pow x 2 = x ^ 2) (ha : k.a1 ≠ 0) :
    alpha_prime_middle L k C0 (C_alpha_max k C0) = k.d1 - k.b1 ^ 2 / (4 * k.a1)
      ∧ alpha_prime_upper L k - alpha_prime_middle L k C0 (C_alpha_max k C0)
        = -(k.b1 ^ 2 / (4 * k.a1))
      ∧ (k.b1 ≠ 0 → alpha_prime_upper L k ≠ alpha_prime_middle L k C0 (C_alpha_max k C0)) := by
  have hmid : alpha_prime_middle L k C0 (C_alpha_max k C0)
      = k.d1 - k.b1 ^ 2 / (4 * k.a1) := by
    unfold alpha_prime_middle C_alpha_max
    rw [hpow]
    field_simp
    ring
  have hdiff : alpha_prime_upper L k - alpha_prime_middle L k C0 (C_alpha_max k C0)
      = -(k.b1 ^ 2 / (4 * k.a1)) := by
    rw [hmid]
    unfold alpha_prime_upper
    rw [hpow]
    field_simp
    ring
  refine ⟨hmid, hdiff, ?_⟩
  intro hb heq
  rw [heq, sub_self] at hdiff
  have h0 : k.b1 ^ 2 / (4 * k.a1) = 0 := by
    have := neg_eq_zero.mp hdiff.symm
    exact this
  rcases div_eq_zero_iff.mp h0 with h | h
  · exact hb ((pow_eq_zero_iff two_ne_zero).mp h)
  · exact ha (by
      rcases mul_eq_zero.mp h with h4 | h4
      · exact absurd h4 (by norm_num)
      · exact h4)

/-- Witness for C19: the AR6 coefficients; the two values differ. -/
theorem alpha_prime_jump_witness :
    alpha_prime_upper table_libm ar6_constants
      ≠ alpha_prime_middle table_libm ar6_constants 277 (C_alpha_max ar6_constants 277) :=
  (alpha_prime_jump table_libm ar6_constants 277 table_libm_pow_two (by decide!)).2.2
    (by decide!)

/-- C20: with the three greenhouse gas capabilities present, the hub serving `C0`, `M0`,
`N0`, `Ca`, `Ma`, `Na` and the CO2 step of the same block not throwing, the block "Major
GHGs" of `run` produces the N2O forcing `(a2*sqrt(Ca) + b2*sqrt(Na) + c2*sqrt(Ma)) *
(sqrt(Na) - sqrt(N0)) * (1 + delta_n2o)` and the CH4 forcing `(a3*sqrt(Ma) + b3*sqrt(Na) +
d3) * (sqrt(Ma) - sqrt(M0)) * (1 + delta_ch4)`, every map of absolute forcings that `run`
computes holds them under `D_RF_N2O` and `D_RF_CH4`, and they are 0 when `Na = N0`, resp.
`Ma = M0`. -/
theorem run_forcings_n2o_ch4 (L : libm K) (k : forcing_constants K) (hub : forcing_hub K)
    (f : ForcingComponent K) (t C0 M0 N0 Ca Ma Na α : K)
    (hcap : (hub.checkCapability D_ATMOSPHERIC_CH4 && hub.checkCapability D_ATMOSPHERIC_N2O
      && hub.checkCapability D_ATMOSPHERIC_CO2) = true)
    (hC0 : hub.getData D_PREINDUSTRIAL_CO2 none = Except.ok C0)
    (hM0 : hub.getData D_PREINDUSTRIAL_CH4 none = Except.ok M0)
    (hN0 : hub.getData D_PREINDUSTRIAL_N2O none = Except.ok N0)
    (hCa : hub.getData D_ATMOSPHERIC_CO2 (some t) = Except.ok Ca)
    (hMa : hub.getData D_ATMOSPHERIC_CH4 (some t) = Except.ok Ma)
    (hNa : hub.getData D_ATMOSPHERIC_N2O (some t) = Except.ok Na)
    (hα : co2_alpha_prime L k C0 Ca = Except.ok α) :
    (∃ m, run_ghg L k hub f t [] = Except.ok m
        ∧ map_find m D_RF_N2O
          = some ((k.a2 * L.sqrt Ca + k.b2 * L.sqrt Na + k.c2 * L.sqrt Ma)
              * (L.sqrt Na - L.sqrt N0) * (1 + f.delta_n2o))
        ∧ map_find m D_RF_CH4
          = some ((k.a3 * L.sqrt Ma + k.b3 * L.sqrt Na + k.d3)
              * (L.sqrt Ma - L.sqrt M0) * (1 + f.delta_ch4)))
      ∧ ∀ forcings, run_forcings L k hub f t = Except.ok forcings →
          map_find forcings D_RF_N2O
            = some ((k.a2 * L.sqrt Ca + k.b2 * L.sqrt Na + k.c2 * L.sqrt Ma)
                * (L.sqrt Na - L.sqrt N0) * (1 + f.delta_n2o))
          ∧ map_find forcings D_RF_CH4
            = some ((k.a3 * L.sqrt Ma + k.b3 * L.sqrt Na + k.d3)
                * (L.sqrt Ma - L.sqrt M0) * (1 + f.delta_ch4))
          ∧ (Na = N0 → map_find forcings D_RF_N2O = some 0)
          ∧ (Ma = M0 → map_find forcings D_RF_CH4 = some 0) := by
  have hg := run_ghg_ok L k hub f t [] C0 M0 N0 Ca Ma Na α hcap hC0 hM0 hN0 hCa hMa hNa hα
  have hn : ∀ m, run_ghg L k hub f t [] = Except.ok m → map_find m D_RF_N2O
      = some ((k.a2 * L.sqrt Ca + k.b2 * L.sqrt Na + k.c2 * L.sqrt Ma)
          * (L.sqrt Na - L.sqrt N0) * (1 + f.delta_n2o)) := by
    intro m hm
    rw [hg] at hm
    rw [← Except.ok.inj hm, map_find_set_ne _ _ _ _ (by decide),
      map_find_set_ne _ _ _ _ (by decide), map_find_set_eq]
    congr 1
    ring
  have hc : ∀ m, run_ghg L k hub f t [] = Except.ok m → map_find m D_RF_CH4
      = some ((k.a3 * L.sqrt Ma + k.b3 * L.sqrt Na + k.d3)
          * (L.sqrt Ma - L.sqrt M0) * (1 + f.delta_ch4)) := by
    intro m hm
    rw [hg] at hm
    rw [← Except.ok.inj hm, map_find_set_ne _ _ _ _ (by decide), map_find_set_eq]
    congr 1
    ring
  refine ⟨⟨_, hg, hn _ hg, hc _ hg⟩, ?_⟩
  intro forcings hrun
  obtain ⟨m, hm, hframe⟩ := run_forcings_inv L k hub f t forcings hrun
  have e1 := hframe D_RF_N2O (by decide) (by decide) (by decide) (by decide) (by decide)
    (by decide) (by decide)
  have e2 := hframe D_RF_CH4 (by decide) (by decide) (by decide) (by decide) (by decide)
    (by decide) (by decide)
  rw [e1, e2, hn m hm, hc m hm]
  refine ⟨rfl, rfl, ?_, ?_⟩
  · intro h
    rw [h, sub_self, mul_zero, zero_mul]
  · intro h
    rw [h, sub_self, mul_zero, zero_mul]

/-- Witness for C20: the AR6 coefficients with `Ca = 400`, `Ma = 1600`, and `Na = N0 = 256`:
the N2O forcing is 0. -/
theorem run_forcings_n2o_ch4_witness :
    ∃ forcings, run_forcings table_libm ar6_constants (ghg_hub 400 1600 256) forcing_1751 1800
        = Except.ok forcings
      ∧ map_find forcings D_RF_N2O = some 0
      ∧ map_find forcings D_RF_CH4
        = some ((ar6_constants.a3 * table_libm.sqrt 1600 + ar6_constants.b3 * table_libm.sqrt 256
              + ar6_constants.d3)
            * (table_libm.sqrt 1600 - table_libm.sqrt 729) * (1 + forcing_1751.delta_ch4)) := by
  have hthm := (run_forcings_n2o_ch4 table_libm ar6_constants (ghg_hub 400 1600 256)
    forcing_1751 1800 277 729 256 400 1600 256
    (alpha_prime_middle table_libm ar6_constants 277 400)
    (by decide!) (by decide!) (by decide!) (by decide!) (by decide!) (by decide!) (by decide!)
    (by decide!)).2
  have hok : (run_forcings table_libm ar6_constants (ghg_hub 400 1600 256) forcing_1751
      1800).isOk = true := by decide!
  rcases h : run_forcings table_libm ar6_constants (ghg_hub 400 1600 256) forcing_1751 1800
    with e | forcings
  · rw [h] at hok
    cases hok
  · exact ⟨forcings, rfl, (hthm forcings h).2.2.1 rfl, (hthm forcings h).2.1⟩

/-! ### Maps: keys and lookups -/

theorem smap_find_set_eq {α : Type} (m : stringmap α) (b : String) (x : α) :
    map_find (map_set m b x) b = some x := by
  induction m with
  | nil => simp [map_set, map_find]
  | cons p rest ih =>
    obtain ⟨k1, v1⟩ := p
    unfold map_set
    by_cases hk : k1 = b
    · rw [if_pos hk]
      unfold map_find
      rw [if_pos hk]
    · rw [if_neg hk]
      unfold map_find
      rw [if_neg hk]
      exact ih

theorem smap_find_set_ne {α : Type} (m : stringmap α) (b k : String) (x : α) (h : b ≠ k) :
    map_find (map_set m b x) k = map_find m k := by
  induction m with
  | nil => simp [map_set, map_find, h]
  | cons p rest ih =>
    obtain ⟨k1, v1⟩ := p
    unfold map_set
    by_cases hk : k1 = b
    · rw [if_pos hk]
      unfold map_find
      rw [if_neg (fun e => h (hk.symm.trans e)), if_neg (fun e => h (hk.symm.trans e))]
    · rw [if_neg hk]
      unfold map_find
      by_cases hk2 : k1 = k
      · rw [if_pos hk2, if_pos hk2]
      · rw [if_neg hk2, if_neg hk2]
        exact ih

theorem map_keys_set_mem {α : Type} (m : stringmap α) (b key : String) (x : α) :
    key ∈ map_keys (map_set m b x) ↔ key = b ∨ key ∈ map_keys m := by
  induction m with
  | nil => simp [map_set, map_keys]
  | cons p rest ih =>
    obtain ⟨k1, v1⟩ := p
    unfold map_set
    by_cases hk : k1 = b
    · rw [if_pos hk]
      simp only [map_keys, List.map_cons, List.mem_cons]
      constructor
      · intro h
        exact Or.inr h
      · rintro (h | h)
        · exact Or.inl (h.trans hk.symm)
        · exact h
    · rw [if_neg hk]
      simp only [map_keys, List.map_cons, List.mem_cons] at ih ⊢
      rw [ih]
      tauto

theorem map_keys_set_nodup {α : Type} (m : stringmap α) (b : String) (x : α)
    (h : (map_keys m).Nodup) : (map_keys (map_set m b x)).Nodup := by
  induction m with
  | nil => simp [map_set, map_keys]
  | cons p rest ih =>
    obtain ⟨k1, v1⟩ := p
    unfold map_set
    have h2 : k1 ∉ map_keys rest ∧ (map_keys rest).Nodup := by
      simpa [map_keys] using h
    by_cases hk : k1 = b
    · rw [if_pos hk]
      exact h
    · rw [if_neg hk]
      have : k1 ∉ map_keys (map_set rest b x) := by
        rw [map_keys_set_mem]
        rintro (h3 | h3)
        · exact hk h3
        · exact h2.1 h3
      have ih2 := ih h2.2
      simp only [map_keys, List.map_cons, List.nodup_cons] at this ih2 ⊢
      exact ⟨this, ih2⟩

theorem map_find_none_iff {α : Type} (m : stringmap α) (key : String) :
    map_find m key = none ↔ key ∉ map_keys m := by
  induction m with
  | nil => simp [map_find, map_keys]
  | cons p rest ih =>
    obtain ⟨k1, v1⟩ := p
    unfold map_find
    by_cases hk : k1 = key
    · rw [if_pos hk]
      simp [map_keys, hk]
    · rw [if_neg hk, ih]
      simp only [map_keys, List.map_cons, List.mem_cons, not_or]
      constructor
      · intro h
        exact ⟨fun h2 => hk h2.symm, h⟩
      · intro h
        exact h.2

theorem mem_of_map_find {α : Type} (m : stringmap α) (key : String) (v : α)
    (h : map_find m key = some v) : (key, v) ∈ m := by
  induction m with
  | nil => simp [map_find] at h
  | cons p rest ih =>
    obtain ⟨k1, v1⟩ := p
    unfold map_find at h
    by_cases hk : k1 = key
    · rw [if_pos hk] at h
      rw [← Option.some.inj h, hk]
      exact List.mem_cons_self _ _
    · rw [if_neg hk] at h
      exact List.mem_cons_of_mem _ (ih h)

theorem map_find_of_mem {α : Type} (m : stringmap α) (key : String) (v : α)
    (hn : (map_keys m).Nodup) (h : (key, v) ∈ m) : map_find m key = some v := by
  induction m with
  | nil => cases h
  | cons p rest ih =>
    obtain ⟨k1, v1⟩ := p
    have h2 : k1 ∉ map_keys rest ∧ (map_keys rest).Nodup := by
      simpa [map_keys] using hn
    unfold map_find
    rcases List.mem_cons.mp h with h3 | h3
    · have e1 : key = k1 := (Prod.mk.inj h3).1
      have e2 : v = v1 := (Prod.mk.inj h3).2
      rw [if_pos e1.symm, e2]
    · have hne : k1 ≠ key := by
        intro e
        apply h2.1
        rw [e]
        exact List.mem_map_of_mem Prod.fst h3
      rw [if_neg hne]
      exact ih h2.2 h3

theorem mem_keys_of_mem {α : Type} (m : stringmap α) (key : String) (v : α)
    (h : (key, v) ∈ m) : key ∈ map_keys m :=
  List.mem_map_of_mem Prod.fst h

theorem exists_mem_of_mem_keys {α : Type} (m : stringmap α) (key : String)
    (h : key ∈ map_keys m) : ∃ v, (key, v) ∈ m := by
  unfold map_keys at h
  obtain ⟨⟨k1, v1⟩, hp, hk⟩ := List.mem_map.mp h
  exact ⟨v1, by rw [← hk]; exact hp⟩

/-! ### The nested time series -/

theorem tvector_find_set_eq (v : tvector K) (t : K) (m : stringmap K) :
    tvector_find (tvector_set v t m) t = some m := by
  induction v with
  | nil => simp [tvector_set, tvector_find]
  | cons p rest ih =>
    obtain ⟨d, x⟩ := p
    unfold tvector_set
    by_cases hd : d = t
    · rw [if_pos hd]
      unfold tvector_find
      rw [if_pos hd]
    · rw [if_neg hd]
      unfold tvector_find
      rw [if_neg hd]
      exact ih

theorem tvector_find_set_ne (v : tvector K) (t d : K) (m : stringmap K) (h : t ≠ d) :
    tvector_find (tvector_set v t m) d = tvector_find v d := by
  induction v with
  | nil => simp [tvector_set, tvector_find, h]
  | cons p rest ih =>
    obtain ⟨d1, x⟩ := p
    unfold tvector_set
    by_cases hd : d1 = t
    · rw [if_pos hd]
      unfold tvector_find
      rw [if_neg (fun e => h (hd.symm.trans e)), if_neg (fun e => h (hd.symm.trans e))]
    · rw [if_neg hd]
      unfold tvector_find
      by_cases hd2 : d1 = d
      · rw [if_pos hd2, if_pos hd2]
      · rw [if_neg hd2, if_neg hd2]
        exact ih

/-! ### The blocks of `run` write agent names only -/

theorem halos_agent_names (name : String) (h : name ∈ halos) : name ∈ agent_names := by
  unfold agent_names
  exact List.mem_append_left _ (List.mem_append_right _ h)

theorem run_ghg_closure (P : stringmap K → Prop)
    (hP : ∀ m key v, key ∈ agent_names → P m → P (map_set m key v))
    (L : libm K) (k : forcing_constants K) (hub : forcing_hub K) (f : ForcingComponent K)
    (t : K) (m m' : stringmap K) (h0 : P m) (h : run_ghg L k hub f t m = Except.ok m') :
    P m' := by
  unfold run_ghg at h
  by_cases hc : (hub.checkCapability D_ATMOSPHERIC_CH4 && hub.checkCapability D_ATMOSPHERIC_N2O
      && hub.checkCapability D_ATMOSPHERIC_CO2) = true
  · rw [if_pos hc] at h
    simp only [bind_ok_iff] at h
    obtain ⟨C0, -, M0, -, N0, -, Ca, -, Ma, -, Na, -, α, -, hv⟩ := h
    rw [← Except.ok.inj hv]
    exact hP _ _ _ (by decide) (hP _ _ _ (by decide) (hP _ _ _ (by decide)
      (hP _ _ _ (by decide) h0)))
  · rw [if_neg hc] at h
    rw [← Except.ok.inj h]
    exact h0

theorem run_o3_closure (P : stringmap K → Prop)
    (hP : ∀ m key v, key ∈ agent_names → P m → P (map_set m key v))
    (hub : forcing_hub K) (t : K) (m m' : stringmap K) (h0 : P m)
    (h : run_o3 hub t m = Except.ok m') : P m' := by
  unfold run_o3 at h
  by_cases hc : hub.checkCapability D_ATMOSPHERIC_O3 = true
  · rw [if_pos hc, bind_ok_iff] at h
    obtain ⟨v, -, hv⟩ := h
    rw [← Except.ok.inj hv]
    exact hP _ _ _ (by decide) h0
  · rw [if_neg hc] at h
    rw [← Except.ok.inj h]
    exact h0

theorem run_halos_closure (P : stringmap K → Prop)
    (hP : ∀ m key v, key ∈ agent_names → P m → P (map_set m key v))
    (hub : forcing_hub K) (t : K) :
    ∀ (l : List String), (∀ name ∈ l, name ∈ agent_names) → ∀ (m m' : stringmap K), P m →
      run_halos hub t l m = Except.ok m' → P m' := by
  intro l
  induction l with
  | nil =>
    intro _ m m' h0 h
    unfold run_halos at h
    rw [← Except.ok.inj h]
    exact h0
  | cons name rest ih =>
    intro hl m m' h0 h
    unfold run_halos at h
    have hrest : ∀ n ∈ rest, n ∈ agent_names := fun n hn => hl n (List.mem_cons_of_mem _ hn)
    by_cases hc : hub.checkCapability name = true
    · rw [if_pos hc, bind_ok_iff] at h
      obtain ⟨v, -, hv⟩ := h
      exact ih hrest _ _ (hP _ _ _ (hl name (List.mem_cons_self _ _)) h0) hv
    · rw [if_neg hc] at h
      exact ih hrest _ _ h0 h

theorem run_aerosols_closure (P : stringmap K → Prop)
    (hP : ∀ m key v, key ∈ agent_names → P m → P (map_set m key v))
    (hub : forcing_hub K) (f : ForcingComponent K) (t : K) (m m' : stringmap K) (h0 : P m)
    (h : run_aerosols hub f t m = Except.ok m') : P m' := by
  unfold run_aerosols at h
  by_cases hc : (hub.checkCapability D_EMISSIONS_BC && hub.checkCapability D_EMISSIONS_OC
      && hub.checkCapability D_NATURAL_SO2 && hub.checkCapability D_EMISSIONS_SO2) = true
  · rw [if_pos hc] at h
    simp only [bind_ok_iff] at h
    obtain ⟨E_BC, -, E_OC, -, S0, -, SN, -, u, -, E_SO2, -, hv⟩ := h
    rw [← Except.ok.inj hv]
    exact hP _ _ _ (by decide) (hP _ _ _ (by decide) (hP _ _ _ (by decide) h0))
  · rw [if_neg hc] at h
    rw [← Except.ok.inj h]
    exact h0

theorem run_albedo_closure (P : stringmap K → Prop)
    (hP : ∀ m key v, key ∈ agent_names → P m → P (map_set m key v))
    (hub : forcing_hub K) (t : K) (m m' : stringmap K) (h0 : P m)
    (h : run_albedo hub t m = Except.ok m') : P m' := by
  unfold run_albedo at h
  by_cases hc : hub.checkCapability D_RF_T_ALBEDO = true
  · rw [if_pos hc, bind_ok_iff] at h
    obtain ⟨v, -, hv⟩ := h
    rw [← Except.ok.inj hv]
    exact hP _ _ _ (by decide) h0
  · rw [if_neg hc] at h
    rw [← Except.ok.inj h]
    exact h0

theorem run_volcanic_closure (P : stringmap K → Prop)
    (hP : ∀ m key v, key ∈ agent_names → P m → P (map_set m key v))
    (hub : forcing_hub K) (t : K) (m m' : stringmap K) (h0 : P m)
    (h : run_volcanic hub t m = Except.ok m') : P m' := by
  unfold run_volcanic at h
  by_cases hc : hub.checkCapability D_VOLCANIC_SO2 = true
  · rw [if_pos hc, bind_ok_iff] at h
    obtain ⟨v, -, hv⟩ := h
    rw [← Except.ok.inj hv]
    exact hP _ _ _ (by decide) h0
  · rw [if_neg hc] at h
    rw [← Except.ok.inj h]
    exact h0

/-- Every property of maps that holds of the empty map and is kept by storing a value under
an agent name holds of the map of per-agent forcings that `run` computes. -/
theorem run_forcings_closure (P : stringmap K → Prop) (h0 : P [])
    (hP : ∀ m key v, key ∈ agent_names → P m → P (map_set m key v))
    (L : libm K) (k : forcing_constants K) (hub : forcing_hub K) (f : ForcingComponent K)
    (t : K) (m' : stringmap K) (h : run_forcings L k hub f t = Except.ok m') : P m' := by
  unfold run_forcings at h
  simp only [bind_ok_iff] at h
  obtain ⟨m1, h1, m2, h2, m3, h3, m4, h4, m5, h5, h6⟩ := h
  have p1 := run_ghg_closure P hP L k hub f t [] m1 h0 h1
  have p2 := run_o3_closure P hP hub t m1 m2 p1 h2
  have p3 := run_halos_closure P hP hub t halos halos_agent_names m2 m3 p2 h3
  have p4 := run_aerosols_closure P hP hub f t m3 m4 p3 h4
  have p5 := run_albedo_closure P hP hub t m4 m5 p4 h5
  exact run_volcanic_closure P hP hub t m5 m' p5 h6

theorem run_forcings_nodup (L : libm K) (k : forcing_constants K) (hub : forcing_hub K)
    (f : ForcingComponent K) (t : K) (m : stringmap K)
    (h : run_forcings L k hub f t = Except.ok m) : (map_keys m).Nodup :=
  run_forcings_closure (fun m => (map_keys m).Nodup) List.nodup_nil
    (fun m key v _ hm => map_keys_set_nodup m key v hm) L k hub f t m h

theorem run_forcings_keys (L : libm K) (k : forcing_constants K) (hub : forcing_hub K)
    (f : ForcingComponent K) (t : K) (m : stringmap K)
    (h : run_forcings L k hub f t = Except.ok m) : ∀ key ∈ map_keys m, key ∈ agent_names :=
  run_forcings_closure (fun m => ∀ key ∈ map_keys m, key ∈ agent_names)
    (fun key hk => by cases hk)
    (fun m key v hkey hm key2 hk2 => by
      rcases (map_keys_set_mem m key key2 v).mp hk2 with e | e
      · rw [e]
        exact hkey
      · exact hm key2 e) L k hub f t m h

/-! ### Total -/

theorem run_total_ok_inv (f : ForcingComponent K) (t : K) (m m' : stringmap K)
    (h : run_total f t m = Except.ok m') :
    (Ftot_constrained f t = true →
        ∃ v, f.Ftot_constrain.get t = Except.ok v ∧ m' = map_set m D_RF_TOTAL v)
      ∧ (Ftot_constrained f t = false → m' = map_set m D_RF_TOTAL (Ftot_sum m)) := by
  unfold run_total at h
  dsimp only at h
  by_cases hc : Ftot_constrained f t = true
  · rw [if_pos hc, bind_ok_iff] at h
    obtain ⟨v, hv, hm⟩ := h
    refine ⟨fun _ => ⟨v, hv, (Except.ok.inj hm).symm⟩, fun hn => ?_⟩
    rw [hc] at hn
    cases hn
  · rw [if_neg hc] at h
    refine ⟨fun hp => absurd hp hc, fun _ => (Except.ok.inj h).symm⟩

theorem run_absolute_ok_inv (L : libm K) (k : forcing_constants K) (hub : forcing_hub K)
    (f : ForcingComponent K) (t : K) (m : stringmap K)
    (h : run_absolute L k hub f t = Except.ok m) :
    ∃ agents, run_forcings L k hub f t = Except.ok agents
      ∧ run_total f t agents = Except.ok m := by
  unfold run_absolute at h
  rw [bind_ok_iff] at h
  exact h

theorem run_absolute_nodup (L : libm K) (k : forcing_constants K) (hub : forcing_hub K)
    (f : ForcingComponent K) (t : K) (m : stringmap K)
    (h : run_absolute L k hub f t = Except.ok m) : (map_keys m).Nodup := by
  obtain ⟨agents, ha, ht⟩ := run_absolute_ok_inv L k hub f t m h
  have hn := run_forcings_nodup L k hub f t agents ha
  obtain ⟨h1, h2⟩ := run_total_ok_inv f t agents m ht
  by_cases hc : Ftot_constrained f t = true
  · obtain ⟨v, -, hm⟩ := h1 hc
    rw [hm]
    exact map_keys_set_nodup _ _ _ hn
  · rw [h2 (Bool.eq_false_iff.mpr hc)]
    exact map_keys_set_nodup _ _ _ hn

/-! ### Rebasing -/

/-- The rebasing loop of `run` returns exactly when every key it iterates over has a
base-year entry. -/
theorem run_rebase_ok_iff :
    ∀ (l : List (String × K)) (forcings base : stringmap K),
      (∃ stored, run_rebase l forcings base = Except.ok stored)
        ↔ ∀ key, key ∈ map_keys l → key ∈ map_keys base := by
  intro l
  induction l with
  | nil =>
    intro forcings base
    exact ⟨fun _ key hk => (by cases hk), fun _ => ⟨forcings, rfl⟩⟩
  | cons p rest ih =>
    obtain ⟨k1, v1⟩ := p
    intro forcings base
    have hmem : ∀ key, key ∈ map_keys ((k1, v1) :: rest) ↔ key = k1 ∨ key ∈ map_keys rest := by
      intro key
      simp [map_keys]
    rcases hf : map_find base k1 with _ | b
    · have hstep : run_rebase ((k1, v1) :: rest) forcings base
          = Except.error Failure.units_mismatch := by
        simp only [run_rebase, hf]
      rw [hstep]
      constructor
      · rintro ⟨stored, h⟩
        cases h
      · intro h
        exact absurd (h k1 ((hmem k1).mpr (Or.inl rfl))) ((map_find_none_iff base k1).mp hf)
    · have hstep : run_rebase ((k1, v1) :: rest) forcings base
          = run_rebase rest (map_set forcings k1 (v1 - b)) base := by
        simp only [run_rebase, hf]
      rw [hstep, ih]
      constructor
      · intro h key hk
        rcases (hmem key).mp hk with e | e
        · rw [e]
          by_contra hc
          rw [(map_find_none_iff base k1).mpr hc] at hf
          cases hf
        · exact h key e
      · intro h key hk
        exact h key ((hmem key).mpr (Or.inr hk))

/-- The only failure of the rebasing loop is the unit check. -/
theorem run_rebase_error :
    ∀ (l : List (String × K)) (forcings base : stringmap K) (e : Failure),
      run_rebase l forcings base = Except.error e → e = Failure.units_mismatch := by
  intro l
  induction l with
  | nil =>
    intro forcings base e h
    cases h
  | cons p rest ih =>
    obtain ⟨k1, v1⟩ := p
    intro forcings base e h
    rcases hf : map_find base k1 with _ | b
    · simp only [run_rebase, hf] at h
      exact (Except.error.inj h).symm
    · simp only [run_rebase, hf] at h
      exact ih _ _ e h

/-- What the rebasing loop of `run` leaves in `forcings` when it returns, for an iteration
over entries with different keys. -/
theorem run_rebase_spec :
    ∀ (l : List (String × K)) (forcings base stored : stringmap K), (map_keys l).Nodup →
      run_rebase l forcings base = Except.ok stored →
      (∀ key, key ∉ map_keys l → map_find stored key = map_find forcings key)
      ∧ (∀ key v, (key, v) ∈ l →
          ∃ b, map_find base key = some b ∧ map_find stored key = some (v - b)) := by
  intro l
  induction l with
  | nil =>
    intro forcings base stored _ h
    have e : stored = forcings := (Except.ok.inj h).symm
    subst e
    exact ⟨fun _ _ => rfl, fun _ _ h => (by cases h)⟩
  | cons p rest ih =>
    obtain ⟨k1, v1⟩ := p
    intro forcings base stored hn h
    have h2 : k1 ∉ map_keys rest ∧ (map_keys rest).Nodup := by
      simpa [map_keys] using hn
    have hmem : ∀ key, key ∈ map_keys ((k1, v1) :: rest) ↔ key = k1 ∨ key ∈ map_keys rest := by
      intro key
      simp [map_keys]
    rcases hf : map_find base k1 with _ | b
    · simp only [run_rebase, hf] at h
      cases h
    · simp only [run_rebase, hf] at h
      obtain ⟨i1, i2⟩ := ih (map_set forcings k1 (v1 - b)) base stored h2.2 h
      refine ⟨?_, ?_⟩
      · intro key hk
        rw [hmem, not_or] at hk
        rw [i1 key hk.2]
        exact smap_find_set_ne _ _ _ _ (fun e => hk.1 e.symm)
      · intro key v hv
        rcases List.mem_cons.mp hv with e | e
        · have e1 : key = k1 := (Prod.mk.inj e).1
          have e2 : v = v1 := (Prod.mk.inj e).2
          rw [e1, e2]
          refine ⟨b, hf, ?_⟩
          rw [i1 k1 h2.1, smap_find_set_eq]
        · exact i2 key v e

/-- Rebasing a map against itself (what `run` does at the base year) returns and leaves 0 in
every entry. -/
theorem run_rebase_self (m : stringmap K) (hn : (map_keys m).Nodup) :
    ∃ stored, run_rebase m m m = Except.ok stored
      ∧ (∀ key v, map_find stored key = some v → v = 0)
      ∧ (∀ key, key ∈ map_keys m → map_find stored key = some 0) := by
  obtain ⟨stored, hr⟩ := (run_rebase_ok_iff m m m).mpr (fun _ h => h)
  obtain ⟨i1, i2⟩ := run_rebase_spec m m m stored hn hr
  have hzero : ∀ key, key ∈ map_keys m → map_find stored key = some 0 := by
    intro key hk
    obtain ⟨v0, hv0⟩ := exists_mem_of_mem_keys m key hk
    obtain ⟨b, hb, hs⟩ := i2 key v0 hv0
    have e : b = v0 := Option.some.inj (hb.symm.trans (map_find_of_mem m key v0 hn hv0))
    rw [hs, e, sub_self]
  refine ⟨stored, hr, ?_, hzero⟩
  intro key v hv
  by_cases hk : key ∈ map_keys m
  · rw [hzero key hk] at hv
    exact (Option.some.inj hv).symm
  · rw [i1 key hk, (map_find_none_iff m key).mpr hk] at hv
    cases hv

/-! ### `run` -/

theorem run_absolute_currentYear (L : libm K) (k : forcing_constants K) (hub : forcing_hub K)
    (f : ForcingComponent K) (t y : K) :
    run_absolute L k hub { f with currentYear := y } t = run_absolute L k hub f t := rfl

theorem run_before_baseyear (L : libm K) (k : forcing_constants K) (hub : forcing_hub K)
    (f : ForcingComponent K) (t : K) (h : t < f.baseyear) :
    ForcingComponent.run L k hub f t = ⟨none, { f with currentYear := t }⟩ := by
  unfold ForcingComponent.run
  dsimp only
  rw [if_pos h]

/-- A successful `run` at or after the base year: the absolute forcings were computed, the
rebasing loop returned, and the state left behind holds the rebased forcings. -/
theorem run_ok_inv (L : libm K) (k : forcing_constants K) (hub : forcing_hub K)
    (f : ForcingComponent K) (t : K) (hbase : ¬ t < f.baseyear)
    (h : (ForcingComponent.run L k hub f t).failure = none) :
    ∃ m stored, run_absolute L k hub f t = Except.ok m
      ∧ run_rebase m m (if t = f.baseyear then m else f.baseyear_forcings) = Except.ok stored
      ∧ (ForcingComponent.run L k hub f t).state
        = { f with
            currentYear := t
            baseyear_forcings := if t = f.baseyear then m else f.baseyear_forcings
            forcings_ts := tvector_set f.forcings_ts t stored } := by
  unfold ForcingComponent.run at h ⊢
  dsimp only at h ⊢
  rw [if_neg hbase] at h ⊢
  rw [run_absolute_currentYear L k hub f t t] at h ⊢
  rcases ha : run_absolute L k hub f t with e | m
  · rw [ha] at h
    cases h
  · rw [ha] at h
    dsimp only at h ⊢
    rcases hr : run_rebase m m (if t = f.baseyear then m else f.baseyear_forcings)
      with e | stored
    · rw [hr] at h
      cases h
    · exact ⟨m, stored, rfl, hr, rfl⟩

theorem run_fails_iff (L : libm K) (k : forcing_constants K) (hub : forcing_hub K)
    (f : ForcingComponent K) (t : K) (hbase : ¬ t < f.baseyear) :
    (ForcingComponent.run L k hub f t).failure = none
      ↔ ∃ m, run_absolute L k hub f t = Except.ok m
          ∧ ∀ key, key ∈ map_keys m →
              key ∈ map_keys (if t = f.baseyear then m else f.baseyear_forcings) := by
  constructor
  · intro h
    obtain ⟨m, stored, hm, hr, -⟩ := run_ok_inv L k hub f t hbase h
    exact ⟨m, hm, (run_rebase_ok_iff m m _).mp ⟨stored, hr⟩⟩
  · rintro ⟨m, hm, hkeys⟩
    obtain ⟨stored, hr⟩ := (run_rebase_ok_iff m m _).mpr hkeys
    unfold ForcingComponent.run
    dsimp only
    rw [if_neg hbase, run_absolute_currentYear L k hub f t t, hm]
    dsimp only
    rw [hr]

theorem run_total_keys (f : ForcingComponent K) (t : K) (agents m : stringmap K)
    (h : run_total f t agents = Except.ok m) :
    (∀ key, key ∈ map_keys m ↔ key = D_RF_TOTAL ∨ key ∈ map_keys agents)
      ∧ ∀ key, key ≠ D_RF_TOTAL → map_find m key = map_find agents key := by
  obtain ⟨h1, h2⟩ := run_total_ok_inv f t agents m h
  have hm : ∃ x, m = map_set agents D_RF_TOTAL x := by
    by_cases hc : Ftot_constrained f t = true
    · obtain ⟨v, -, hv⟩ := h1 hc
      exact ⟨v, hv⟩
    · exact ⟨_, h2 (Bool.eq_false_iff.mpr hc)⟩
  obtain ⟨x, rfl⟩ := hm
  exact ⟨fun key => map_keys_set_mem agents D_RF_TOTAL key x,
    fun key hk => smap_find_set_ne agents D_RF_TOTAL key x (fun e => hk e.symm)⟩

theorem Ftot_sum_foldl (l : stringmap K) (a : K) :
    l.foldl (fun Ftot entry => Ftot + entry.2) a = a + (l.map Prod.snd).sum := by
  induction l generalizing a with
  | nil => simp
  | cons p rest ih =>
    rw [List.foldl_cons, ih, List.map_cons, List.sum_cons]
    ring

theorem Ftot_sum_eq (l : stringmap K) : Ftot_sum l = (l.map Prod.snd).sum := by
  unfold Ftot_sum
  rw [Ftot_sum_foldl, zero_add]

/-- A successful `run` at a date after the base year stores, for every agent that has a
base-year value, the absolute forcing minus that value, and keeps the base-year value. -/
theorem run_later_rebased (L : libm K) (k : forcing_constants K) (hub : forcing_hub K)
    (f : ForcingComponent K) (t : K) (ht : f.baseyear < t)
    (hok : (ForcingComponent.run L k hub f t).failure = none) :
    ∃ abs stored, run_absolute L k hub f t = Except.ok abs
      ∧ tvector_find (ForcingComponent.run L k hub f t).state.forcings_ts t = some stored
      ∧ (∀ key v, map_find abs key = some v →
          map_find stored key = some (v - (map_find f.baseyear_forcings key).getD 0))
      ∧ (∀ key, map_find abs key = none → map_find stored key = none)
      ∧ ∀ key b, map_find f.baseyear_forcings key = some b →
          map_find (ForcingComponent.run L k hub f t).state.baseyear_forcings key = some b := by
  obtain ⟨m, stored, hm, hr, hst⟩ := run_ok_inv L k hub f t (not_lt.mpr (le_of_lt ht)) hok
  have hne : ¬ t = f.baseyear := fun e => (ne_of_gt ht) e
  rw [if_neg hne] at hr hst
  have hn := run_absolute_nodup L k hub f t m hm
  obtain ⟨i1, i2⟩ := run_rebase_spec m m f.baseyear_forcings stored hn hr
  rw [hst]
  refine ⟨m, stored, hm, tvector_find_set_eq _ _ _, ?_, ?_, ?_⟩
  · intro key v hv
    obtain ⟨b, hb, hs⟩ := i2 key v (mem_of_map_find m key v hv)
    rw [hs, hb]
    rfl
  · intro key hk
    rw [i1 key ((map_find_none_iff m key).mp hk)]
    exact hk
  · intro key b hb
    exact hb

/-- C21: when `run( t )` returns for `t == baseyear`, the forcing map it stores in
`forcings_ts` at `t` has the value 0 in every entry: it has an entry for every agent whose
absolute forcing was computed (volcanic, albedo, halocarbons and the others) and for the
total, each of them 0, whatever the hub served. -/
theorem run_baseyear_zero (L : libm K) (k : forcing_constants K) (hub : forcing_hub K)
    (f : ForcingComponent K)
    (hok : (ForcingComponent.run L k hub f f.baseyear).failure = none) :
    ∃ abs stored, run_absolute L k hub f f.baseyear = Except.ok abs
      ∧ tvector_find (ForcingComponent.run L k hub f f.baseyear).state.forcings_ts f.baseyear
        = some stored
      ∧ (∀ key v, map_find stored key = some v → v = 0)
      ∧ (∀ key, key ∈ map_keys abs → map_find stored key = some 0)
      ∧ map_find stored D_RF_TOTAL = some 0 := by
  obtain ⟨m, stored, hm, hr, hst⟩ := run_ok_inv L k hub f f.baseyear (lt_irrefl _) hok
  rw [if_pos rfl] at hr hst
  have hn := run_absolute_nodup L k hub f f.baseyear m hm
  obtain ⟨stored2, hr2, z1, z2⟩ := run_rebase_self m hn
  have es : stored2 = stored := Except.ok.inj (hr2.symm.trans hr)
  subst es
  obtain ⟨agents, -, htot⟩ := run_absolute_ok_inv L k hub f f.baseyear m hm
  have htk := (run_total_keys f f.baseyear agents m htot).1 D_RF_TOTAL
  rw [hst]
  exact ⟨m, stored2, hm, tvector_find_set_eq _ _ _, z1, z2,
    z2 D_RF_TOTAL (htk.mpr (Or.inl rfl))⟩

/-- Witness for C21: base year 1751, a hub serving volcanic forcing 3 and CFC-12 forcing 5. -/
theorem run_baseyear_zero_witness :
    ∃ stored, tvector_find (ForcingComponent.run table_libm ar6_constants (volcanic_hub 3 5)
        free_forcing free_forcing.baseyear).state.forcings_ts free_forcing.baseyear
        = some stored
      ∧ map_find stored D_RF_VOL = some 0 ∧ map_find stored "D_RF_CFC12" = some 0
      ∧ map_find stored D_RF_TOTAL = some 0 := by
  obtain ⟨abs, stored, habs, hst, -, hk, htot⟩ := run_baseyear_zero table_libm ar6_constants
    (volcanic_hub 3 5) free_forcing (by decide!)
  have hval : run_absolute table_libm ar6_constants (volcanic_hub 3 5) free_forcing
      free_forcing.baseyear
      = Except.ok [("D_RF_CFC12", 5), ("D_RF_VOL", 3), ("D_RF_TOTAL", 8)] := by decide!
  have e : abs = [("D_RF_CFC12", 5), ("D_RF_VOL", 3), ("D_RF_TOTAL", 8)] :=
    Except.ok.inj (habs.symm.trans hval)
  subst e
  exact ⟨stored, hst, hk D_RF_VOL (by decide), hk "D_RF_CFC12" (by decide), htot⟩

/-- C22: when `run( baseyear )` has returned and `run( t )` is then called with
`t > baseyear` and returns, then for every agent with an absolute forcing in both runs the
value stored in `forcings_ts` at `t` is the absolute forcing at `t` minus the absolute
forcing of the base year, and `baseyear_forcings` holds the base-year value for that agent
before and after the later run. -/
theorem run_rebased_difference (L : libm K) (k : forcing_constants K)
    (hub0 hub1 : forcing_hub K) (f : ForcingComponent K) (t : K)
    (h0 : (ForcingComponent.run L k hub0 f f.baseyear).failure = none)
    (ht : f.baseyear < t)
    (h1 : (ForcingComponent.run L k hub1
      (ForcingComponent.run L k hub0 f f.baseyear).state t).failure = none) :
    ∃ abs0 abs1 stored,
      run_absolute L k hub0 f f.baseyear = Except.ok abs0
      ∧ run_absolute L k hub1 (ForcingComponent.run L k hub0 f f.baseyear).state t
        = Except.ok abs1
      ∧ tvector_find (ForcingComponent.run L k hub1
          (ForcingComponent.run L k hub0 f f.baseyear).state t).state.forcings_ts t
        = some stored
      ∧ ∀ key v0 v1, map_find abs0 key = some v0 → map_find abs1 key = some v1 →
          map_find stored key = some (v1 - v0)
          ∧ map_find (ForcingComponent.run L k hub0 f f.baseyear).state.baseyear_forcings key
            = some v0
          ∧ map_find (ForcingComponent.run L k hub1
              (ForcingComponent.run L k hub0 f f.baseyear).state t).state.baseyear_forcings key
            = some v0 := by
  obtain ⟨m0, stored0, hm0, -, hst0⟩ := run_ok_inv L k hub0 f f.baseyear (lt_irrefl _) h0
  rw [if_pos rfl] at hst0
  have hby : (ForcingComponent.run L k hub0 f f.baseyear).state.baseyear = f.baseyear := by
    rw [hst0]
  have hbf : ∀ key, map_find
      (ForcingComponent.run L k hub0 f f.baseyear).state.baseyear_forcings key
      = map_find m0 key := by
    intro key
    rw [hst0]
  have ht1 : (ForcingComponent.run L k hub0 f f.baseyear).state.baseyear < t := by
    rw [hby]
    exact ht
  obtain ⟨abs1, stored, ha1, hs1, hv1, -, hb1⟩ := run_later_rebased L k hub1
    (ForcingComponent.run L k hub0 f f.baseyear).state t ht1 h1
  refine ⟨m0, abs1, stored, hm0, ha1, hs1, ?_⟩
  intro key v0 v1 hk0 hk1
  have hb0 : map_find (ForcingComponent.run L k hub0 f f.baseyear).state.baseyear_forcings key
      = some v0 := by
    rw [hbf key]
    exact hk0
  refine ⟨?_, hb0, hb1 key v0 hb0⟩
  rw [hv1 key v1 hk1, hb0]
  rfl

/-- Witness for C22: base year 1751 with volcanic forcing 3 and CFC-12 forcing 5, then 1800
with 4 and 7: the stored volcanic forcing is 1. -/
theorem run_rebased_difference_witness :
    ∃ stored, tvector_find (ForcingComponent.run table_libm ar6_constants (volcanic_hub 4 7)
        (ForcingComponent.run table_libm ar6_constants (volcanic_hub 3 5) free_forcing
          free_forcing.baseyear).state 1800).state.forcings_ts 1800 = some stored
      ∧ map_find stored D_RF_VOL = some (4 - 3) := by
  obtain ⟨abs0, abs1, stored, h0, h1, hs, hv⟩ := run_rebased_difference table_libm
    ar6_constants (volcanic_hub 3 5) (volcanic_hub 4 7) free_forcing 1800 (by decide!)
    (by decide!) (by decide!)
  have e0 : abs0 = [("D_RF_CFC12", 5), ("D_RF_VOL", 3), ("D_RF_TOTAL", 8)] :=
    Except.ok.inj (h0.symm.trans (by decide!))
  have e1 : abs1 = [("D_RF_CFC12", 7), ("D_RF_VOL", 4), ("D_RF_TOTAL", 11)] :=
    Except.ok.inj (h1.symm.trans (by decide!))
  subst e0 e1
  exact ⟨stored, hs, (hv D_RF_VOL 3 4 (by decide!) (by decide!)).1⟩

/-- C23: when `run( t )` returns for `t >= baseyear`, the absolute total forcing (the entry
`D_RF_TOTAL` of the map before rebasing) is `Ftot_constrain.get( t )` if `Ftot_constrain`
is not empty and `t` is not after its last date, and else the sum of the per-agent absolute
forcings in the map; the keys of these are agent names (greenhouse gases, stratospheric
H2O, tropospheric O3, halocarbons, BC, OC, SO2, albedo, volcanic) and the other entries of
the map are the per-agent forcings. -/
theorem run_absolute_total (L : libm K) (k : forcing_constants K) (hub : forcing_hub K)
    (f : ForcingComponent K) (t : K) (hbase : ¬ t < f.baseyear)
    (hok : (ForcingComponent.run L k hub f t).failure = none) :
    ∃ agents abs, run_forcings L k hub f t = Except.ok agents
      ∧ run_absolute L k hub f t = Except.ok abs
      ∧ (∀ key ∈ map_keys agents, key ∈ agent_names)
      ∧ (∀ key, key ≠ D_RF_TOTAL → map_find abs key = map_find agents key)
      ∧ ((f.Ftot_constrain.size ≠ 0
            ∧ ∃ last, mapdata_lastdate f.Ftot_constrain.mapdata = some last ∧ t ≤ last) →
          ∃ v, f.Ftot_constrain.get t = Except.ok v ∧ map_find abs D_RF_TOTAL = some v)
      ∧ (¬ (f.Ftot_constrain.size ≠ 0
            ∧ ∃ last, mapdata_lastdate f.Ftot_constrain.mapdata = some last ∧ t ≤ last) →
          map_find abs D_RF_TOTAL = some ((agents.map Prod.snd).sum)) := by
  obtain ⟨abs, -, habs, -, -⟩ := run_ok_inv L k hub f t hbase hok
  obtain ⟨agents, hag, htot⟩ := run_absolute_ok_inv L k hub f t abs habs
  obtain ⟨h1, h2⟩ := run_total_ok_inv f t agents abs htot
  have hc : Ftot_constrained f t = true ↔ (f.Ftot_constrain.size ≠ 0
      ∧ ∃ last, mapdata_lastdate f.Ftot_constrain.mapdata = some last ∧ t ≤ last) := by
    unfold Ftot_constrained
    rcases mapdata_lastdate f.Ftot_constrain.mapdata with _ | last
    · simp
    · simp
  refine ⟨agents, abs, hag, habs, run_forcings_keys L k hub f t agents hag,
    (run_total_keys f t agents abs htot).2, ?_, ?_⟩
  · intro hcov
    obtain ⟨v, hv, hm⟩ := h1 (hc.mpr hcov)
    refine ⟨v, hv, ?_⟩
    rw [hm]
    exact smap_find_set_eq _ _ _
  · intro hcov
    have hf : Ftot_constrained f t = false := by
      rcases hb : Ftot_constrained f t with _ | _
      · rfl
      · exact absurd (hc.mp hb) hcov
    rw [h2 hf, ← Ftot_sum_eq]
    exact smap_find_set_eq _ _ _

/-- Witness for C23: without constraint, after the base year 1751 has been run, volcanic
forcing 3 and CFC-12 forcing 5 at 1800 give the total 8. -/
theorem run_absolute_total_witness :
    ∃ abs, run_absolute table_libm ar6_constants (volcanic_hub 3 5)
        (ForcingComponent.run table_libm ar6_constants (volcanic_hub 4 7) free_forcing
          1751).state 1800 = Except.ok abs
      ∧ map_find abs D_RF_TOTAL = some (5 + (3 + 0)) := by
  obtain ⟨agents, abs, hag, habs, -, -, -, hsum⟩ := run_absolute_total table_libm
    ar6_constants (volcanic_hub 3 5)
    (ForcingComponent.run table_libm ar6_constants (volcanic_hub 4 7) free_forcing 1751).state
    1800 (by decide!) (by decide!)
  have e : agents = [("D_RF_CFC12", 5), ("D_RF_VOL", 3)] :=
    Except.ok.inj (hag.symm.trans (by decide!))
  subst e
  exact ⟨abs, habs, hsum (by decide!)⟩

/-! ### `getData` -/

/-- The date `getData` works with: the current year when no date is given. -/
theorem getData_before (u : K) (f : ForcingComponent K) (varName : String) (date : K)
    (h : (if date = u then f.currentYear else date) < f.baseyear) :
    ForcingComponent.getData u f varName date
      = if varName = D_ACO2 then Except.ok f.aCO2
        else if varName = D_DELTA_CH4 then Except.ok f.delta_ch4
        else if varName = D_DELTA_N2O then Except.ok f.delta_n2o
        else if varName = D_DELTA_CO2 then Except.ok f.delta_co2
        else if varName = D_RHO_BC then Except.ok f.rho_bc
        else if varName = D_RHO_OC then Except.ok f.rho_oc
        else if varName = D_RHO_SO2 then Except.ok f.rho_so2
        else Except.ok 0 := by
  unfold ForcingComponent.getData
  dsimp only
  rw [if_pos h]

theorem getData_after (u : K) (f : ForcingComponent K) (varName : String) (date : K)
    (stored : stringmap K)
    (h : ¬ (if date = u then f.currentYear else date) < f.baseyear)
    (hs : tvector_find f.forcings_ts (if date = u then f.currentYear else date) = some stored) :
    ForcingComponent.getData u f varName date
      = if varName = D_RF_BASEYEAR then Except.ok f.baseyear
        else if varName = D_RF_SO2 then Except.ok 0
        else
          match map_find stored (forcing_name f varName) with
          | some v => Except.ok v
          | none =>
            if f.currentYear < f.baseyear then Except.ok 0
            else if varName = D_DELTA_CH4 then Except.ok f.delta_ch4
            else if varName = D_DELTA_N2O then Except.ok f.delta_n2o
            else if varName = D_DELTA_CO2 then Except.ok f.delta_co2
            else if varName = D_RHO_BC then Except.ok f.rho_bc
            else if varName = D_RHO_OC then Except.ok f.rho_oc
            else if varName = D_RHO_SO2 then Except.ok f.rho_so2
            else Except.error (Failure.thrown
              ("Caller is requesting unknown variable: " ++ varName)) := by
  unfold ForcingComponent.getData
  dsimp only
  rw [if_neg h]
  unfold tvector_get
  rw [hs]

theorem getData_lookup (u : K) (f : ForcingComponent K) (varName : String) (date : K)
    (stored : stringmap K) (v : K)
    (h : ¬ (if date = u then f.currentYear else date) < f.baseyear)
    (hs : tvector_find f.forcings_ts (if date = u then f.currentYear else date) = some stored)
    (h1 : varName ≠ D_RF_BASEYEAR) (h2 : varName ≠ D_RF_SO2)
    (hv : map_find stored (forcing_name f varName) = some v) :
    ForcingComponent.getData u f varName date = Except.ok v := by
  rw [getData_after u f varName date stored h hs, if_neg h1, if_neg h2, hv]

/-- What a successful `run` at or after the base year leaves behind. -/
theorem run_stored (L : libm K) (k : forcing_constants K) (hub : forcing_hub K)
    (f : ForcingComponent K) (t : K) (hbase : ¬ t < f.baseyear)
    (hok : (ForcingComponent.run L k hub f t).failure = none) :
    ∃ abs stored, run_absolute L k hub f t = Except.ok abs
      ∧ tvector_find (ForcingComponent.run L k hub f t).state.forcings_ts t = some stored
      ∧ (∀ key v, map_find abs key = some v →
          map_find stored key = some (v - if t = f.baseyear then v
            else (map_find f.baseyear_forcings key).getD 0))
      ∧ (∀ key, map_find abs key = none → map_find stored key = none)
      ∧ (ForcingComponent.run L k hub f t).state.baseyear = f.baseyear
      ∧ (ForcingComponent.run L k hub f t).state.currentYear = t
      ∧ (ForcingComponent.run L k hub f t).state.forcing_name_map = f.forcing_name_map := by
  obtain ⟨m, stored, hm, hr, hst⟩ := run_ok_inv L k hub f t hbase hok
  have hn := run_absolute_nodup L k hub f t m hm
  obtain ⟨i1, i2⟩ := run_rebase_spec m m (if t = f.baseyear then m else f.baseyear_forcings)
    stored hn hr
  rw [hst]
  refine ⟨m, stored, hm, tvector_find_set_eq _ _ _, ?_, ?_, rfl, rfl, rfl⟩
  · intro key v hv
    obtain ⟨b, hb, hs⟩ := i2 key v (mem_of_map_find m key v hv)
    rw [hs]
    by_cases ht : t = f.baseyear
    · rw [if_pos ht] at hb
      rw [if_pos ht, Option.some.inj (hv.symm.trans hb)]
    · rw [if_neg ht] at hb
      rw [if_neg ht, hb]
      rfl
  · intro key hk
    rw [i1 key ((map_find_none_iff m key).mp hk)]
    exact hk

/-- Counterexample to C24 as stated: the constraint series holds 1 at the base year 1751 and
3.5 at 2050, and the hub serves a volcanic and a CFC-12 forcing at both dates; after
`run( 1751 )` and `run( 2050 )`, `getData( D_RF_TOTAL, 2050 )` returns 2.5, the constraint
value less the base-year total. -/
theorem getData_total_constrained_rebased :
    constrained_forcing.Ftot_constrain.get 2050 = Except.ok (7 / 2)
      ∧ (ForcingComponent.run table_libm ar6_constants (volcanic_hub 3 5) constrained_forcing
          1751).failure = none
      ∧ (ForcingComponent.run table_libm ar6_constants (volcanic_hub 4 7)
          (ForcingComponent.run table_libm ar6_constants (volcanic_hub 3 5) constrained_forcing
            1751).state 2050).failure = none
      ∧ ForcingComponent.getData (-1)
          (ForcingComponent.run table_libm ar6_constants (volcanic_hub 4 7)
            (ForcingComponent.run table_libm ar6_constants (volcanic_hub 3 5)
              constrained_forcing 1751).state 2050).state D_RF_TOTAL 2050
        = Except.ok (5 / 2) := by
  refine ⟨by decide!, by decide!, by decide!, by decide!⟩

/-- C24 (amended): when `run( t )` returns for a date `t >= baseyear` at which the total is
constrained (`Ftot_constrain` not empty, `t` not after its last date), the `D_RF_TOTAL` that
`getData` serves for `t` is `Ftot_constrain.get( t )` less the base-year total: 0 when `t`
is the base year, and `Ftot_constrain.get( t )` less the `D_RF_TOTAL` entry of
`baseyear_forcings` afterwards (the constraint value itself only when that entry is 0). -/
theorem getData_total_constrained (L : libm K) (k : forcing_constants K) (hub : forcing_hub K)
    (u : K) (f : ForcingComponent K) (t : K) (hbase : ¬ t < f.baseyear) (hu : t ≠ u)
    (hcon : Ftot_constrained f t = true)
    (halias : map_find f.forcing_name_map D_RF_TOTAL = none)
    (hok : (ForcingComponent.run L k hub f t).failure = none) :
    ∃ v, f.Ftot_constrain.get t = Except.ok v
      ∧ (t = f.baseyear →
          ForcingComponent.getData u (ForcingComponent.run L k hub f t).state D_RF_TOTAL t
            = Except.ok 0)
      ∧ (t ≠ f.baseyear →
          ∃ b, map_find f.baseyear_forcings D_RF_TOTAL = some b
            ∧ ForcingComponent.getData u (ForcingComponent.run L k hub f t).state D_RF_TOTAL t
              = Except.ok (v - b)) := by
  obtain ⟨abs, stored, habs, hr, hst⟩ := run_ok_inv L k hub f t hbase hok
  have hn := run_absolute_nodup L k hub f t abs habs
  obtain ⟨agents, -, htot⟩ := run_absolute_ok_inv L k hub f t abs habs
  obtain ⟨v, hv, hm⟩ := (run_total_ok_inv f t agents abs htot).1 hcon
  have hfind : map_find abs D_RF_TOTAL = some v := by
    rw [hm]
    exact smap_find_set_eq _ _ _
  obtain ⟨b, hb, hs⟩ := (run_rebase_spec abs abs _ stored hn hr).2 D_RF_TOTAL v
    (mem_of_map_find abs D_RF_TOTAL v hfind)
  have hget : ForcingComponent.getData u (ForcingComponent.run L k hub f t).state D_RF_TOTAL t
      = Except.ok (v - b) := by
    have hdate : (if t = u then (ForcingComponent.run L k hub f t).state.currentYear else t)
        = t := if_neg hu
    apply getData_lookup u _ D_RF_TOTAL t stored
    · rw [hdate, hst]
      exact hbase
    · rw [hdate, hst]
      exact tvector_find_set_eq _ _ _
    · decide
    · decide
    · unfold forcing_name
      rw [hst]
      dsimp only
      rw [halias]
      exact hs
  refine ⟨v, hv, ?_, ?_⟩
  · intro ht
    rw [if_pos ht] at hb
    rw [hget, Option.some.inj (hfind.symm.trans hb), sub_self]
  · intro ht
    rw [if_neg ht] at hb
    exact ⟨b, hb, hget⟩

/-- Witness for C24 (amended): the constraint of 3.5 at 2050 with a base-year total of 1,
the same agents being served at both dates. -/
theorem getData_total_constrained_witness :
    ∃ v, (ForcingComponent.run table_libm ar6_constants (volcanic_hub 3 5) constrained_forcing
        1751).state.Ftot_constrain.get 2050 = Except.ok v
      ∧ ForcingComponent.getData (-1)
          (ForcingComponent.run table_libm ar6_constants (volcanic_hub 4 7)
            (ForcingComponent.run table_libm ar6_constants (volcanic_hub 3 5)
              constrained_forcing 1751).state 2050).state D_RF_TOTAL 2050
        = Except.ok (v - 1) := by
  obtain ⟨v, hv, -, hlater⟩ := getData_total_constrained table_libm ar6_constants
    (volcanic_hub 4 7) (-1)
    (ForcingComponent.run table_libm ar6_constants (volcanic_hub 3 5) constrained_forcing
      1751).state
    2050 (by decide!) (by decide!) (by decide!) (by decide!) (by decide!)
  obtain ⟨b, hb, hget⟩ := hlater (by decide!)
  have e : b = 1 := Option.some.inj (hb.symm.trans (by decide!))
  subst e
  exact ⟨v, hv, hget⟩

/-- C25: for an effective date (the given date, or `currentYear` when the date is
undefined) before the base year, `getData` returns 0 for every name that is not one of the
seven scalar parameters, and the stored value of the parameter for each of `D_ACO2`,
`D_DELTA_CH4`, `D_DELTA_N2O`, `D_DELTA_CO2`, `D_RHO_BC`, `D_RHO_OC`, `D_RHO_SO2`; it does
not fail. -/
theorem getData_before_baseyear (u : K) (f : ForcingComponent K) (date : K)
    (h : (if date = u then f.currentYear else date) < f.baseyear) :
    (∀ varName, varName ∉ [D_ACO2, D_DELTA_CH4, D_DELTA_N2O, D_DELTA_CO2, D_RHO_BC, D_RHO_OC,
        D_RHO_SO2] → ForcingComponent.getData u f varName date = Except.ok 0)
      ∧ ForcingComponent.getData u f D_ACO2 date = Except.ok f.aCO2
      ∧ ForcingComponent.getData u f D_DELTA_CH4 date = Except.ok f.delta_ch4
      ∧ ForcingComponent.getData u f D_DELTA_N2O date = Except.ok f.delta_n2o
      ∧ ForcingComponent.getData u f D_DELTA_CO2 date = Except.ok f.delta_co2
      ∧ ForcingComponent.getData u f D_RHO_BC date = Except.ok f.rho_bc
      ∧ ForcingComponent.getData u f D_RHO_OC date = Except.ok f.rho_oc
      ∧ ForcingComponent.getData u f D_RHO_SO2 date = Except.ok f.rho_so2 := by
  refine ⟨?_, ?_, ?_, ?_, ?_, ?_, ?_, ?_⟩
  · intro varName hn
    simp only [List.mem_cons, List.mem_singleton, List.not_mem_nil, or_false, not_or] at hn
    obtain ⟨n1, n2, n3, n4, n5, n6, n7⟩ := hn
    rw [getData_before u f varName date h, if_neg n1, if_neg n2, if_neg n3, if_neg n4,
      if_neg n5, if_neg n6, if_neg n7]
  · rw [getData_before u f _ date h]
    rfl
  · rw [getData_before u f _ date h]
    rfl
  · rw [getData_before u f _ date h]
    rfl
  · rw [getData_before u f _ date h]
    rfl
  · rw [getData_before u f _ date h]
    rfl
  · rw [getData_before u f _ date h]
    rfl
  · rw [getData_before u f _ date h]
    rfl

/-- Witness for C25: base year 1751 and the date 1700. -/
theorem getData_before_baseyear_witness :
    ForcingComponent.getData (-1) free_forcing D_RF_CO2 1700 = Except.ok 0
      ∧ ForcingComponent.getData (-1) free_forcing D_DELTA_CO2 1700
        = Except.ok free_forcing.delta_co2 :=
  ⟨(getData_before_baseyear (-1) free_forcing 1700 (by decide!)).1 D_RF_CO2 (by decide),
   (getData_before_baseyear (-1) free_forcing 1700 (by decide!)).2.2.2.2.1⟩

/-- Counterexample to C28 as stated: after `run( 1751 )` (the base year) and `run( 1700 )`,
which only sets `currentYear`, the name `D_RF_CH4` is not a key of the map stored for 1751
and is not a parameter name, and `getData( D_RF_CH4, 1751 )` returns 0 instead of failing:
an unknown name is answered with 0 while `currentYear` is before the base year. -/
theorem getData_unknown_before_baseyear :
    (ForcingComponent.run table_libm ar6_constants (volcanic_hub 3 5) free_forcing
        1751).failure = none
      ∧ (ForcingComponent.run table_libm ar6_constants (volcanic_hub 3 5)
          (ForcingComponent.run table_libm ar6_constants (volcanic_hub 3 5) free_forcing
            1751).state 1700).failure = none
      ∧ (ForcingComponent.run table_libm ar6_constants (volcanic_hub 3 5)
          (ForcingComponent.run table_libm ar6_constants (volcanic_hub 3 5) free_forcing
            1751).state 1700).state.currentYear = 1700
      ∧ (ForcingComponent.run table_libm ar6_constants (volcanic_hub 3 5)
          (ForcingComponent.run table_libm ar6_constants (volcanic_hub 3 5) free_forcing
            1751).state 1700).state.baseyear = 1751
      ∧ (∃ stored, tvector_find (ForcingComponent.run table_libm ar6_constants
            (volcanic_hub 3 5) (ForcingComponent.run table_libm ar6_constants
              (volcanic_hub 3 5) free_forcing 1751).state 1700).state.forcings_ts 1751
            = some stored
          ∧ map_find stored (forcing_name (ForcingComponent.run table_libm ar6_constants
              (volcanic_hub 3 5) (ForcingComponent.run table_libm ar6_constants
                (volcanic_hub 3 5) free_forcing 1751).state 1700).state D_RF_CH4) = none)
      ∧ D_RF_CH4 ∉ [D_ACO2, D_DELTA_CH4, D_DELTA_N2O, D_DELTA_CO2, D_RHO_BC, D_RHO_OC,
          D_RHO_SO2]
      ∧ ForcingComponent.getData (-1) (ForcingComponent.run table_libm ar6_constants
          (volcanic_hub 3 5) (ForcingComponent.run table_libm ar6_constants
            (volcanic_hub 3 5) free_forcing 1751).state 1700).state D_RF_CH4 1751
        = Except.ok 0 := by
  refine ⟨by decide!, by decide!, by decide!, by decide!,
    ⟨[("D_RF_CFC12", 0), ("D_RF_VOL", 0), ("D_RF_TOTAL", 0)], by decide!, by decide!⟩,
    by decide, by decide!⟩

/-- When `getData` throws, for an effective date at or after the base year for which a
forcing map is stored. -/
theorem getData_error_iff (u : K) (f : ForcingComponent K) (varName : String) (date : K)
    (stored : stringmap K)
    (h : ¬ (if date = u then f.currentYear else date) < f.baseyear)
    (hs : tvector_find f.forcings_ts (if date = u then f.currentYear else date) = some stored) :
    (ForcingComponent.getData u f varName date
        = Except.error (Failure.thrown ("Caller is requesting unknown variable: " ++ varName))
      ↔ (varName ≠ D_RF_BASEYEAR ∧ varName ≠ D_RF_SO2
          ∧ map_find stored (forcing_name f varName) = none
          ∧ ¬ f.currentYear < f.baseyear
          ∧ varName ∉ [D_DELTA_CH4, D_DELTA_N2O, D_DELTA_CO2, D_RHO_BC, D_RHO_OC,
              D_RHO_SO2]))
      ∧ (¬ (varName ≠ D_RF_BASEYEAR ∧ varName ≠ D_RF_SO2
          ∧ map_find stored (forcing_name f varName) = none
          ∧ ¬ f.currentYear < f.baseyear
          ∧ varName ∉ [D_DELTA_CH4, D_DELTA_N2O, D_DELTA_CO2, D_RHO_BC, D_RHO_OC,
              D_RHO_SO2])
        → ∃ v, ForcingComponent.getData u f varName date = Except.ok v) := by
  rw [getData_after u f varName date stored h hs]
  simp only [List.mem_cons, List.mem_singleton, List.not_mem_nil, or_false, not_or]
  by_cases h1 : varName = D_RF_BASEYEAR
  · rw [if_pos h1]
    simp [h1]
  by_cases h2 : varName = D_RF_SO2
  · rw [if_neg h1, if_pos h2]
    simp [h2]
  rw [if_neg h1, if_neg h2]
  rcases hf : map_find stored (forcing_name f varName) with _ | v
  · dsimp only
    by_cases h3 : f.currentYear < f.baseyear
    · rw [if_pos h3]
      simp [h3]
    rw [if_neg h3]
    by_cases n1 : varName = D_DELTA_CH4
    · rw [if_pos n1]
      simp [n1]
    rw [if_neg n1]
    by_cases n2 : varName = D_DELTA_N2O
    · rw [if_pos n2]
      simp [n2]
    rw [if_neg n2]
    by_cases n3 : varName = D_DELTA_CO2
    · rw [if_pos n3]
      simp [n3]
    rw [if_neg n3]
    by_cases n4 : varName = D_RHO_BC
    · rw [if_pos n4]
      simp [n4]
    rw [if_neg n4]
    by_cases n5 : varName = D_RHO_OC
    · rw [if_pos n5]
      simp [n5]
    rw [if_neg n5]
    by_cases n6 : varName = D_RHO_SO2
    · rw [if_pos n6]
      simp [n6]
    rw [if_neg n6]
    simp [h1, h2, h3, n1, n2, n3, n4, n5, n6]
  · dsimp only
    simp

/-- C28 (amended): for an effective date at or after the base year for which a forcing map
is stored, and a name other than `D_RF_SO2` and `D_ACO2`, `getData` fails exactly when
`currentYear` is not before the base year, the name is not `D_RF_BASEYEAR`, its translation
is not a key of that map, and the name is not one of the seven parameters; the failure is
then "Caller is requesting unknown variable: " followed by the name. In every other case a
value is returned: the base year for `D_RF_BASEYEAR`, else the stored entry when the
translated name is a key of the map, else 0 when `currentYear` is before the base year. -/
theorem getData_fails_iff (u : K) (f : ForcingComponent K) (varName : String) (date : K)
    (stored : stringmap K)
    (h : ¬ (if date = u then f.currentYear else date) < f.baseyear)
    (hs : tvector_find f.forcings_ts (if date = u then f.currentYear else date) = some stored)
    (hso2 : varName ≠ D_RF_SO2) (haco2 : varName ≠ D_ACO2) :
    (ForcingComponent.getData u f varName date
        = Except.error (Failure.thrown ("Caller is requesting unknown variable: " ++ varName))
      ↔ (¬ f.currentYear < f.baseyear ∧ varName ≠ D_RF_BASEYEAR
          ∧ map_find stored (forcing_name f varName) = none
          ∧ varName ∉ [D_ACO2, D_DELTA_CH4, D_DELTA_N2O, D_DELTA_CO2, D_RHO_BC, D_RHO_OC,
              D_RHO_SO2]))
      ∧ (¬ (¬ f.currentYear < f.baseyear ∧ varName ≠ D_RF_BASEYEAR
          ∧ map_find stored (forcing_name f varName) = none
          ∧ varName ∉ [D_ACO2, D_DELTA_CH4, D_DELTA_N2O, D_DELTA_CO2, D_RHO_BC, D_RHO_OC,
              D_RHO_SO2])
        → ∃ v, ForcingComponent.getData u f varName date = Except.ok v)
      ∧ (varName = D_RF_BASEYEAR →
          ForcingComponent.getData u f varName date = Except.ok f.baseyear)
      ∧ (varName ≠ D_RF_BASEYEAR → ∀ v, map_find stored (forcing_name f varName) = some v →
          ForcingComponent.getData u f varName date = Except.ok v)
      ∧ (varName ≠ D_RF_BASEYEAR → map_find stored (forcing_name f varName) = none →
          f.currentYear < f.baseyear →
          ForcingComponent.getData u f varName date = Except.ok 0) := by
  obtain ⟨e1, e2⟩ := getData_error_iff u f varName date stored h hs
  have hcond : (¬ f.currentYear < f.baseyear ∧ varName ≠ D_RF_BASEYEAR
      ∧ map_find stored (forcing_name f varName) = none
      ∧ varName ∉ [D_ACO2, D_DELTA_CH4, D_DELTA_N2O, D_DELTA_CO2, D_RHO_BC, D_RHO_OC,
          D_RHO_SO2])
      ↔ (varName ≠ D_RF_BASEYEAR ∧ varName ≠ D_RF_SO2
        ∧ map_find stored (forcing_name f varName) = none
        ∧ ¬ f.currentYear < f.baseyear
        ∧ varName ∉ [D_DELTA_CH4, D_DELTA_N2O, D_DELTA_CO2, D_RHO_BC, D_RHO_OC,
            D_RHO_SO2]) := by
    simp only [List.mem_cons, List.mem_singleton, List.not_mem_nil, or_false, not_or]
    constructor
    · rintro ⟨a, b, c, -, d⟩
      exact ⟨b, hso2, c, a, d⟩
    · rintro ⟨b, -, c, a, d⟩
      exact ⟨a, b, c, haco2, d⟩
  refine ⟨e1.trans hcond.symm, fun hn => e2 (fun hc => hn (hcond.mpr hc)), ?_, ?_, ?_⟩
  · intro hb
    rw [getData_after u f varName date stored h hs, if_pos hb]
  · intro hb v hv
    exact getData_lookup u f varName date stored v h hs hb hso2 hv
  · intro hb hnone hcy
    rw [getData_after u f varName date stored h hs, if_neg hb, if_neg hso2, hnone]
    dsimp only
    rw [if_pos hcy]

/-- Witness for C28 (amended): after `run( 1751 )`, `getData( "D_RF_CH4", 1751 )` fails (the
hub has no greenhouse gas capability) and `getData( D_RF_VOL, 1751 )` returns the stored
value. -/
theorem getData_fails_iff_witness :
    ForcingComponent.getData (-1) (ForcingComponent.run table_libm ar6_constants
        (volcanic_hub 3 5) free_forcing 1751).state D_RF_CH4 1751
        = Except.error (Failure.thrown ("Caller is requesting unknown variable: " ++ D_RF_CH4))
      ∧ ForcingComponent.getData (-1) (ForcingComponent.run table_libm ar6_constants
          (volcanic_hub 3 5) free_forcing 1751).state D_RF_VOL 1751 = Except.ok 0 :=
  ⟨(getData_fails_iff (-1) (ForcingComponent.run table_libm ar6_constants (volcanic_hub 3 5)
      free_forcing 1751).state D_RF_CH4 1751
      [("D_RF_CFC12", 0), ("D_RF_VOL", 0), ("D_RF_TOTAL", 0)] (by decide!) (by decide!)
      (by decide) (by decide)).1.mpr (by decide!),
   (getData_fails_iff (-1) (ForcingComponent.run table_libm ar6_constants (volcanic_hub 3 5)
      free_forcing 1751).state D_RF_VOL 1751
      [("D_RF_CFC12", 0), ("D_RF_VOL", 0), ("D_RF_TOTAL", 0)] (by decide!) (by decide!)
      (by decide) (by decide)).2.2.2.1 (by decide) 0 (by decide!)⟩

/-! ### `setData` -/

theorem setData_aCO2 (u : K) (f : ForcingComponent K) (data : message_data K) (v : K)
    (hdate : data.date = u) (hval : data.getUnitval unit_types.U_W_M2 = Except.ok v) :
    ForcingComponent.setData u f D_ACO2 data = Except.ok { f with aCO2 := v } := by
  unfold ForcingComponent.setData setData_try
  rw [if_neg (by decide), if_pos rfl, hval]
  simp [h_assert, hdate, bind, Except.bind, pure, Except.pure]

theorem setData_delta_co2 (u : K) (f : ForcingComponent K) (data : message_data K) (v : K)
    (hdate : data.date = u) (hval : data.getUnitval unit_types.U_UNITLESS = Except.ok v) :
    ForcingComponent.setData u f D_DELTA_CO2 data = Except.ok { f with delta_co2 := v } := by
  unfold ForcingComponent.setData setData_try
  rw [if_neg (by decide), if_neg (by decide), if_neg (by decide), if_neg (by decide),
    if_pos rfl, hval]
  simp [h_assert, hdate, bind, Except.bind, pure, Except.pure]

/-- For `D_DELTA_CO2` the value set is the value served, before and after the base year has
been reached (when the map stored for the current year has no entry under that name). -/
theorem setData_getData_delta_co2 (u : K) (f : ForcingComponent K) (data : message_data K)
    (v : K) (hdate : data.date = u)
    (hval : data.getUnitval unit_types.U_UNITLESS = Except.ok v) :
    ∃ f1, ForcingComponent.setData u f D_DELTA_CO2 data = Except.ok f1
      ∧ (f.currentYear < f.baseyear →
          ForcingComponent.getData u f1 D_DELTA_CO2 u = Except.ok v)
      ∧ (¬ f.currentYear < f.baseyear → ∀ stored,
          tvector_find f.forcings_ts f.currentYear = some stored →
          map_find stored (forcing_name f D_DELTA_CO2) = none →
          ForcingComponent.getData u f1 D_DELTA_CO2 u = Except.ok v) := by
  refine ⟨_, setData_delta_co2 u f data v hdate hval, ?_, ?_⟩
  · intro h
    rw [getData_before u _ D_DELTA_CO2 u (by rw [if_pos rfl]; exact h)]
    rfl
  · intro h stored hs hk
    rw [getData_after u _ D_DELTA_CO2 u stored (by rw [if_pos rfl]; exact h)
      (by rw [if_pos rfl]; exact hs)]
    rw [if_neg (by decide), if_neg (by decide)]
    have hk2 : map_find stored (forcing_name { f with delta_co2 := v } D_DELTA_CO2) = none := hk
    rw [hk2]
    dsimp only
    rw [if_neg h, if_neg (by decide), if_neg (by decide), if_pos rfl]

/-- C26 (what the code does for `D_ACO2`): `setData( D_ACO2, v )` without a date succeeds;
while the current year is before the base year, `getData( D_ACO2 )` then returns `v`; once
the current year has reached the base year (and the map stored for it has no entry under
that name, as for every map that `run` stores), `getData( D_ACO2 )` throws "Caller is
requesting unknown variable: " followed by the name. -/
theorem setData_getData_aCO2 (u : K) (f : ForcingComponent K) (data : message_data K)
    (v : K) (hdate : data.date = u)
    (hval : data.getUnitval unit_types.U_W_M2 = Except.ok v) :
    ∃ f1, ForcingComponent.setData u f D_ACO2 data = Except.ok f1
      ∧ (f.currentYear < f.baseyear → ForcingComponent.getData u f1 D_ACO2 u = Except.ok v)
      ∧ (¬ f.currentYear < f.baseyear → ∀ stored,
          tvector_find f.forcings_ts f.currentYear = some stored →
          map_find stored (forcing_name f D_ACO2) = none →
          ForcingComponent.getData u f1 D_ACO2 u
            = Except.error (Failure.thrown
                ("Caller is requesting unknown variable: " ++ D_ACO2))) := by
  refine ⟨_, setData_aCO2 u f data v hdate hval, ?_, ?_⟩
  · intro h
    rw [getData_before u _ D_ACO2 u (by rw [if_pos rfl]; exact h)]
    rfl
  · intro h stored hs hk
    rw [getData_after u _ D_ACO2 u stored (by rw [if_pos rfl]; exact h)
      (by rw [if_pos rfl]; exact hs)]
    rw [if_neg (by decide), if_neg (by decide)]
    have hk2 : map_find stored (forcing_name { f with aCO2 := v } D_ACO2) = none := hk
    rw [hk2]
    dsimp only
    rw [if_neg h, if_neg (by decide), if_neg (by decide), if_neg (by decide),
      if_neg (by decide), if_neg (by decide), if_neg (by decide)]

/-- Witness for C26: after `run( 1751 )` (base year 1751), `setData( D_ACO2, 9 )` succeeds
and the following `getData( D_ACO2 )` throws. -/
theorem setData_getData_aCO2_witness :
    ∃ f1, ForcingComponent.setData (-1)
        (ForcingComponent.run table_libm ar6_constants (volcanic_hub 3 5) free_forcing
          1751).state D_ACO2 (undated 9) = Except.ok f1
      ∧ ForcingComponent.getData (-1) f1 D_ACO2 (-1)
        = Except.error (Failure.thrown ("Caller is requesting unknown variable: " ++ D_ACO2)) := by
  obtain ⟨f1, hset, -, hget⟩ := setData_getData_aCO2 (-1)
    (ForcingComponent.run table_libm ar6_constants (volcanic_hub 3 5) free_forcing 1751).state
    (undated 9) 9 rfl rfl
  exact ⟨f1, hset, hget (by decide!) [("D_RF_CFC12", 0), ("D_RF_VOL", 0), ("D_RF_TOTAL", 0)]
    (by decide!) (by decide!)⟩

/-! ### The forcing component's `prepareToRun` -/

theorem forcing_prepareToRun_ok_iff (startDate : K) (f : ForcingComponent K) :
    (ForcingComponent.prepareToRun startDate f).failure = none
      ↔ ((if f.baseyear = 0 then startDate + 1 else f.baseyear) > startDate
          ∧ (f.delta_ch4 ≥ -1 ∧ f.delta_ch4 ≤ 1) ∧ (f.delta_n2o ≥ -1 ∧ f.delta_n2o ≤ 1)) := by
  unfold ForcingComponent.prepareToRun
  by_cases hb : f.baseyear = 0
  · simp only [if_pos hb]
    by_cases h1 : startDate + 1 > startDate
    · by_cases h2 : f.delta_ch4 ≥ -1 ∧ f.delta_ch4 ≤ 1
      · by_cases h3 : f.delta_n2o ≥ -1 ∧ f.delta_n2o ≤ 1
        · simp [h1, h2, h3]
        · simp [h1, h2, h3]
      · simp [h1, h2]
    · simp [h1]
  · simp only [if_neg hb]
    by_cases h1 : f.baseyear > startDate
    · by_cases h2 : f.delta_ch4 ≥ -1 ∧ f.delta_ch4 ≤ 1
      · by_cases h3 : f.delta_n2o ≥ -1 ∧ f.delta_n2o ≤ 1
        · simp [h1, h2, h3]
        · simp [h1, h2, h3]
      · simp [h1, h2]
    · simp [h1]

theorem forcing_prepareToRun_state (startDate : K) (f : ForcingComponent K)
    (h : (ForcingComponent.prepareToRun startDate f).failure = none) :
    (ForcingComponent.prepareToRun startDate f).state
      = { f with
          baseyear := if f.baseyear = 0 then startDate + 1 else f.baseyear
          baseyear_forcings := [] } := by
  have hc := (forcing_prepareToRun_ok_iff startDate f).mp h
  obtain ⟨h1, h2, h3⟩ := hc
  unfold ForcingComponent.prepareToRun
  by_cases hb : f.baseyear = 0
  · rw [if_pos hb] at h1
    simp only [if_pos hb]
    simp [h1, h2, h3]
  · rw [if_neg hb] at h1
    simp only [if_neg hb]
    simp [h1, h2, h3]

/-- C29 (what the code does): `prepareToRun` of the forcing component succeeds exactly when
the base year (start date + 1 when unset) is after the start date and `delta_ch4` and
`delta_n2o` lie in [-1, 1]; `delta_co2` is not examined, so a `delta_co2` outside [-1, 1]
does not make it fail. -/
theorem forcing_prepareToRun_delta_co2 (startDate : K) (f : ForcingComponent K) (d : K) :
    ((ForcingComponent.prepareToRun startDate f).failure = none
        ↔ ((if f.baseyear = 0 then startDate + 1 else f.baseyear) > startDate
            ∧ (-1 ≤ f.delta_ch4 ∧ f.delta_ch4 ≤ 1) ∧ (-1 ≤ f.delta_n2o ∧ f.delta_n2o ≤ 1)))
      ∧ ((ForcingComponent.prepareToRun startDate { f with delta_co2 := d }).failure = none
        ↔ (ForcingComponent.prepareToRun startDate f).failure = none) := by
  refine ⟨forcing_prepareToRun_ok_iff startDate f, ?_⟩
  rw [forcing_prepareToRun_ok_iff, forcing_prepareToRun_ok_iff]

/-- C30: after a successful `prepareToRun` of the forcing component the base year is after
the start date; it is the start date + 1 if it was unset (0) and the user value otherwise;
`baseyear_forcings` is empty; and with `delta_ch4` and `delta_n2o` in [-1, 1],
`prepareToRun` fails exactly when the resulting base year is not after the start date. -/
theorem forcing_prepareToRun_baseyear (startDate : K) (f : ForcingComponent K) :
    ((ForcingComponent.prepareToRun startDate f).failure = none →
        (ForcingComponent.prepareToRun startDate f).state.baseyear > startDate
        ∧ (f.baseyear = 0 →
            (ForcingComponent.prepareToRun startDate f).state.baseyear = startDate + 1)
        ∧ (f.baseyear ≠ 0 →
            (ForcingComponent.prepareToRun startDate f).state.baseyear = f.baseyear)
        ∧ (ForcingComponent.prepareToRun startDate f).state.baseyear_forcings = [])
      ∧ ((-1 ≤ f.delta_ch4 ∧ f.delta_ch4 ≤ 1) → (-1 ≤ f.delta_n2o ∧ f.delta_n2o ≤ 1) →
          ((ForcingComponent.prepareToRun startDate f).failure ≠ none
            ↔ (if f.baseyear = 0 then startDate + 1 else f.baseyear) ≤ startDate)) := by
  constructor
  · intro h
    have hc := (forcing_prepareToRun_ok_iff startDate f).mp h
    rw [forcing_prepareToRun_state startDate f h]
    refine ⟨hc.1, fun hb => if_pos hb, fun hb => if_neg hb, rfl⟩
  · intro h2 h3
    rw [Ne, forcing_prepareToRun_ok_iff, not_and_or]
    constructor
    · rintro (h | h)
      · exact not_lt.mp h
      · exact absurd ⟨h2, h3⟩ h
    · intro h
      exact Or.inl (not_lt.mpr h)

/-- Witness for C30: an unset base year with start date 1745 becomes 1746. -/
theorem forcing_prepareToRun_baseyear_witness :
    (ForcingComponent.prepareToRun 1745 { forcing_1751 with baseyear := 0 }).state.baseyear
        = 1745 + 1
      ∧ (ForcingComponent.prepareToRun 1745
          { forcing_1751 with baseyear := 0 }).state.baseyear_forcings = [] :=
  ⟨((forcing_prepareToRun_baseyear 1745 { forcing_1751 with baseyear := 0 }).1
      (by decide!)).2.1 rfl,
   ((forcing_prepareToRun_baseyear 1745 { forcing_1751 with baseyear := 0 }).1
      (by decide!)).2.2.2⟩

/-- Witness for C29: `delta_co2 = 2` with start date 1745 and base year 1751 is accepted. -/
theorem forcing_prepareToRun_delta_co2_witness :
    (ForcingComponent.prepareToRun 1745 { forcing_1751 with delta_co2 := 2 }).failure = none :=
  (forcing_prepareToRun_delta_co2 1745 forcing_1751 2).2.mpr (by decide!)

/-! ### `init` and the adjusted halocarbon names -/

theorem init_name_map_frame :
    ∀ (pairs : List (String × String)) (m : stringmap String) (name : String),
      name ∉ pairs.map Prod.fst →
      map_find (init_name_map pairs m) name = map_find m name := by
  intro pairs
  induction pairs with
  | nil =>
    intro m name _
    rfl
  | cons p rest ih =>
    obtain ⟨a, r⟩ := p
    intro m name hn
    rw [List.map_cons, List.mem_cons, not_or] at hn
    unfold init_name_map
    rw [ih _ name hn.2]
    exact smap_find_set_ne m a name r (fun e => hn.1 e.symm)

theorem init_name_map_find :
    ∀ (pairs : List (String × String)) (m : stringmap String) (adjusted raw : String),
      (pairs.map Prod.fst).Nodup → (adjusted, raw) ∈ pairs →
      map_find (init_name_map pairs m) adjusted = some raw := by
  intro pairs
  induction pairs with
  | nil =>
    intro m adjusted raw _ h
    cases h
  | cons p rest ih =>
    obtain ⟨a, r⟩ := p
    intro m adjusted raw hn h
    rw [List.map_cons, List.nodup_cons] at hn
    unfold init_name_map
    rcases List.mem_cons.mp h with e | e
    · have e1 : adjusted = a := (Prod.mk.inj e).1
      have e2 : raw = r := (Prod.mk.inj e).2
      rw [e1, e2, init_name_map_frame rest _ a hn.1]
      exact smap_find_set_eq m a r
    · exact ih _ adjusted raw hn.2 e

theorem adjusted_names_nodup :
    ((adjusted_halo_forcings.zip halo_forcing_names).map Prod.fst).Nodup := by
  decide

theorem adjusted_names_not_special :
    ∀ p ∈ adjusted_halo_forcings.zip halo_forcing_names,
      p.1 ≠ D_RF_BASEYEAR ∧ p.1 ≠ D_RF_SO2 ∧ p.2 ∈ halos := by
  decide

theorem halos_nodup : halos.Nodup := by
  decide

theorem halos_not_later :
    ∀ name ∈ halos, name ≠ D_RF_BC ∧ name ≠ D_RF_OC ∧ name ≠ D_RF_SO2
      ∧ name ≠ D_RF_T_ALBEDO ∧ name ≠ D_RF_VOL ∧ name ≠ D_RF_TOTAL := by
  decide

/-- After `init` every adjusted halocarbon name is translated to the raw name at the same
index of the tables. -/
theorem init_forcing_name (f0 : ForcingComponent K) (i : Nat) (adjusted raw : String)
    (hadj : adjusted_halo_forcings[i]? = some adjusted)
    (hraw : halo_forcing_names[i]? = some raw) :
    map_find (ForcingComponent.init f0).forcing_name_map adjusted = some raw
      ∧ adjusted ≠ D_RF_BASEYEAR ∧ adjusted ≠ D_RF_SO2 ∧ raw ∈ halos := by
  have hz : (adjusted_halo_forcings.zip halo_forcing_names)[i]? = some (adjusted, raw) :=
    (@List.getElem?_zip_eq_some String String adjusted_halo_forcings halo_forcing_names
      (adjusted, raw) i).mpr ⟨hadj, hraw⟩
  have hmem : (adjusted, raw) ∈ adjusted_halo_forcings.zip halo_forcing_names :=
    List.getElem?_mem hz
  have hs := adjusted_names_not_special (adjusted, raw) hmem
  have hinit : (ForcingComponent.init f0).forcing_name_map
      = init_name_map (adjusted_halo_forcings.zip halo_forcing_names) f0.forcing_name_map := by
    simp only [ForcingComponent.init]
  have hfind := init_name_map_find (adjusted_halo_forcings.zip halo_forcing_names)
    f0.forcing_name_map adjusted raw adjusted_names_nodup hmem
  rw [hinit]
  exact ⟨hfind, hs.1, hs.2.1, hs.2.2⟩

theorem run_halos_value (hub : forcing_hub K) (t : K) (raw : String)
    (hcap : hub.checkCapability raw = true) :
    ∀ (l : List String) (m m' : stringmap K), l.Nodup → raw ∈ l →
      run_halos hub t l m = Except.ok m' →
      ∃ v, hub.getData raw (some t) = Except.ok v ∧ map_find m' raw = some v := by
  intro l
  induction l with
  | nil =>
    intro m m' _ h _
    cases h
  | cons name rest ih =>
    intro m m' hn hmem h
    rw [List.nodup_cons] at hn
    unfold run_halos at h
    by_cases e : raw = name
    · subst e
      rw [if_pos hcap, bind_ok_iff] at h
      obtain ⟨v, hv, hrest⟩ := h
      refine ⟨v, hv, ?_⟩
      rw [run_halos_frame hub t rest _ m' hrest raw hn.1]
      exact map_find_set_eq _ _ _
    · have hmem2 : raw ∈ rest := by
        rcases List.mem_cons.mp hmem with e1 | e1
        · exact absurd e1 e
        · exact e1
      by_cases hc : hub.checkCapability name = true
      · rw [if_pos hc, bind_ok_iff] at h
        obtain ⟨v, -, hrest⟩ := h
        exact ih _ m' hn.2 hmem2 hrest
      · rw [if_neg hc] at h
        exact ih _ m' hn.2 hmem2 h

/-- The absolute forcing that `run` computes for a halocarbon whose capability is
registered is what the hub serves for it. -/
theorem run_absolute_halo (L : libm K) (k : forcing_constants K) (hub : forcing_hub K)
    (f : ForcingComponent K) (t : K) (raw : String) (abs : stringmap K)
    (hraw : raw ∈ halos) (hcap : hub.checkCapability raw = true)
    (h : run_absolute L k hub f t = Except.ok abs) :
    ∃ v, hub.getData raw (some t) = Except.ok v ∧ map_find abs raw = some v := by
  obtain ⟨agents, hag, htot⟩ := run_absolute_ok_inv L k hub f t abs h
  obtain ⟨n1, n2, n3, n4, n5, n6⟩ := halos_not_later raw hraw
  unfold run_forcings at hag
  simp only [bind_ok_iff] at hag
  obtain ⟨m1, -, m2, -, m3, h3, m4, h4, m5, h5, h6⟩ := hag
  obtain ⟨v, hv, hf⟩ := run_halos_value hub t raw hcap halos m2 m3 halos_nodup hraw h3
  refine ⟨v, hv, ?_⟩
  rw [(run_total_keys f t agents abs htot).2 raw n6, run_volcanic_frame hub t m5 agents h6 raw n5,
    run_albedo_frame hub t m4 m5 h5 raw n4, run_aerosols_frame hub f t m3 m4 h4 raw n1 n2 n3]
  exact hf

/-- C27: after `init` (the name map of the state is the one `init` leaves), for every index
`i` of the halocarbon tables: for an effective date at or after the base year whose stored
forcing map has an entry under `halo_forcing_names[i]`, `getData` of
`adjusted_halo_forcings[i]` returns that entry; and after a successful `run( t )` with the
halocarbon's capability registered this is 0 when `t` is the base year and otherwise the raw
forcing served for `t` less the halocarbon's entry in `baseyear_forcings`. -/
theorem getData_adjusted_halo (u : K) (f0 f : ForcingComponent K) (i : Nat)
    (adjusted raw : String)
    (hmap : f.forcing_name_map = (ForcingComponent.init f0).forcing_name_map)
    (hadj : adjusted_halo_forcings[i]? = some adjusted)
    (hraw : halo_forcing_names[i]? = some raw) :
    (∀ date stored v, ¬ (if date = u then f.currentYear else date) < f.baseyear →
        tvector_find f.forcings_ts (if date = u then f.currentYear else date) = some stored →
        map_find stored raw = some v →
        ForcingComponent.getData u f adjusted date = Except.ok v)
      ∧ (∀ (L : libm K) (k : forcing_constants K) (hub : forcing_hub K) (t : K),
          t ≠ u → ¬ t < f.baseyear → hub.checkCapability raw = true →
          (ForcingComponent.run L k hub f t).failure = none →
          ∃ v, hub.getData raw (some t) = Except.ok v
            ∧ ForcingComponent.getData u (ForcingComponent.run L k hub f t).state adjusted t
              = Except.ok (if t = f.baseyear then 0
                  else v - (map_find f.baseyear_forcings raw).getD 0)) := by
  obtain ⟨hname, h1, h2, hh⟩ := init_forcing_name f0 i adjusted raw hadj hraw
  have hlookup : ∀ (g : ForcingComponent K), g.forcing_name_map = f.forcing_name_map →
      ∀ date stored v, ¬ (if date = u then g.currentYear else date) < g.baseyear →
        tvector_find g.forcings_ts (if date = u then g.currentYear else date) = some stored →
        map_find stored raw = some v →
        ForcingComponent.getData u g adjusted date = Except.ok v := by
    intro g hg date stored v hd hs hv
    apply getData_lookup u g adjusted date stored v hd hs h1 h2
    unfold forcing_name
    rw [hg, hmap, hname]
    exact hv
  refine ⟨hlookup f rfl, ?_⟩
  intro L k hub t hu hbase hcap hok
  obtain ⟨abs, stored, habs, hst, hval, -, hby, hcy, hnm⟩ := run_stored L k hub f t hbase hok
  obtain ⟨v, hv, hfind⟩ := run_absolute_halo L k hub f t raw abs hh hcap habs
  refine ⟨v, hv, ?_⟩
  have hdate : (if t = u then (ForcingComponent.run L k hub f t).state.currentYear else t)
      = t := if_neg hu
  have hres := hlookup (ForcingComponent.run L k hub f t).state hnm t stored _
    (by rw [hdate, hby]; exact hbase) (by rw [hdate]; exact hst) (hval raw v hfind)
  rw [hres]
  by_cases ht : t = f.baseyear
  · rw [if_pos ht, if_pos ht, sub_self]
  · rw [if_neg ht, if_neg ht]

/-- Witness for C27: CFC-12 (index 12 of the tables) with raw forcing 5 at the base year
1751 and 7 at 1800: the adjusted forcing served for 1800 is 2. -/
theorem getData_adjusted_halo_witness :
    ForcingComponent.getData (-1)
      (ForcingComponent.run table_libm ar6_constants (volcanic_hub 4 7)
        (ForcingComponent.run table_libm ar6_constants (volcanic_hub 3 5) free_forcing
          1751).state 1800).state "D_RFADJ_CFC12" 1800 = Except.ok (7 - 5) := by
  obtain ⟨v, hv, hget⟩ := (getData_adjusted_halo (-1) forcing_1751
    (ForcingComponent.run table_libm ar6_constants (volcanic_hub 3 5) free_forcing 1751).state
    12 "D_RFADJ_CFC12" "D_RF_CFC12" (by decide!) (by decide) (by decide)).2
    table_libm ar6_constants (volcanic_hub 4 7) 1800 (by decide!) (by decide!) (by decide)
    (by decide!)
  have e : v = 7 := Except.ok.inj (hv.symm.trans (by decide!))
  subst e
  rw [hget, if_neg (by decide!)]
  have hb : (map_find (ForcingComponent.run table_libm ar6_constants (volcanic_hub 3 5)
      free_forcing 1751).state.baseyear_forcings "D_RF_CFC12").getD 0 = 5 := by decide!
  rw [hb]

/-! ### `calcderivs`: the derivatives as sums over the biome list -/

theorem map_val_of_at (m : stringmap K) (b : String) (v : K) (h : map_at m b = Except.ok v) :
    map_val m b = v := by
  unfold map_val
  rw [(map_at_ok_iff m b v).mp h]
  rfl

theorem npp_val (s : SimpleNbox K) (b : String) (n : K) (h : npp s b = Except.ok n) :
    n = map_val s.npp_flux0 b * map_val s.co2fert b := by
  simp only [npp, bind_ok_iff] at h
  obtain ⟨x, hx, y, hy, h⟩ := h
  rw [map_val_of_at _ _ _ hx, map_val_of_at _ _ _ hy]
  exact (Except.ok.inj h).symm

theorem rh_fda_val (s : SimpleNbox K) (b : String) (x : K) (h : rh_fda s b = Except.ok x) :
    x = 25 / 100 * map_val s.detritus_c b * map_val s.tempfertd b := by
  simp only [rh_fda, bind_ok_iff] at h
  obtain ⟨d, hd, tf, htf, h⟩ := h
  rw [map_val_of_at _ _ _ hd, map_val_of_at _ _ _ htf, ← Except.ok.inj h]
  ring

theorem rh_fsa_val (s : SimpleNbox K) (b : String) (x : K) (h : rh_fsa s b = Except.ok x) :
    x = 2 / 100 * map_val s.soil_c b * map_val s.tempferts b := by
  simp only [rh_fsa, bind_ok_iff] at h
  obtain ⟨d, hd, tf, htf, h⟩ := h
  rw [map_val_of_at _ _ _ hd, map_val_of_at _ _ _ htf, ← Except.ok.inj h]
  ring

/-- What the first biome loop of `calcderivs` adds to its accumulators. -/
theorem calcderivs_npp_rh_sums (s : SimpleNbox K) :
    ∀ (l : List String) (acc r : npp_rh_acc K), calcderivs_npp_rh s l acc = Except.ok r →
      r.npp_fav = acc.npp_fav
          + (l.map (fun b => map_val s.npp_flux0 b * map_val s.co2fert b
              * map_val s.f_nppv b)).sum
        ∧ r.npp_fad = acc.npp_fad
          + (l.map (fun b => map_val s.npp_flux0 b * map_val s.co2fert b
              * map_val s.f_nppd b)).sum
        ∧ r.npp_fas = acc.npp_fas
          + (l.map (fun b => map_val s.npp_flux0 b * map_val s.co2fert b
              * (1 - map_val s.f_nppv b - map_val s.f_nppd b))).sum
        ∧ r.rh_fda_current = acc.rh_fda_current
          + (l.map (fun b => 25 / 100 * map_val s.detritus_c b * map_val s.tempfertd b)).sum
        ∧ r.rh_fsa_current = acc.rh_fsa_current
          + (l.map (fun b => 2 / 100 * map_val s.soil_c b * map_val s.tempferts b)).sum := by
  intro l
  induction l with
  | nil =>
    intro acc r h
    have e : acc = r := Except.ok.inj h
    subst e
    simp
  | cons b rest ih =>
    intro acc r h
    simp only [calcderivs_npp_rh, bind_ok_iff] at h
    obtain ⟨n, hn, fv, hfv, fd, hfd, rd, hrd, rs, hrs, h⟩ := h
    obtain ⟨i1, i2, i3, i4, i5⟩ := ih _ r h
    have e1 := npp_val s b n hn
    have e2 := map_val_of_at _ _ _ hfv
    have e3 := map_val_of_at _ _ _ hfd
    have e4 := rh_fda_val s b rd hrd
    have e5 := rh_fsa_val s b rs hrs
    simp only [List.map_cons, List.sum_cons]
    rw [i1, i2, i3, i4, i5, e2, e3, ← e1, ← e4, ← e5]
    dsimp only
    refine ⟨?_, ?_, ?_, ?_, ?_⟩ <;> ring

/-- What the litter loop of `calcderivs` adds to its accumulators. -/
theorem calcderivs_litter_sums (s : SimpleNbox K) :
    ∀ (l : List String) (acc r : litter_acc K), calcderivs_litter s l acc = Except.ok r →
      r.litter_flux = acc.litter_flux + 35 / 1000 * (l.map (fun b => map_val s.veg_c b)).sum
        ∧ r.litter_fvd = acc.litter_fvd
          + 35 / 1000 * (l.map (fun b => map_val s.veg_c b * map_val s.f_litterd b)).sum
        ∧ r.litter_fvs = acc.litter_fvs
          + 35 / 1000
            * (l.map (fun b => map_val s.veg_c b * (1 - map_val s.f_litterd b))).sum := by
  intro l
  induction l with
  | nil =>
    intro acc r h
    have e : acc = r := Except.ok.inj h
    subst e
    simp
  | cons b rest ih =>
    intro acc r h
    simp only [calcderivs_litter, bind_ok_iff] at h
    obtain ⟨vc, hvc, fl, hfl, h⟩ := h
    obtain ⟨i1, i2, i3⟩ := ih _ r h
    have e1 := map_val_of_at _ _ _ hvc
    have e2 := map_val_of_at _ _ _ hfl
    simp only [List.map_cons, List.sum_cons]
    rw [i1, i2, i3, e1, e2]
    dsimp only
    refine ⟨?_, ?_, ?_⟩ <;> ring

/-- What the detritus-to-soil loop of `calcderivs` adds to its accumulator. -/
theorem calcderivs_detsoil_sum (s : SimpleNbox K) :
    ∀ (l : List String) (acc r : K), calcderivs_detsoil s l acc = Except.ok r →
      r = acc + 6 / 10 * (l.map (fun b => map_val s.detritus_c b)).sum := by
  intro l
  induction l with
  | nil =>
    intro acc r h
    have e : acc = r := Except.ok.inj h
    subst e
    simp
  | cons b rest ih =>
    intro acc r h
    simp only [calcderivs_detsoil, bind_ok_iff] at h
    obtain ⟨d, hd, h⟩ := h
    rw [ih _ r h]
    simp only [List.map_cons, List.sum_cons]
    rw [map_val_of_at _ _ _ hd]
    ring

theorem calcderivs_luc_inv (s : SimpleNbox K) (t luc : K)
    (h : calcderivs_luc s t = Except.ok luc) :
    (s.in_spinup = true → luc = 0)
      ∧ (s.in_spinup = false → s.lucEmissions.get t = Except.ok luc) := by
  unfold calcderivs_luc at h
  rcases hs : s.in_spinup with _ | _
  · rw [hs] at h
    refine ⟨fun hn => (by cases hn), fun _ => ?_⟩
    simpa using h
  · rw [hs] at h
    refine ⟨fun _ => ?_, fun hn => (by cases hn)⟩
    exact (Except.ok.inj h).symm

theorem calcderivs_ffi_spinup (s : SimpleNbox K) (t : K) (ff : K × K)
    (hs : s.in_spinup = true) (h : calcderivs_ffi s t = Except.ok ff) : ff = (0, 0) := by
  unfold calcderivs_ffi at h
  rw [hs] at h
  exact (Except.ok.inj h).symm

/-- C33: when `calcderivs` writes its derivatives, `dcdt[veg]`, `dcdt[det]` and `dcdt[soil]`
are the sums over the biome list stated in terms of the stored per-biome values
(`npp_b = npp_flux0[b] * co2fert[b]`), with `luc` the land-use emission at `t` outside
spinup and 0 in spinup, where moreover `dcdt[earth]` is 0. -/
theorem calcderivs_formulas (omodel : CarbonCycleModel K) (s : SimpleNbox K) (t : K)
    (c : Fin 6 → K) (err : Int) (dcdt : Fin 6 → K)
    (h : calcderivs omodel s t c = Except.ok (err, dcdt)) :
    ∃ luc, (s.in_spinup = true → luc = 0)
      ∧ (s.in_spinup = false → s.lucEmissions.get t = Except.ok luc)
      ∧ dcdt SNBOX_VEG
        = (s.biome_list.map (fun b => map_val s.npp_flux0 b * map_val s.co2fert b
              * map_val s.f_nppv b)).sum
          - 35 / 1000 * (s.biome_list.map (fun b => map_val s.veg_c b)).sum
          - luc * s.f_lucv
      ∧ dcdt SNBOX_DET
        = (s.biome_list.map (fun b => map_val s.npp_flux0 b * map_val s.co2fert b
              * map_val s.f_nppd b)).sum
          + 35 / 1000
            * (s.biome_list.map (fun b => map_val s.veg_c b * map_val s.f_litterd b)).sum
          - 6 / 10 * (s.biome_list.map (fun b => map_val s.detritus_c b)).sum
          - (s.biome_list.map
              (fun b => 25 / 100 * map_val s.detritus_c b * map_val s.tempfertd b)).sum
          - luc * s.f_lucd
      ∧ dcdt SNBOX_SOIL
        = (s.biome_list.map (fun b => map_val s.npp_flux0 b * map_val s.co2fert b
              * (1 - map_val s.f_nppv b - map_val s.f_nppd b))).sum
          + 35 / 1000
            * (s.biome_list.map (fun b => map_val s.veg_c b * (1 - map_val s.f_litterd b))).sum
          + 6 / 10 * (s.biome_list.map (fun b => map_val s.detritus_c b)).sum
          - (s.biome_list.map
              (fun b => 2 / 100 * map_val s.soil_c b * map_val s.tempferts b)).sum
          - luc * (1 - s.f_lucv - s.f_lucd)
      ∧ (s.in_spinup = true → dcdt SNBOX_EARTH = 0) := by
  simp only [calcderivs, bind_ok_iff] at h
  obtain ⟨a, ha, l, hl, ds, hds, ff, hff, luc, hluc, h⟩ := h
  simp only [pure, Except.pure, Except.ok.injEq, Prod.mk.injEq] at h
  obtain ⟨-, rfl⟩ := h
  obtain ⟨a1, a2, a3, a4, a5⟩ := calcderivs_npp_rh_sums s _ _ _ ha
  obtain ⟨l1, l2, l3⟩ := calcderivs_litter_sums s _ _ _ hl
  have d1 := calcderivs_detsoil_sum s _ _ _ hds
  obtain ⟨u1, u2⟩ := calcderivs_luc_inv s t luc hluc
  have e5 : (5 : Fin 6) = Fin.succ 4 := rfl
  refine ⟨luc, u1, u2, ?_, ?_, ?_, ?_⟩
  · simp only [SNBOX_VEG, Matrix.cons_val_zero, Matrix.cons_val_one, Matrix.head_cons]
    rw [a1, l1]
    ring
  · simp only [SNBOX_DET, Matrix.cons_val_zero, Matrix.cons_val_one, Matrix.head_cons,
      Matrix.cons_val_two, Matrix.tail_cons]
    rw [a2, l2, d1, a4]
    ring
  · simp only [SNBOX_SOIL, Matrix.cons_val_zero, Matrix.cons_val_one, Matrix.head_cons,
      Matrix.cons_val_two, Matrix.tail_cons, Matrix.cons_val_three]
    rw [a3, l3, d1, a5]
    ring
  · intro hs
    have hz := calcderivs_ffi_spinup s t ff hs hff
    simp only [SNBOX_EARTH, e5, Matrix.cons_val_zero, Matrix.cons_val_one, Matrix.head_cons,
      Matrix.cons_val_two, Matrix.tail_cons, Matrix.cons_val_three, Matrix.cons_val_four,
      Matrix.cons_val_succ]
    rw [hz]
    simp

/-- Witness for C33: the two-biome state at 1750, land-use emission 1. -/
theorem calcderivs_formulas_witness :
    ∃ luc : ℚ, two_biomes.lucEmissions.get 1750 = Except.ok luc
      ∧ (![1 / 2, 19 / 20, -4067 / 1000, 2117 / 1000, 7 / 2, -3] : Fin 6 → ℚ) SNBOX_VEG
        = (two_biomes.biome_list.map (fun b => map_val two_biomes.npp_flux0 b
              * map_val two_biomes.co2fert b * map_val two_biomes.f_nppv b)).sum
          - 35 / 1000 * (two_biomes.biome_list.map (fun b => map_val two_biomes.veg_c b)).sum
          - luc * two_biomes.f_lucv := by
  obtain ⟨luc, -, h2, h3, -⟩ := calcderivs_formulas calm_ocean two_biomes 1750 solver_vector 0
    ![1 / 2, 19 / 20, -4067 / 1000, 2117 / 1000, 7 / 2, -3] (by decide!)
  exact ⟨luc, h2 (by decide), h3⟩

/-- C36: the derivatives of the vegetation, detritus, soil and earth pools that `calcderivs`
writes do not depend on the solver vector: when `calcderivs` writes its derivatives for `c`
it writes them for any other vector too, with the same four values. -/
theorem calcderivs_land_independent (omodel : CarbonCycleModel K) (s : SimpleNbox K) (t : K)
    (c c2 : Fin 6 → K) (err : Int) (dcdt : Fin 6 → K)
    (h : calcderivs omodel s t c = Except.ok (err, dcdt)) :
    ∃ err2 dcdt2, calcderivs omodel s t c2 = Except.ok (err2, dcdt2)
      ∧ dcdt2 SNBOX_VEG = dcdt SNBOX_VEG ∧ dcdt2 SNBOX_DET = dcdt SNBOX_DET
      ∧ dcdt2 SNBOX_SOIL = dcdt SNBOX_SOIL ∧ dcdt2 SNBOX_EARTH = dcdt SNBOX_EARTH := by
  simp only [calcderivs, bind_ok_iff] at h ⊢
  obtain ⟨a, ha, l, hl, ds, hds, ff, hff, luc, hluc, h⟩ := h
  simp only [pure, Except.pure, Except.ok.injEq, Prod.mk.injEq] at h
  obtain ⟨-, rfl⟩ := h
  have e5 : (5 : Fin 6) = Fin.succ 4 := rfl
  refine ⟨_, _, ⟨a, ha, l, hl, ds, hds, ff, hff, luc, hluc, rfl⟩, ?_, ?_, ?_, ?_⟩ <;>
    simp only [SNBOX_VEG, SNBOX_DET, SNBOX_SOIL, SNBOX_EARTH, e5, Matrix.cons_val_zero,
      Matrix.cons_val_one, Matrix.head_cons, Matrix.cons_val_two, Matrix.tail_cons,
      Matrix.cons_val_three, Matrix.cons_val_four, Matrix.cons_val_succ]

/-- Witness for C36: the two-biome state at 1750 with the solver vector and with the zero
vector. -/
theorem calcderivs_land_independent_witness :
    ∃ err2 dcdt2, calcderivs calm_ocean two_biomes 1750 (fun _ => 0) = Except.ok (err2, dcdt2)
      ∧ dcdt2 SNBOX_VEG
        = (![1 / 2, 19 / 20, -4067 / 1000, 2117 / 1000, 7 / 2, -3] : Fin 6 → ℚ) SNBOX_VEG := by
  obtain ⟨err2, dcdt2, h, hv, -⟩ := calcderivs_land_independent calm_ocean two_biomes 1750
    solver_vector (fun _ => 0) 0 ![1 / 2, 19 / 20, -4067 / 1000, 2117 / 1000, 7 / 2, -3]
    (by decide!)
  exact ⟨err2, dcdt2, h, hv⟩

/-! ### `stashCValues`: what each biome receives -/

theorem npp_pools_congr (s s1 : SimpleNbox K) (b : String) (h1 : s1.npp_flux0 = s.npp_flux0)
    (h2 : s1.co2fert = s.co2fert) : npp s1 b = npp s b := by
  unfold npp
  rw [h1, h2]

/-- The apportioning loop over a duplicate-free biome list: every biome of the list receives
its share, computed from the pools as they were before the loop; other entries are kept. -/
theorem stash_apportion_entries (T dv dd ds : K) :
    ∀ (l : List String) (s s1 : SimpleNbox K), l.Nodup →
      stash_apportion T dv dd ds l s = (none, s1) →
      (∀ b, b ∉ l → map_find s1.veg_c b = map_find s.veg_c b
          ∧ map_find s1.detritus_c b = map_find s.detritus_c b
          ∧ map_find s1.soil_c b = map_find s.soil_c b)
        ∧ ∀ b ∈ l, ∃ n r v d so, npp s b = Except.ok n ∧ rh s b = Except.ok r
            ∧ map_find s.veg_c b = some v ∧ map_find s.detritus_c b = some d
            ∧ map_find s.soil_c b = some so
            ∧ map_find s1.veg_c b = some (v + dv * ((n + r) / T))
            ∧ map_find s1.detritus_c b = some (d + dd * ((n + r) / T))
            ∧ map_find s1.soil_c b = some (so + ds * ((n + r) / T)) := by
  intro l
  induction l with
  | nil =>
    intro s s1 _ h
    simp only [stash_apportion, Prod.mk.injEq] at h
    obtain ⟨-, rfl⟩ := h
    exact ⟨fun _ _ => ⟨rfl, rfl, rfl⟩, fun _ hb => (by cases hb)⟩
  | cons biome rest ih =>
    intro s s1 hnd h
    rw [List.nodup_cons] at hnd
    unfold stash_apportion at h
    rcases hb : stash_biome T dv dd ds s biome with ⟨f1, s2⟩
    rw [hb] at h
    rcases f1 with _ | e
    · dsimp only at h
      obtain ⟨n, r, v, d, so, hn, hr, hv, hd, hso, hs2⟩ := stash_biome_ok T dv dd ds s s2 biome hb
      obtain ⟨iframe, ival⟩ := ih s2 s1 hnd.2 h
      have hveg : ∀ b, biome ≠ b → map_find s2.veg_c b = map_find s.veg_c b := by
        intro b hne
        rw [hs2]
        exact map_find_set_ne _ _ _ _ hne
      have hdet : ∀ b, biome ≠ b → map_find s2.detritus_c b = map_find s.detritus_c b := by
        intro b hne
        rw [hs2]
        exact map_find_set_ne _ _ _ _ hne
      have hsoil : ∀ b, biome ≠ b → map_find s2.soil_c b = map_find s.soil_c b := by
        intro b hne
        rw [hs2]
        exact map_find_set_ne _ _ _ _ hne
      have hnpp : ∀ b, npp s2 b = npp s b := by
        intro b
        apply npp_pools_congr <;> rw [hs2]
      have hrh : ∀ b, biome ≠ b → rh s2 b = rh s b := by
        intro b hne
        apply rh_congr s s2 b (hdet b hne) (hsoil b hne) <;> rw [hs2]
      constructor
      · intro b hbn
        rw [List.mem_cons, not_or] at hbn
        have hne : biome ≠ b := fun e => hbn.1 e.symm
        obtain ⟨f1, f2, f3⟩ := iframe b hbn.2
        exact ⟨f1.trans (hveg b hne), f2.trans (hdet b hne), f3.trans (hsoil b hne)⟩
      · intro b hbm
        by_cases hbe : b = biome
        · subst hbe
          obtain ⟨f1, f2, f3⟩ := iframe b hnd.1
          refine ⟨n, r, v, d, so, hn, hr, hv, hd, hso, ?_, ?_, ?_⟩
          · rw [f1, hs2]
            exact map_find_set_eq _ _ _
          · rw [f2, hs2]
            exact map_find_set_eq _ _ _
          · rw [f3, hs2]
            exact map_find_set_eq _ _ _
        · have hbr : b ∈ rest := by
            rcases List.mem_cons.mp hbm with e | e
            · exact absurd e hbe
            · exact e
          have hne : biome ≠ b := fun e => hbe e.symm
          obtain ⟨n2, r2, v2, d2, so2, g1, g2, g3, g4, g5, g6, g7, g8⟩ := ival b hbr
          rw [hnpp b] at g1
          rw [hrh b hne] at g2
          rw [hveg b hne] at g3
          rw [hdet b hne] at g4
          rw [hsoil b hne] at g5
          exact ⟨n2, r2, v2, d2, so2, g1, g2, g3, g4, g5, g6, g7, g8⟩
    · dsimp only at h
      simp only [Prod.mk.injEq] at h
      cases h.1

/-- C32: after a successful `stashCValues( t, c )` on a state with a duplicate-free biome
list and `npp_total + rh_total` not 0, each biome `b` of the list holds
`veg_c[b] + (c[veg] - sum of veg_c) * w_b`, and likewise for `detritus_c` and `soil_c`, with
`w_b = (npp(b) + rh(b)) / (npp_total + rh_total)` and every quantity on the right-hand side
taken on the state before the call. -/
theorem stashCValues_apportions (k : h_constants K) (core : Core)
    (omodel : CarbonCycleModel K) (s : SimpleNbox K) (t : K) (c : Fin 6 → K)
    (npp_total rh_total : K) (b : String) (hnd : s.biome_list.Nodup)
    (hn : sum_npp s = Except.ok npp_total) (hr : sum_rh s = Except.ok rh_total)
    (hT : npp_total + rh_total ≠ 0) (hb : b ∈ s.biome_list)
    (hok : (stashCValues k core omodel s t c).failure = none) :
    ∃ n r v d so, npp s b = Except.ok n ∧ rh s b = Except.ok r
      ∧ map_find s.veg_c b = some v ∧ map_find s.detritus_c b = some d
      ∧ map_find s.soil_c b = some so
      ∧ map_find (stashCValues k core omodel s t c).state.veg_c b
        = some (v + (c SNBOX_VEG - sum_map s.veg_c) * ((n + r) / (npp_total + rh_total)))
      ∧ map_find (stashCValues k core omodel s t c).state.detritus_c b
        = some (d + (c SNBOX_DET - sum_map s.detritus_c)
            * ((n + r) / (npp_total + rh_total)))
      ∧ map_find (stashCValues k core omodel s t c).state.soil_c b
        = some (so + (c SNBOX_SOIL - sum_map s.soil_c)
            * ((n + r) / (npp_total + rh_total))) := by
  obtain ⟨s1, hP, -, -, -, hst, -⟩ := stashCValues_ok_inv k core omodel s t c hok
  obtain ⟨rr, a, ca, hfr⟩ := stash_constrain_frame k core { s1 with masstot := stash_sum c } t
  obtain ⟨nt, rt, luc, s3, -, hn2, hr2, -, -, hap, hs1⟩ := stash_pools_inv omodel s s1 t c hP
  have en : nt = npp_total := Except.ok.inj (hn2.symm.trans hn)
  have er : rt = rh_total := Except.ok.inj (hr2.symm.trans hr)
  subst en er
  obtain ⟨-, ival⟩ := stash_apportion_entries _ _ _ _ _ _ s3 hnd hap
  obtain ⟨n, r, v, d, so, g1, g2, g3, g4, g5, g6, g7, g8⟩ := ival b hb
  rw [hst, hfr, hs1]
  exact ⟨n, r, v, d, so, g1, g2, g3, g4, g5, g6, g7, g8⟩

/-- Witness for C32: the two-biome state (NPP 2 and RH 2 per biome, totals 4 and 4) stashed
with vegetation 4 against a stored sum of 10: "boreal" goes from 1 to 1 - 6 * (4 / 8). -/
theorem stashCValues_apportions_witness :
    map_find (stashCValues hector_constants ⟨false⟩ calm_ocean two_biomes 1751
        solver_vector).state.veg_c "boreal" = some (1 + (4 - 10) * ((2 + 2) / (4 + 4))) := by
  obtain ⟨n, r, v, d, so, g1, g2, g3, -, -, g6, -⟩ := stashCValues_apportions hector_constants
    ⟨false⟩ calm_ocean two_biomes 1751 solver_vector 4 4 "boreal" (by decide) (by decide!)
    (by decide!) (by decide!) (by decide) (by decide!)
  have e1 : n = 2 := Except.ok.inj (g1.symm.trans (by decide!))
  have e2 : r = 2 := Except.ok.inj (g2.symm.trans (by decide!))
  have e3 : v = 1 := Option.some.inj (g3.symm.trans (by decide!))
  subst e1 e2 e3
  rw [g6]
  have e4 : solver_vector SNBOX_VEG - sum_map two_biomes.veg_c = 4 - 10 := by decide!
  rw [e4]

/-- C34: when the hub is not in spinup and `CO2_constrain` is empty or has no entry at `t`,
a successful `stashCValues( t, c )` leaves `residual = 0`, sends no message to the hub, and
leaves `atmos_c = c[atmos]` and `earth_c = c[earth]`. -/
theorem stashCValues_unconstrained (k : h_constants K) (core : Core)
    (omodel : CarbonCycleModel K) (s : SimpleNbox K) (t : K) (c : Fin 6 → K)
    (hspin : core.inSpinup = false)
    (hcon : s.CO2_constrain.size = 0 ∨ s.CO2_constrain.exists_at t = false)
    (hok : (stashCValues k core omodel s t c).failure = none) :
    (stashCValues k core omodel s t c).state.residual = 0
      ∧ (stashCValues k core omodel s t c).sent = []
      ∧ (stashCValues k core omodel s t c).state.atmos_c = c SNBOX_ATMOS
      ∧ (stashCValues k core omodel s t c).state.earth_c = c SNBOX_EARTH := by
  have hc : (core.inSpinup || (decide (s.CO2_constrain.size ≠ 0)
      && s.CO2_constrain.exists_at t)) = false := by
    rw [hspin, Bool.false_or]
    rcases hcon with h | h
    · simp [h]
    · simp [h]
  obtain ⟨h1, h2, h3, h4, -⟩ := stashCValues_free k core omodel s t c hc hok
  exact ⟨h1, h2, h3, h4⟩

/-- Witness for C34: the two-biome state without constraint, stashed at 1751. -/
theorem stashCValues_unconstrained_witness :
    (stashCValues hector_constants ⟨false⟩ calm_ocean two_biomes 1751
        solver_vector).state.residual = 0
      ∧ (stashCValues hector_constants ⟨false⟩ calm_ocean two_biomes 1751
        solver_vector).sent = []
      ∧ (stashCValues hector_constants ⟨false⟩ calm_ocean two_biomes 1751
        solver_vector).state.atmos_c = solver_vector SNBOX_ATMOS
      ∧ (stashCValues hector_constants ⟨false⟩ calm_ocean two_biomes 1751
        solver_vector).state.earth_c = solver_vector SNBOX_EARTH :=
  stashCValues_unconstrained hector_constants ⟨false⟩ calm_ocean two_biomes 1751 solver_vector
    rfl (Or.inl (by decide)) (by decide!)

/-! ### `getCValues` followed by `stashCValues` -/

theorem map_set_self {α : Type} (m : stringmap α) (b : String) (v : α)
    (h : map_find m b = some v) : map_set m b v = m := by
  induction m with
  | nil => simp [map_find] at h
  | cons p rest ih =>
    obtain ⟨k1, v1⟩ := p
    unfold map_find at h
    unfold map_set
    by_cases hk : k1 = b
    · rw [if_pos hk] at h ⊢
      rw [Option.some.inj h]
    · rw [if_neg hk] at h ⊢
      rw [ih h]

/-- The apportioning loop with all three deltas 0 changes nothing. -/
theorem stash_apportion_zero (T : K) :
    ∀ (l : List String) (s s1 : SimpleNbox K),
      stash_apportion T 0 0 0 l s = (none, s1) → s1 = s := by
  intro l
  induction l with
  | nil =>
    intro s s1 h
    simp only [stash_apportion, Prod.mk.injEq] at h
    exact h.2.symm
  | cons biome rest ih =>
    intro s s1 h
    unfold stash_apportion at h
    rcases hb : stash_biome T 0 0 0 s biome with ⟨f1, s2⟩
    rw [hb] at h
    rcases f1 with _ | e
    · dsimp only at h
      obtain ⟨n, r, v, d, so, -, -, hv, hd, hso, hs2⟩ := stash_biome_ok T 0 0 0 s s2 biome hb
      have e2 : s2 = s := by
        rw [hs2]
        simp only [zero_mul, add_zero]
        rw [map_set_self _ _ _ hv, map_set_self _ _ _ hd, map_set_self _ _ _ hso]
      rw [ih s2 s1 h, e2]
    · dsimp only at h
      simp only [Prod.mk.injEq] at h
      cases h.1

/-- C37: when `c` is the vector that `getCValues( t )` fills (with any value in the ocean
slot) and `stashCValues( t2, c )` is then successful, the per-biome maps `veg_c`,
`detritus_c`, `soil_c` and `earth_c` are what they were before (each pool receives 0 times
its weight; the weights are quotients by `npp_total + rh_total`, taken to be non-zero as for
every quotient), and `t2 - t` lies in [0, 1]. -/
theorem getCValues_stashCValues (k : h_constants K) (core : Core)
    (omodel : CarbonCycleModel K) (s : SimpleNbox K) (t t2 ocean_c npp_total rh_total : K)
    (_hn : sum_npp s = Except.ok npp_total) (_hr : sum_rh s = Except.ok rh_total)
    (_hT : npp_total + rh_total ≠ 0)
    (hok : (stashCValues k core omodel (getCValues s t ocean_c).2 t2
      (getCValues s t ocean_c).1).failure = none) :
    (stashCValues k core omodel (getCValues s t ocean_c).2 t2
        (getCValues s t ocean_c).1).state.veg_c = s.veg_c
      ∧ (stashCValues k core omodel (getCValues s t ocean_c).2 t2
        (getCValues s t ocean_c).1).state.detritus_c = s.detritus_c
      ∧ (stashCValues k core omodel (getCValues s t ocean_c).2 t2
        (getCValues s t ocean_c).1).state.soil_c = s.soil_c
      ∧ (stashCValues k core omodel (getCValues s t ocean_c).2 t2
        (getCValues s t ocean_c).1).state.earth_c = s.earth_c
      ∧ (0 ≤ t2 - t ∧ t2 - t ≤ 1) := by
  obtain ⟨s1, hP, hyf, -, -, hst, -⟩ := stashCValues_ok_inv k core omodel _ t2 _ hok
  obtain ⟨rr, a, ca, hfr⟩ := stash_constrain_frame k core
    { s1 with masstot := stash_sum (getCValues s t ocean_c).1 } t2
  obtain ⟨nt, rt, luc, s3, -, -, -, -, -, hap, hs1⟩ := stash_pools_inv omodel _ s1 t2 _ hP
  have e5 : (5 : Fin 6) = Fin.succ 4 := rfl
  have hveg : (getCValues s t ocean_c).1 SNBOX_VEG - sum_map (getCValues s t ocean_c).2.veg_c
      = 0 := by
    simp only [getCValues, SNBOX_VEG, Matrix.cons_val_zero, Matrix.cons_val_one,
      Matrix.head_cons, sub_self]
  have hdet : (getCValues s t ocean_c).1 SNBOX_DET
      - sum_map (getCValues s t ocean_c).2.detritus_c = 0 := by
    simp only [getCValues, SNBOX_DET, Matrix.cons_val_zero, Matrix.cons_val_one,
      Matrix.head_cons, Matrix.cons_val_two, Matrix.tail_cons, sub_self]
  have hsoil : (getCValues s t ocean_c).1 SNBOX_SOIL
      - sum_map (getCValues s t ocean_c).2.soil_c = 0 := by
    simp only [getCValues, SNBOX_SOIL, Matrix.cons_val_zero, Matrix.cons_val_one,
      Matrix.head_cons, Matrix.cons_val_two, Matrix.tail_cons, Matrix.cons_val_three,
      sub_self]
  have hearth : (getCValues s t ocean_c).1 SNBOX_EARTH = s.earth_c := by
    simp only [getCValues, SNBOX_EARTH, e5, Matrix.cons_val_zero, Matrix.cons_val_one,
      Matrix.head_cons, Matrix.cons_val_two, Matrix.tail_cons, Matrix.cons_val_three,
      Matrix.cons_val_four, Matrix.cons_val_succ]
  rw [hveg, hdet, hsoil] at hap
  have hs3 := stash_apportion_zero _ _ _ s3 hap
  rw [hst, hfr, hs1, hs3]
  exact ⟨rfl, rfl, rfl, hearth, hyf⟩

/-- Witness for C37: the two-biome state, filled at 1750 and stashed at 1751. -/
theorem getCValues_stashCValues_witness :
    (stashCValues hector_constants ⟨false⟩ calm_ocean (getCValues two_biomes 1750 1000).2 1751
        (getCValues two_biomes 1750 1000).1).state.veg_c = two_biomes.veg_c
      ∧ (stashCValues hector_constants ⟨false⟩ calm_ocean (getCValues two_biomes 1750 1000).2
        1751 (getCValues two_biomes 1750 1000).1).state.earth_c = two_biomes.earth_c :=
  ⟨(getCValues_stashCValues hector_constants ⟨false⟩ calm_ocean two_biomes 1750 1751 1000 4 4
      (by decide!) (by decide!) (by decide!) (by decide!)).1,
   (getCValues_stashCValues hector_constants ⟨false⟩ calm_ocean two_biomes 1750 1751 1000 4 4
      (by decide!) (by decide!) (by decide!) (by decide!)).2.2.2.1⟩

/-! ### `reset` of the forcing component -/

theorem tvector_find_truncate (v : tvector K) (t d : K) :
    (d ≤ t → tvector_find (tvector_truncate v t) d = tvector_find v d)
      ∧ (t < d → tvector_find (tvector_truncate v t) d = none) := by
  induction v with
  | nil => exact ⟨fun _ => rfl, fun _ => rfl⟩
  | cons p rest ih =>
    obtain ⟨d1, m⟩ := p
    unfold tvector_truncate at ih ⊢
    by_cases h1 : d1 ≤ t
    · rw [List.filter_cons_of_pos (by simpa using h1)]
      unfold tvector_find
      by_cases hd : d1 = d
      · rw [if_pos hd, if_pos hd]
        refine ⟨fun _ => rfl, fun h => ?_⟩
        rw [hd] at h1
        exact absurd h (not_lt.mpr h1)
      · rw [if_neg hd, if_neg hd]
        exact ih
    · rw [List.filter_cons_of_neg (by simpa using h1)]
      refine ⟨fun h => ?_, ih.2⟩
      have hne : ¬ d1 = d := fun e => h1 (by rw [e]; exact h)
      have hcons : tvector_find ((d1, m) :: rest) d = tvector_find rest d := by
        simp only [tvector_find, if_neg hne]
      rw [ih.1 h, hcons]

/-- C31: `reset( t )` of the forcing component sets `currentYear` to `t`; of the entries of
`forcings_ts` it keeps those with a date `<= t`, unchanged, and drops those with a date
`> t`; and it leaves `baseyear`, `baseyear_forcings`, the seven scalar parameters and
`Ftot_constrain` as they were. -/
theorem forcing_reset (f : ForcingComponent K) (t : K) :
    (ForcingComponent.reset f t).currentYear = t
      ∧ (∀ entry, entry ∈ (ForcingComponent.reset f t).forcings_ts
          ↔ entry ∈ f.forcings_ts ∧ entry.1 ≤ t)
      ∧ (∀ d, d ≤ t →
          tvector_find (ForcingComponent.reset f t).forcings_ts d = tvector_find f.forcings_ts d)
      ∧ (∀ d, t < d → tvector_find (ForcingComponent.reset f t).forcings_ts d = none)
      ∧ (ForcingComponent.reset f t).baseyear = f.baseyear
      ∧ (ForcingComponent.reset f t).baseyear_forcings = f.baseyear_forcings
      ∧ (ForcingComponent.reset f t).aCO2 = f.aCO2
      ∧ (ForcingComponent.reset f t).delta_ch4 = f.delta_ch4
      ∧ (ForcingComponent.reset f t).delta_n2o = f.delta_n2o
      ∧ (ForcingComponent.reset f t).delta_co2 = f.delta_co2
      ∧ (ForcingComponent.reset f t).rho_bc = f.rho_bc
      ∧ (ForcingComponent.reset f t).rho_oc = f.rho_oc
      ∧ (ForcingComponent.reset f t).rho_so2 = f.rho_so2
      ∧ (ForcingComponent.reset f t).Ftot_constrain = f.Ftot_constrain := by
  refine ⟨rfl, ?_, fun d hd => (tvector_find_truncate f.forcings_ts t d).1 hd,
    fun d hd => (tvector_find_truncate f.forcings_ts t d).2 hd, rfl, rfl, rfl, rfl, rfl, rfl,
    rfl, rfl, rfl, rfl⟩
  intro entry
  unfold ForcingComponent.reset tvector_truncate
  simp only [List.mem_filter, decide_eq_true_eq]

/-- Witness for C31: after `run( 1751 )` and `run( 1800 )`, `reset( 1760 )` keeps the map
stored for 1751 and drops the one stored for 1800. -/
theorem forcing_reset_witness :
    tvector_find (ForcingComponent.reset (ForcingComponent.run table_libm ar6_constants
        (volcanic_hub 4 7) (ForcingComponent.run table_libm ar6_constants (volcanic_hub 3 5)
          free_forcing 1751).state 1800).state 1760).forcings_ts 1751
        = tvector_find (ForcingComponent.run table_libm ar6_constants
        (volcanic_hub 4 7) (ForcingComponent.run table_libm ar6_constants (volcanic_hub 3 5)
          free_forcing 1751).state 1800).state.forcings_ts 1751
      ∧ tvector_find (ForcingComponent.reset (ForcingComponent.run table_libm ar6_constants
        (volcanic_hub 4 7) (ForcingComponent.run table_libm ar6_constants (volcanic_hub 3 5)
          free_forcing 1751).state 1800).state 1760).forcings_ts 1800 = none :=
  ⟨(forcing_reset (ForcingComponent.run table_libm ar6_constants
      (volcanic_hub 4 7) (ForcingComponent.run table_libm ar6_constants (volcanic_hub 3 5)
        free_forcing 1751).state 1800).state 1760).2.2.1 1751 (by decide!),
   (forcing_reset (ForcingComponent.run table_libm ar6_constants
      (volcanic_hub 4 7) (ForcingComponent.run table_libm ar6_constants (volcanic_hub 3 5)
        free_forcing 1751).state 1800).state 1760).2.2.2.1 1800 (by decide!)⟩

/-! ### `getData` of the SO2 forcing -/

/-- C35: for an effective date at or after the base year for which a forcing map is stored,
`getData( D_RF_SO2 )` returns 0 (the value of the default-constructed `returnval`, which the
branch for `D_RF_SO2` leaves as it is), whatever that map holds under `D_RF_SO2`. -/
theorem getData_so2 (u : K) (f : ForcingComponent K) (date : K) (stored : stringmap K)
    (h : ¬ (if date = u then f.currentYear else date) < f.baseyear)
    (hs : tvector_find f.forcings_ts (if date = u then f.currentYear else date) = some stored) :
    ForcingComponent.getData u f D_RF_SO2 date = Except.ok 0 := by
  rw [getData_after u f D_RF_SO2 date stored h hs, if_neg (by decide), if_pos rfl]

/-- Witness for C35: SO2 emissions of 100 at the base year 1751 and of 200 at 1800 with
`rho_so2 = -1/100`: the map stored for 1800 holds -1 under `D_RF_SO2`, and `getData` returns
0. -/
theorem getData_so2_witness :
    (∃ stored, tvector_find (ForcingComponent.run table_libm ar6_constants (aerosol_hub 200)
          (ForcingComponent.run table_libm ar6_constants (aerosol_hub 100) aerosol_forcing
            1751).state 1800).state.forcings_ts 1800 = some stored
        ∧ map_find stored D_RF_SO2 = some (-1))
      ∧ ForcingComponent.getData (-1)
          (ForcingComponent.run table_libm ar6_constants (aerosol_hub 200)
            (ForcingComponent.run table_libm ar6_constants (aerosol_hub 100) aerosol_forcing
              1751).state 1800).state D_RF_SO2 1800 = Except.ok 0 :=
  ⟨⟨[("D_RF_BC", 0), ("D_RF_OC", 0), ("D_RF_SO2", -1), ("D_RF_TOTAL", -1)], by decide!,
      by decide!⟩,
   getData_so2 (-1) (ForcingComponent.run table_libm ar6_constants (aerosol_hub 200)
      (ForcingComponent.run table_libm ar6_constants (aerosol_hub 100) aerosol_forcing
        1751).state 1800).state 1800
      [("D_RF_BC", 0), ("D_RF_OC", 0), ("D_RF_SO2", -1), ("D_RF_TOTAL", -1)] (by decide!)
      (by decide!)⟩

/-! ### Additivity of the rebased total -/

theorem map_set_mid {α : Type} (pre rest : stringmap α) (key : String) (x v : α)
    (h : key ∉ map_keys pre) :
    map_set (pre ++ (key, x) :: rest) key v = pre ++ (key, v) :: rest := by
  induction pre with
  | nil =>
    simp only [List.nil_append]
    unfold map_set
    rw [if_pos rfl]
  | cons p pre ih =>
    obtain ⟨k1, v1⟩ := p
    have h2 : ¬ k1 = key ∧ key ∉ map_keys pre := by
      simp only [map_keys, List.map_cons, List.mem_cons, not_or] at h ⊢
      exact ⟨fun e => h.1 e.symm, h.2⟩
    simp only [List.cons_append]
    unfold map_set
    rw [if_neg h2.1, ih h2.2]

theorem map_set_append {α : Type} (m : stringmap α) (key : String) (x : α)
    (h : key ∉ map_keys m) : map_set m key x = m ++ [(key, x)] := by
  induction m with
  | nil => rfl
  | cons p rest ih =>
    obtain ⟨k1, v1⟩ := p
    have h2 : ¬ k1 = key ∧ key ∉ map_keys rest := by
      simp only [map_keys, List.map_cons, List.mem_cons, not_or] at h ⊢
      exact ⟨fun e => h.1 e.symm, h.2⟩
    simp only [List.cons_append]
    unfold map_set
    rw [if_neg h2.1, ih h2.2]

/-- The rebasing loop of `run` over a map with different keys, as a list: when it returns,
every entry has been replaced, in place, by its value minus the base-year value under its
key. -/
theorem run_rebase_map :
    ∀ (l pre base stored : stringmap K), (map_keys (pre ++ l)).Nodup →
      run_rebase l (pre ++ l) base = Except.ok stored →
      stored = pre ++ l.map (fun p => (p.1, p.2 - (map_find base p.1).getD 0)) := by
  intro l
  induction l with
  | nil =>
    intro pre base stored _ h
    exact (Except.ok.inj h).symm
  | cons p rest ih =>
    obtain ⟨k1, v1⟩ := p
    intro pre base stored hn h
    have hkeys : map_keys (pre ++ (k1, v1) :: rest) = map_keys pre ++ k1 :: map_keys rest := by
      simp [map_keys]
    rw [hkeys] at hn
    have hpre : k1 ∉ map_keys pre := by
      intro hk
      exact (List.nodup_append.mp hn).2.2 hk (List.mem_cons_self _ _)
    rcases hf : map_find base k1 with _ | b
    · simp only [run_rebase, hf] at h
      cases h
    · simp only [run_rebase, hf] at h
      have happ : pre ++ (k1, v1 - b) :: rest = (pre ++ [(k1, v1 - b)]) ++ rest := by
        simp
      have hn2 : (map_keys ((pre ++ [(k1, v1 - b)]) ++ rest)).Nodup := by
        have e : map_keys ((pre ++ [(k1, v1 - b)]) ++ rest)
            = map_keys pre ++ k1 :: map_keys rest := by
          simp [map_keys]
        rw [e]
        exact hn
      rw [map_set_mid pre rest k1 v1 _ hpre, happ] at h
      rw [ih (pre ++ [(k1, v1 - b)]) base stored hn2 h]
      simp [hf]

theorem sum_map_sub_lookup (l : stringmap K) (b : String → K) :
    ((l.map (fun p => (p.1, p.2 - b p.1))).map Prod.snd).sum
      = (l.map Prod.snd).sum - ((map_keys l).map b).sum := by
  induction l with
  | nil => simp [map_keys]
  | cons p rest ih =>
    simp only [map_keys, List.map_cons, List.sum_cons] at ih ⊢
    rw [ih]
    ring

theorem sum_lookup_self (m : stringmap K) (hn : (map_keys m).Nodup) :
    ((map_keys m).map (fun key => (map_find m key).getD 0)).sum = (m.map Prod.snd).sum := by
  have h : (map_keys m).map (fun key => (map_find m key).getD 0) = m.map Prod.snd := by
    unfold map_keys
    rw [List.map_map]
    apply List.map_congr_left
    intro p hp
    have := map_find_of_mem m p.1 p.2 hn hp
    simp only [Function.comp_apply, this, Option.getD_some]
  rw [h]

theorem filter_rebased_agents (agents : stringmap K) (b : String → K) (x : K)
    (ht : D_RF_TOTAL ∉ map_keys agents) :
    (agents.map (fun p => (p.1, p.2 - b p.1)) ++ [(D_RF_TOTAL, x)]).filter
        (fun p => decide (p.1 ≠ D_RF_TOTAL))
      = agents.map (fun p => (p.1, p.2 - b p.1)) := by
  rw [List.filter_append]
  have h1 : ([(D_RF_TOTAL, x)] : stringmap K).filter (fun p => decide (p.1 ≠ D_RF_TOTAL))
      = [] := by
    simp
  have h2 : (agents.map (fun p => (p.1, p.2 - b p.1))).filter
      (fun p => decide (p.1 ≠ D_RF_TOTAL)) = agents.map (fun p => (p.1, p.2 - b p.1)) := by
    rw [List.filter_eq_self]
    intro p hp
    obtain ⟨q, hq, rfl⟩ := List.mem_map.mp hp
    have : q.1 ≠ D_RF_TOTAL := by
      intro e
      apply ht
      rw [← e]
      exact List.mem_map_of_mem Prod.fst hq
    simpa using this
  rw [h1, h2, List.append_nil]

/-- The map that `run` stores when the total is the sum of the agents and the base-year
total is the sum of the base-year values of these agents: its total is the sum of its
other entries. -/
theorem rebased_total_additive (agents base stored : stringmap K)
    (hn : (map_keys agents).Nodup) (ht : D_RF_TOTAL ∉ map_keys agents)
    (hr : run_rebase (map_set agents D_RF_TOTAL (Ftot_sum agents))
      (map_set agents D_RF_TOTAL (Ftot_sum agents)) base = Except.ok stored)
    (hb : (map_find base D_RF_TOTAL).getD 0
      = ((map_keys agents).map (fun key => (map_find base key).getD 0)).sum) :
    map_find stored D_RF_TOTAL
      = some (((stored.filter (fun p => decide (p.1 ≠ D_RF_TOTAL))).map Prod.snd).sum) := by
  have hnd : (map_keys (map_set agents D_RF_TOTAL (Ftot_sum agents))).Nodup :=
    map_keys_set_nodup agents D_RF_TOTAL _ hn
  obtain ⟨b, hbt, hlookup⟩ := (run_rebase_spec (map_set agents D_RF_TOTAL (Ftot_sum agents))
    (map_set agents D_RF_TOTAL (Ftot_sum agents)) base stored hnd hr).2 D_RF_TOTAL
    (Ftot_sum agents)
    (mem_of_map_find _ _ _ (smap_find_set_eq agents D_RF_TOTAL (Ftot_sum agents)))
  have hlist := run_rebase_map (map_set agents D_RF_TOTAL (Ftot_sum agents)) [] base stored
    hnd hr
  rw [List.nil_append, map_set_append agents D_RF_TOTAL (Ftot_sum agents) ht, List.map_append,
    List.map_cons, List.map_nil] at hlist
  rw [hlookup, hlist,
    filter_rebased_agents agents (fun key => (map_find base key).getD 0) _ ht,
    sum_map_sub_lookup agents (fun key => (map_find base key).getD 0), ← hb, hbt, Ftot_sum_eq]
  rfl

theorem agent_names_not_total : D_RF_TOTAL ∉ (agent_names : List String) := by
  decide

theorem run_absolute_frame (L : libm K) (k : forcing_constants K) (hub : forcing_hub K)
    (f : ForcingComponent K) (t y : K) (b : stringmap K) (ts : tvector K) :
    run_absolute L k hub
        { f with currentYear := y, baseyear_forcings := b, forcings_ts := ts } t
      = run_absolute L k hub f t := rfl

theorem run_absolute_free (L : libm K) (k : forcing_constants K) (hub : forcing_hub K)
    (f : ForcingComponent K) (t : K) (agents : stringmap K)
    (hc : Ftot_constrained f t = false)
    (ha : run_forcings L k hub f t = Except.ok agents) :
    run_absolute L k hub f t = Except.ok (map_set agents D_RF_TOTAL (Ftot_sum agents)) := by
  unfold run_absolute
  rw [ha]
  simp only [bind, Except.bind]
  unfold run_total
  dsimp only
  rw [hc]
  rfl

/-- C38: rebasing keeps the total additive. If no `Ftot_constrain` value applies at the base
year or at `t > baseyear`, and the blocks of `run` before "Total" produce forcings for the
same agents at both dates, then after `run( baseyear )` the total stored for the base year is
the sum of the other values stored there, and after a following `run( t )` the total stored
for `t` is the sum of the other values stored for `t`. -/
theorem run_total_additive (L : libm K) (k : forcing_constants K) (hub0 hub1 : forcing_hub K)
    (f : ForcingComponent K) (t : K) (agents0 agents1 : stringmap K)
    (ht : f.baseyear < t)
    (hc0 : Ftot_constrained f f.baseyear = false) (hc1 : Ftot_constrained f t = false)
    (ha0 : run_forcings L k hub0 f f.baseyear = Except.ok agents0)
    (ha1 : run_forcings L k hub1 f t = Except.ok agents1)
    (hsame : ∀ key, key ∈ map_keys agents0 ↔ key ∈ map_keys agents1) :
    (ForcingComponent.run L k hub0 f f.baseyear).failure = none
      ∧ (ForcingComponent.run L k hub1
          (ForcingComponent.run L k hub0 f f.baseyear).state t).failure = none
      ∧ (∃ stored,
          tvector_find (ForcingComponent.run L k hub0 f f.baseyear).state.forcings_ts
              f.baseyear = some stored
            ∧ map_find stored D_RF_TOTAL
              = some (((stored.filter (fun p => decide (p.1 ≠ D_RF_TOTAL))).map
                  Prod.snd).sum))
      ∧ ∃ stored,
          tvector_find (ForcingComponent.run L k hub1
              (ForcingComponent.run L k hub0 f f.baseyear).state t).state.forcings_ts t
              = some stored
            ∧ map_find stored D_RF_TOTAL
              = some (((stored.filter (fun p => decide (p.1 ≠ D_RF_TOTAL))).map
                  Prod.snd).sum) := by
  have hn0 := run_forcings_nodup L k hub0 f f.baseyear agents0 ha0
  have hn1 := run_forcings_nodup L k hub1 f t agents1 ha1
  have ht0 : D_RF_TOTAL ∉ map_keys agents0 := fun h =>
    agent_names_not_total (run_forcings_keys L k hub0 f f.baseyear agents0 ha0 D_RF_TOTAL h)
  have ht1 : D_RF_TOTAL ∉ map_keys agents1 := fun h =>
    agent_names_not_total (run_forcings_keys L k hub1 f t agents1 ha1 D_RF_TOTAL h)
  have habs0 := run_absolute_free L k hub0 f f.baseyear agents0 hc0 ha0
  have habs1 := run_absolute_free L k hub1 f t agents1 hc1 ha1
  have hok0 : (ForcingComponent.run L k hub0 f f.baseyear).failure = none := by
    refine (run_fails_iff L k hub0 f f.baseyear (lt_irrefl _)).mpr ⟨_, habs0, ?_⟩
    rw [if_pos rfl]
    exact fun _ h => h
  obtain ⟨m0, stored0, hm0, hr0, hst0⟩ := run_ok_inv L k hub0 f f.baseyear (lt_irrefl _) hok0
  have em0 : m0 = map_set agents0 D_RF_TOTAL (Ftot_sum agents0) :=
    Except.ok.inj (hm0.symm.trans habs0)
  rw [if_pos rfl] at hr0 hst0
  -- sums of the base-year values over the agents
  have hsum0 : ((map_keys agents0).map (fun key => (map_find m0 key).getD 0)).sum
      = Ftot_sum agents0 := by
    have hc : (map_keys agents0).map (fun key => (map_find m0 key).getD 0)
        = (map_keys agents0).map (fun key => (map_find agents0 key).getD 0) := by
      apply List.map_congr_left
      intro key hk
      have hne : D_RF_TOTAL ≠ key := fun e => ht0 (by rw [e]; exact hk)
      rw [em0, smap_find_set_ne agents0 D_RF_TOTAL key _ hne]
    rw [hc, sum_lookup_self agents0 hn0, Ftot_sum_eq]
  have htot0 : (map_find m0 D_RF_TOTAL).getD 0 = Ftot_sum agents0 := by
    rw [em0, smap_find_set_eq]
    rfl
  have hperm : List.Perm (map_keys agents1) (map_keys agents0) :=
    (List.perm_ext_iff_of_nodup hn1 hn0).mpr (fun key => (hsame key).symm)
  -- the second run
  have hbase1 : (ForcingComponent.run L k hub0 f f.baseyear).state.baseyear = f.baseyear := by
    rw [hst0]
  have hbf : (ForcingComponent.run L k hub0 f f.baseyear).state.baseyear_forcings = m0 := by
    rw [hst0]
  have hnb : ¬ t < (ForcingComponent.run L k hub0 f f.baseyear).state.baseyear := by
    rw [hbase1]
    exact not_lt.mpr (le_of_lt ht)
  have habs1s : run_absolute L k hub1 (ForcingComponent.run L k hub0 f f.baseyear).state t
      = Except.ok (map_set agents1 D_RF_TOTAL (Ftot_sum agents1)) := by
    rw [hst0, run_absolute_frame L k hub1 f t]
    exact habs1
  have hok1 : (ForcingComponent.run L k hub1
      (ForcingComponent.run L k hub0 f f.baseyear).state t).failure = none := by
    refine (run_fails_iff L k hub1 _ t hnb).mpr ⟨_, habs1s, ?_⟩
    rw [hbase1, if_neg (ne_of_gt ht), hbf, em0]
    intro key hk
    rcases (map_keys_set_mem agents1 D_RF_TOTAL key _).mp hk with e | e
    · exact (map_keys_set_mem agents0 D_RF_TOTAL key _).mpr (Or.inl e)
    · exact (map_keys_set_mem agents0 D_RF_TOTAL key _).mpr (Or.inr ((hsame key).mpr e))
  obtain ⟨m1, stored1, hm1, hr1, hst1⟩ := run_ok_inv L k hub1 _ t hnb hok1
  have em1 : m1 = map_set agents1 D_RF_TOTAL (Ftot_sum agents1) :=
    Except.ok.inj (hm1.symm.trans habs1s)
  rw [hbase1, if_neg (ne_of_gt ht), hbf] at hr1
  rw [hbase1, if_neg (ne_of_gt ht)] at hst1
  refine ⟨hok0, hok1, ⟨stored0, ?_, ?_⟩, ⟨stored1, ?_, ?_⟩⟩
  · rw [hst0]
    exact tvector_find_set_eq _ _ _
  · refine rebased_total_additive agents0 m0 stored0 hn0 ht0 ?_ ?_
    · rw [← em0]
      exact hr0
    · rw [htot0, hsum0]
  · rw [hst1]
    exact tvector_find_set_eq _ _ _
  · refine rebased_total_additive agents1 m0 stored1 hn1 ht1 ?_ ?_
    · rw [← em1]
      exact hr1
    · rw [htot0, (hperm.map _).sum_eq, hsum0]

/-- Witness for C38: base year 1751 with volcanic forcing 3 and CFC-12 forcing 5, then 1800
with 4 and 7: the map stored for 1800 holds 2, 1 and the total 3. -/
theorem run_total_additive_witness :
    ∃ stored, tvector_find (ForcingComponent.run table_libm ar6_constants (volcanic_hub 4 7)
        (ForcingComponent.run table_libm ar6_constants (volcanic_hub 3 5) free_forcing
          free_forcing.baseyear).state 1800).state.forcings_ts 1800 = some stored
      ∧ stored = [("D_RF_CFC12", 2), ("D_RF_VOL", 1), ("D_RF_TOTAL", 3)]
      ∧ map_find stored D_RF_TOTAL
        = some (((stored.filter (fun p => decide (p.1 ≠ D_RF_TOTAL))).map Prod.snd).sum) := by
  obtain ⟨stored, hs, hsum⟩ := (run_total_additive table_libm ar6_constants (volcanic_hub 3 5)
    (volcanic_hub 4 7) free_forcing 1800 [("D_RF_CFC12", 5), ("D_RF_VOL", 3)]
    [("D_RF_CFC12", 7), ("D_RF_VOL", 4)] (by decide!) (by decide!) (by decide!) (by decide!)
    (by decide!) (fun _ => Iff.rfl)).2.2.2
  exact ⟨stored, hs, Option.some.inj (hs.symm.trans (by decide!)), hsum⟩

end proofs

end Hector
